import Mathlib

/-! # ira-controller: annotation policy, owner resolution and certificate synchronisation

A shallow embedding of the decision logic of `internal/util/certificate.go`,
`internal/util/pod.go`, `internal/controller/pod_controller.go` and
`api/v1/pod_webhook.go`.

Conventions of the embedding.

* A Go `string` that is only compared, copied or concatenated is a Lean `String`.  Go
  measures `len` and slices in bytes: where the code does so (`getCommonName`) the string
  is the list `goBytes` of the bytes of its UTF-8 encoding, and the common name of a
  certificate is held as bytes, since a cut need not fall between two characters.
* A Go `map[string]string` is `Option (List (String × String))`: `none` is the nil map.
* A Go pointer that may be nil is an `Option`.
* Calls against the cluster and log lines are recorded, in order, in the `World` that
  every effectful function threads through.
* A Go panic is the `Outcome.panic` result; recursion through the cluster is bounded by
  a fuel argument and `Outcome.outOfFuel` marks its exhaustion.
-/

namespace Ira

/-! ## Annotation maps -/

/-- A Go `map[string]string`.  `none` is the nil map; in `some l` the first entry of `l`
with a given key is the binding of that key. -/
abbrev Annotations := Option (List (String × String))

/-- The Go index expression `m[k]`: the bound value, or the zero value `""` when the key
is not bound (also on the nil map). -/
def Annotations.index (m : Annotations) (k : String) : String :=
  match m with
  | none => ""
  | some l => (l.lookup k).getD ""

/-- Modelled from the spec: `util.MapContains`, whose source file is not among the
sources.  The spec (4.1) says that only the presence of the key is checked, that the value
may be the empty string, and that an absent map is treated as empty. -/
def MapContains (m : Annotations) (k : String) : Bool :=
  match m with
  | none => false
  | some l => (l.lookup k).isSome

/-! ## Kubernetes and cert-manager objects -/

/-- The type `metav1.OwnerReference`.  `Controller` and `BlockOwnerDeletion` are `*bool`
in Go. -/
structure OwnerReference where
  APIVersion : String
  Kind : String
  Name : String
  UID : String
  Controller : Option Bool
  BlockOwnerDeletion : Option Bool
  deriving DecidableEq, Repr

/-- The type `cmmeta.ObjectReference`. -/
structure ObjectReference where
  Name : String
  Kind : String
  Group : String
  deriving DecidableEq, Repr

/-- The type `cmv1.CertificatePrivateKey` (the fields the controller sets). -/
structure CertificatePrivateKey where
  Algorithm : String
  Size : Nat
  deriving DecidableEq, Repr

/-- The type `cmv1.CertificateSpec` (the fields the controller sets). -/
structure CertificateSpec where
  CommonName : List UInt8
  IssuerRef : ObjectReference
  SecretName : String
  PrivateKey : Option CertificatePrivateKey
  deriving DecidableEq, Repr

/-- The type `cmv1.Certificate`.  `ResourceVersion` is the opaque concurrency token of the
object metadata; `0` stands for the unset (empty) token. -/
structure Certificate where
  Name : String
  Namespace : String
  ResourceVersion : Nat
  OwnerReferences : List OwnerReference
  Spec : CertificateSpec
  deriving DecidableEq, Repr

/-- The constant `cmv1.RSAKeyAlgorithm`. -/
def RSAKeyAlgorithm : String := "RSA"

/-! ## Errors, outcomes and the recorded world -/

/-- Errors returned by the API clients.  `wrapped` is an error built by `fmt.Errorf` with
the `%+v` verb, which does not keep the cause reachable. -/
inductive ApiError where
  | notFound
  | alreadyExists
  | conflict
  | other (msg : String)
  | wrapped (msg : String) (cause : ApiError)
  deriving DecidableEq, Repr

/-- The test `errors.IsNotFound(err)` on a possibly nil error. -/
def IsNotFound : Option ApiError → Bool
  | some .notFound => true
  | _ => false

/-- How a Go call ends: it returns a value, it panics, or (in the model only) the fuel
that bounds the recursion through the cluster ran out. -/
inductive Outcome (α : Type) where
  | ok (a : α)
  | panic (msg : String)
  | outOfFuel
  deriving DecidableEq, Repr

/-- A call issued against the cluster. -/
inductive Call where
  | newClient
  | getObject (ns apiVersion kind name : String)
  | getPod (ns name : String)
  | newCertClient
  | certGet (ns name : String)
  | certCreate (ns : String) (cert : Certificate)
  | certUpdate (ns : String) (cert : Certificate)
  deriving DecidableEq, Repr

/-- What a run observes and changes: the certificate store with its version counter, the
calls issued so far and the log lines written so far (both oldest first). -/
structure World where
  certs : List Certificate
  nextVersion : Nat
  calls : List Call
  logs : List String
  deriving DecidableEq, Repr

/-- Record a call. -/
def World.call (w : World) (c : Call) : World :=
  { w with calls := w.calls ++ [c] }

/-- Record a log line. -/
def World.log (w : World) (msg : String) : World :=
  { w with logs := w.logs ++ [msg] }

/-- The type `ctrl.Result`. -/
structure Result where
  Requeue : Bool
  RequeueAfter : Nat
  deriving DecidableEq, Repr

/-- The empty `ctrl.Result{}`. -/
def Result.empty : Result := { Requeue := false, RequeueAfter := 0 }

/-! ## internal/util/certificate.go: names -/

/-- Source `GetCertName`: the value of the `ira.ontsys.com/cert` annotation when the key
is present, else the controller name followed by `-ira`. -/
def GetCertName (podAnnotations : Annotations) (resourceControllerName : String) : String :=
  if MapContains podAnnotations "ira.ontsys.com/cert" then
    podAnnotations.index "ira.ontsys.com/cert"
  else
    resourceControllerName ++ "-ira"

/-- The bytes of a Go string: its UTF-8 encoding.  The Go `len` of the string is the
length of this list. -/
def goBytes (s : String) : List UInt8 := s.toUTF8.data.toList

/-- The Go slice expression `s[:n]` for `n` not above `len(s)`: the first `n` bytes. -/
def sliceTo (s : List UInt8) (n : Nat) : List UInt8 := s.take n

/-- Source `getCommonName`; the result is given by its bytes. -/
def getCommonName (name : String) (ns : String) : List UInt8 :=
  let commonName := goBytes (ns ++ "/" ++ name)
  if commonName.length < 65 then
    commonName
  else
    sliceTo commonName 64

/-- Whether a string holds ASCII characters only, as the names and namespaces the API
server admits do. -/
def isAscii (s : String) : Bool := s.data.all (fun c => c.val ≤ 0x7f)

/-! ## Pods -/

/-- The type `v1.EnvVar` (name and literal value). -/
structure EnvVar where
  Name : String
  Value : String
  deriving DecidableEq, Repr

/-- The type `v1.VolumeMount` (the fields the webhook sets). -/
structure VolumeMount where
  Name : String
  MountPath : String
  deriving DecidableEq, Repr

/-- The type `resource.Quantity`, kept as the canonical text of the quantity. -/
structure Quantity where
  text : String
  deriving DecidableEq, Repr

/-- The type `v1.ResourceList`, a Go map from resource name to quantity, kept as the list
of its bindings. -/
abbrev ResourceList := List (String × Quantity)

/-- The Go map assignment `m[k] = q`. -/
def ResourceList.set (m : ResourceList) (k : String) (q : Quantity) : ResourceList :=
  (m.filter (fun e => !(e.1 == k))) ++ [(k, q)]

/-- The type `v1.ResourceRequirements`. -/
structure ResourceRequirements where
  Limits : ResourceList
  Requests : ResourceList
  deriving DecidableEq, Repr

/-- The type `v1.Container` (the fields the webhook reads or sets). -/
structure Container where
  Name : String
  Image : String
  Command : List String
  Args : List String
  Env : List EnvVar
  RestartPolicy : Option String
  Resources : ResourceRequirements
  VolumeMounts : List VolumeMount
  deriving DecidableEq, Repr

/-- The type `v1.Volume`: a name and, for a secret volume, the name of the secret. -/
structure Volume where
  Name : String
  Secret : Option String
  deriving DecidableEq, Repr

/-- The type `v1.Pod` (the fields the controller and the webhook read or set).  A nil
slice and an empty slice are both the empty list.  `DeletionTimestamp` is a
`*metav1.Time`; the time `0` is the zero time. -/
structure Pod where
  Name : String
  Namespace : String
  GenerateName : String
  UID : String
  Annotations : Annotations
  OwnerReferences : List OwnerReference
  DeletionTimestamp : Option Nat
  Phase : String
  Volumes : List Volume
  Containers : List Container
  InitContainers : List Container
  deriving DecidableEq, Repr

/-- The method `(*metav1.Time).IsZero`: nil or the zero time. -/
def IsZero : Option Nat → Bool
  | none => true
  | some t => t == 0

/-! ## The cluster seen by one run -/

/-- The part of the environment a run reads but does not change: whether the two client
constructors succeed, what the namespaced reads of owner objects and pods answer, how
`resource.MustParse` reads a quantity, and the failures the certificate client may
return in place of an answer of the store. -/
structure Cluster where
  clientErr : Bool
  getObject : String → String → String → String → Except ApiError (List OwnerReference)
  getPod : String → String → Except ApiError Pod
  certClientErr : Option ApiError
  certGetErr : Option ApiError
  certCreateErr : Option ApiError
  certUpdateErr : Option ApiError
  parseQuantity : String → Option Quantity

/-- The process-wide configuration variables of the webhook and controller packages. -/
structure Config where
  CredentialHelperImage : String
  CredentialHelperCpuRequest : String
  CredentialHelperMemoryRequest : String
  CredentialHelperCpuLimit : String
  CredentialHelperMemoryLimit : String
  SessionDuration : String
  DefaultIssuerKind : String
  DefaultIssuerName : String
  deriving DecidableEq, Repr

/-! ## internal/util/pod.go: owner resolution -/

/-- The kinds `getRootOwner` climbs through. -/
def controllerKinds : List String :=
  ["CronJob", "DaemonSet", "Deployment", "Job", "ReplicaSet", "StatefulSet"]

/-- The call `strings.ToLower` on a kind (ASCII letters). -/
def toLower (s : String) : String := String.mk (s.data.map Char.toLower)

/-- The `for` loop of source `getRootOwner`; `recur` is the recursive call on the owner
references of the fetched object.  Dereferencing a nil `Controller` panics before the kind
is looked at. -/
def getRootOwnerLoop (env : Cluster) (ns : String)
    (recur : List OwnerReference → World → Outcome (Option OwnerReference) × World) :
    List OwnerReference → World → Outcome (Option OwnerReference) × World
  | [], w => (.ok none, w)
  | owner :: rest, w =>
    let w := w.log "Processing owner reference"
    match owner.Controller with
    | none => (.panic "invalid memory address or nil pointer dereference", w)
    | some controller =>
      if controller && controllerKinds.contains owner.Kind then
        let w := w.call (.getObject ns owner.APIVersion owner.Kind owner.Name)
        match env.getObject ns owner.APIVersion owner.Kind owner.Name with
        | .error err =>
          if IsNotFound (some err) then
            (.ok none, w.log "Owner not found")
          else
            (.panic "could not get owner", w)
        | .ok parentOwners =>
          match recur parentOwners w with
          | (.ok none, w) => (.ok (some owner), w)
          | (parent, w) => (parent, w)
      else
        getRootOwnerLoop env ns recur rest w

/-- Source `getRootOwner`, with `fuel` bounding the depth of the recursion. -/
def getRootOwner (env : Cluster) (ns : String) :
    Nat → List OwnerReference → World → Outcome (Option OwnerReference) × World
  | 0 => getRootOwnerLoop env ns (fun _ w => (.outOfFuel, w))
  | fuel + 1 => getRootOwnerLoop env ns (getRootOwner env ns fuel)

/-- Source `ControllerNameFromPod`. -/
def ControllerNameFromPod (env : Cluster) (fuel : Nat) (pod : Pod) (w : World) :
    Outcome (String × Option OwnerReference) × World :=
  let w := w.call .newClient
  if env.clientErr then
    (.panic "could not get client", w)
  else
    match getRootOwner env pod.Namespace fuel pod.OwnerReferences w with
    | (.ok (some owner), w) => (.ok (owner.Name ++ "-" ++ toLower owner.Kind, some owner), w)
    | (.ok none, w) => (.ok (pod.Name, none), w)
    | (.panic msg, w) => (.panic msg, w)
    | (.outOfFuel, w) => (.outOfFuel, w)

/-! ## The certificate client -/

/-- Whether a stored certificate is the one with this namespace and name. -/
def Certificate.hasKey (ns name : String) (c : Certificate) : Bool :=
  c.Namespace == ns && c.Name == name

/-- What `cmClient.Get` answers on a store: an injected failure, else the stored
certificate, else not-found. -/
def certGetAnswer (env : Cluster) (certs : List Certificate) (ns name : String) :
    Except ApiError Certificate :=
  match env.certGetErr with
  | some err => .error err
  | none =>
    match certs.find? (Certificate.hasKey ns name) with
    | some c => .ok c
    | none => .error .notFound

/-- The call `cmClient.Get`: the answer, and the call recorded. -/
def certGet (env : Cluster) (ns name : String) (w : World) :
    Except ApiError Certificate × World :=
  (certGetAnswer env w.certs ns name, w.call (.certGet ns name))

/-- The call `cmClient.Create`: an injected failure, else already-exists when the key is
taken, else the object is stored under a fresh version. -/
def certCreate (env : Cluster) (ns : String) (cert : Certificate) (w : World) :
    Option ApiError × World :=
  let w := w.call (.certCreate ns cert)
  match env.certCreateErr with
  | some err => (some err, w)
  | none =>
    if w.certs.any (Certificate.hasKey ns cert.Name) then
      (some .alreadyExists, w)
    else
      (none, { w with
        certs := w.certs ++ [{ cert with Namespace := ns, ResourceVersion := w.nextVersion + 1 }],
        nextVersion := w.nextVersion + 1 })

/-- The call `cmClient.Update`: an injected failure, else not-found when nothing is
stored under the key, else a conflict when the version submitted is not the stored one,
else the stored object is replaced as a whole under a fresh version. -/
def certUpdate (env : Cluster) (ns : String) (cert : Certificate) (w : World) :
    Option ApiError × World :=
  let w := w.call (.certUpdate ns cert)
  match env.certUpdateErr with
  | some err => (some err, w)
  | none =>
    match w.certs.find? (Certificate.hasKey ns cert.Name) with
    | none => (some .notFound, w)
    | some found =>
      if found.ResourceVersion = cert.ResourceVersion then
        (none, { w with
          certs := w.certs.map (fun c =>
            if Certificate.hasKey ns cert.Name c then
              { cert with Namespace := ns, ResourceVersion := w.nextVersion + 1 }
            else c),
          nextVersion := w.nextVersion + 1 })
      else
        (some .conflict, w)

/-! ## internal/util/certificate.go: GenerateCertificate -/

/-- Source `GenerateCertificate`. -/
def GenerateCertificate (env : Cluster) (annotations : Annotations) (name : String)
    (ns : String) (ownerReference : Option OwnerReference) (issuerKind : String)
    (issuerName : String) (w : World) : (Result × Option ApiError) × World :=
  if MapContains annotations "ira.ontsys.com/trust-anchor" &&
      MapContains annotations "ira.ontsys.com/profile" &&
      MapContains annotations "ira.ontsys.com/role" then
    let w := w.log "Found resource with annotations"
    let certName := GetCertName annotations name
    let w := w.call .newCertClient
    match env.certClientErr with
    | some err => ((Result.empty, some err), w)
    | none =>
      let certificate : Certificate :=
        { Name := certName
          Namespace := ns
          ResourceVersion := 0
          OwnerReferences := []
          Spec :=
            { CommonName := getCommonName name ns
              IssuerRef := { Name := issuerName, Kind := issuerKind, Group := "cert-manager.io" }
              SecretName := certName
              PrivateKey := some { Algorithm := RSAKeyAlgorithm, Size := 8192 } } }
      let certificate : Certificate :=
        match ownerReference with
        | some ref => { certificate with OwnerReferences := [ref] }
        | none => certificate
      match certGet env ns certName w with
      | (.error err, w) =>
        if IsNotFound (some err) then
          let w := w.log "Cert doesn\x27t exist: creating"
          match certCreate env ns certificate w with
          | (some err, w) => ((Result.empty, some err), w)
          | (none, w) => ((Result.empty, none), w)
        else
          ((Result.empty, some err), w)
      | (.ok foundCertificate, w) =>
        let w := w.log "Found certificate"
        let certificate : Certificate :=
          { certificate with ResourceVersion := foundCertificate.ResourceVersion }
        match certUpdate env ns certificate w with
        | (some err, w) => ((Result.empty, some err), w)
        | (none, w) => ((Result.empty, none), w)
  else
    ((Result.empty, none), w.log "Skipping unannotated resource")

/-! ## internal/controller/pod_controller.go: Reconcile -/

/-- The call `metav1.NewControllerRef` for a pod and the group-version-kind `v1`, `Pod`. -/
def NewControllerRef (pod : Pod) : OwnerReference :=
  { APIVersion := "v1"
    Kind := "Pod"
    Name := pod.Name
    UID := pod.UID
    Controller := some true
    BlockOwnerDeletion := some true }

/-- Source `PodReconciler.Reconcile` for the request with namespace `ns` and name
`name`. -/
def Reconcile (cfg : Config) (env : Cluster) (fuel : Nat) (ns name : String) (w : World) :
    Outcome (Result × Option ApiError) × World :=
  let w := w.call (.getPod ns name)
  match env.getPod ns name with
  | .error err =>
    if IsNotFound (some err) then
      (.ok (Result.empty, none), w.log "Could not find Pod")
    else
      (.ok (Result.empty, some (.wrapped "could not fetch Pod: " err)), w)
  | .ok pod =>
    if !IsZero pod.DeletionTimestamp then
      (.ok (Result.empty, none), w.log "Skipping terminating pod")
    else
      let w := w.log "Reconciling Pod"
      match ControllerNameFromPod env fuel pod w with
      | (.panic msg, w) => (.panic msg, w)
      | (.outOfFuel, w) => (.outOfFuel, w)
      | (.ok (name, owner), w) =>
        let owner : OwnerReference :=
          match owner with
          | some ref => ref
          | none => NewControllerRef pod
        let issuerKind :=
          if MapContains pod.Annotations "ira.ontsys.com/issuer-kind" then
            pod.Annotations.index "ira.ontsys.com/issuer-kind"
          else cfg.DefaultIssuerKind
        let issuerName :=
          if MapContains pod.Annotations "ira.ontsys.com/issuer-name" then
            pod.Annotations.index "ira.ontsys.com/issuer-name"
          else cfg.DefaultIssuerName
        let (r, w) :=
          GenerateCertificate env pod.Annotations name pod.Namespace (some owner)
            issuerKind issuerName w
        (.ok r, w)

/-! ## api/v1/pod_webhook.go: Handle -/

/-- The answer of the admission handler.  `patch pod` is the response built by
`admission.PatchResponseFromRaw` from the request payload and the serialised `pod`. -/
inductive Response where
  | errored (code : Nat) (msg : String)
  | allowed (reason : String)
  | patch (pod : Pod)
  deriving DecidableEq, Repr

/-- The call `resource.MustParse`, which panics on text that is no quantity. -/
def MustParse (env : Cluster) (text : String) : Outcome Quantity :=
  match env.parseQuantity text with
  | some q => .ok q
  | none => .panic "cannot parse quantity"

/-- The resource requirements of the injected container, filled in the order of the
source: CPU request, CPU limit, memory request, memory limit. -/
def helperResources (cfg : Config) (env : Cluster) : Outcome ResourceRequirements :=
  let resources : ResourceRequirements := { Limits := [], Requests := [] }
  let step (text : String) (put : ResourceRequirements → Quantity → ResourceRequirements)
      (acc : Outcome ResourceRequirements) : Outcome ResourceRequirements :=
    match acc with
    | .ok r =>
      if text != "" then
        match MustParse env text with
        | .ok q => .ok (put r q)
        | .panic msg => .panic msg
        | .outOfFuel => .outOfFuel
      else .ok r
    | other => other
  let r := step cfg.CredentialHelperCpuRequest
    (fun r q => { r with Requests := r.Requests.set "cpu" q }) (.ok resources)
  let r := step cfg.CredentialHelperCpuLimit
    (fun r q => { r with Limits := r.Limits.set "cpu" q }) r
  let r := step cfg.CredentialHelperMemoryRequest
    (fun r q => { r with Requests := r.Requests.set "memory" q }) r
  step cfg.CredentialHelperMemoryLimit
    (fun r q => { r with Limits := r.Limits.set "memory" q }) r

/-- Source `podIraInjector.Handle`; `decoded` is what `p.decoder.Decode` makes of the
request.  Serialising a pod with `json.Marshal` does not fail, so the branch for its error
is left out, and the patch response is represented by the pod that is serialised. -/
def Handle (cfg : Config) (env : Cluster) (fuel : Nat) (decoded : Except String Pod)
    (w : World) : Outcome Response × World :=
  match decoded with
  | .error err =>
    (.ok (.errored 400 err), w.log "error occurred while decoding the admission request")
  | .ok pod =>
    let w := w.log "handling the pod CREATE/UPDATE event for"
    if !IsZero pod.DeletionTimestamp then
      (.ok (.allowed "pod terminating"), w.log "Skipping terminating pod")
    else if ["Failed", "Succeeded"].contains pod.Phase then
      (.ok (.allowed "pod finished"), w.log "Skipping finished pod")
    else if MapContains pod.Annotations "ira.ontsys.com/trust-anchor" &&
        MapContains pod.Annotations "ira.ontsys.com/profile" &&
        MapContains pod.Annotations "ira.ontsys.com/role" then
      match ControllerNameFromPod env fuel pod w with
      | (.panic msg, w) => (.panic msg, w)
      | (.outOfFuel, w) => (.outOfFuel, w)
      | (.ok (secretName, _), w) =>
        let pod : Pod := { pod with
          Volumes := pod.Volumes ++
            [{ Name := "ira-cert", Secret := some (GetCertName pod.Annotations secretName) }] }
        let endpoint := "http://127.0.0.1:9911"
        let endpoint :=
          if MapContains pod.Annotations "ira.ontsys.com/metadata-endpoint-trailing-slash" &&
              pod.Annotations.index "ira.ontsys.com/metadata-endpoint-trailing-slash" != "" then
            endpoint ++ "/"
          else endpoint
        let pod : Pod := { pod with
          Containers := pod.Containers.map (fun (c : Container) =>
            { c with Env := c.Env ++
                [{ Name := "AWS_EC2_METADATA_SERVICE_ENDPOINT", Value := endpoint }] }) }
        match helperResources cfg env with
        | .panic msg => (.panic msg, w)
        | .outOfFuel => (.outOfFuel, w)
        | .ok resources =>
          let pod : Pod := { pod with
            InitContainers := pod.InitContainers ++
              [{ Name := "ira"
                 Image := cfg.CredentialHelperImage
                 Command := ["aws_signing_helper"]
                 Args :=
                   [ "serve",
                     "--certificate",
                     "/ira-cert/tls.crt",
                     "--private-key",
                     "/ira-cert/tls.key",
                     "--trust-anchor-arn",
                     pod.Annotations.index "ira.ontsys.com/trust-anchor",
                     "--profile-arn",
                     pod.Annotations.index "ira.ontsys.com/profile",
                     "--role-arn",
                     pod.Annotations.index "ira.ontsys.com/role",
                     "\x27--session-duration=" ++ cfg.SessionDuration ++ "\x27" ]
                 Env := []
                 RestartPolicy := some "Always"
                 Resources := resources
                 VolumeMounts := [{ Name := "ira-cert", MountPath := "/ira-cert" }] }] }
          (.ok (.patch pod), w.log "Attempting to patch pod")
    else
      (.ok (.patch pod), w.log "Attempting to patch pod")

/-- Spec 4.1 `hasIdentity`: the trust-anchor, profile and role keys are all present. -/
def hasIdentity (a : Annotations) : Bool :=
  match a with
  | none => false
  | some l =>
    (l.lookup "ira.ontsys.com/trust-anchor").isSome &&
    (l.lookup "ira.ontsys.com/profile").isSome &&
    (l.lookup "ira.ontsys.com/role").isSome

/-! ## Specification vocabulary: annotations -/

/-- The key `k` is bound in the map (whatever its value); nothing is bound in the nil
map. -/
def Annotations.hasKey (a : Annotations) (k : String) : Prop :=
  ∃ l, a = some l ∧ k ∈ l.map Prod.fst

/-- The three identity keys are all bound. -/
def identityKeys (a : Annotations) : Prop :=
  a.hasKey "ira.ontsys.com/trust-anchor" ∧ a.hasKey "ira.ontsys.com/profile" ∧
    a.hasKey "ira.ontsys.com/role"

/-- The map with every value replaced through `f`, keys kept. -/
def Annotations.mapValues (f : String → String) (a : Annotations) : Annotations :=
  a.map (List.map (fun e => (e.1, f e.2)))

/-! ## Specification vocabulary: the certificate synchroniser -/

/-- Spec 3 `DesiredCertificate`: the object `GenerateCertificate` computes before it reads
the store. -/
def desiredCertificate (annotations : Annotations) (name ns : String)
    (ownerReference : Option OwnerReference) (issuerKind issuerName : String) : Certificate :=
  { Name := GetCertName annotations name
    Namespace := ns
    ResourceVersion := 0
    OwnerReferences := ownerReference.toList
    Spec :=
      { CommonName := getCommonName name ns
        IssuerRef := { Name := issuerName, Kind := issuerKind, Group := "cert-manager.io" }
        SecretName := GetCertName annotations name
        PrivateKey := some { Algorithm := "RSA", Size := 8192 } } }

/-- The world once the synchroniser has logged the annotated resource and built its
client. -/
def World.syncStarted (w : World) : World :=
  (w.log "Found resource with annotations").call .newCertClient

/-! ## Specification vocabulary: recorded calls -/

/-- The calls `GenerateCertificate` adds to the record. -/
def syncCalls (env : Cluster) (a : Annotations) (name ns : String)
    (o : Option OwnerReference) (ik iname : String) (certs : List Certificate) : List Call :=
  if MapContains a "ira.ontsys.com/trust-anchor" && MapContains a "ira.ontsys.com/profile" &&
      MapContains a "ira.ontsys.com/role" then
    match env.certClientErr with
    | some _ => [.newCertClient]
    | none =>
      match certGetAnswer env certs ns (GetCertName a name) with
      | .error err =>
        if IsNotFound (some err) then
          [.newCertClient, .certGet ns (GetCertName a name),
            .certCreate ns (desiredCertificate a name ns o ik iname)]
        else
          [.newCertClient, .certGet ns (GetCertName a name)]
      | .ok found =>
        [.newCertClient, .certGet ns (GetCertName a name),
          .certUpdate ns
            { desiredCertificate a name ns o ik iname with
              ResourceVersion := found.ResourceVersion }]
  else []

/-! ## Specification vocabulary: owner resolution -/

/-- Spec 4.2: a reference is a climb candidate when its controller flag is true and its
kind is one of the six controller kinds. -/
def OwnerReference.qualifies (o : OwnerReference) : Bool :=
  o.Controller == some true && controllerKinds.contains o.Kind

/-- The world after `n` more lines `Processing owner reference`. -/
def World.processed (w : World) (n : Nat) : World :=
  { w with logs := w.logs ++ List.replicate n "Processing owner reference" }

/-- The lookup `getRootOwner` issues for a reference. -/
def lookupOf (ns : String) (o : OwnerReference) : Call :=
  .getObject ns o.APIVersion o.Kind o.Name

/-- The chain `o1, ..., on` climbed from a list of owner references: each `o(i+1)` is the
first qualifying reference of the object fetched for `o(i)`, every reference scanned before
it has its controller flag set, every lookup succeeds, and the object fetched for `on` has
no qualifying reference (and all its flags set). -/
def ownerChain (env : Cluster) (ns : String) :
    List OwnerReference → List OwnerReference → Prop
  | owners, [] => ∀ p ∈ owners, p.Controller ≠ none ∧ p.qualifies = false
  | owners, o :: rest =>
    ∃ pre post parents, owners = pre ++ o :: post ∧
      (∀ p ∈ pre, p.Controller ≠ none ∧ p.qualifies = false) ∧ o.qualifies = true ∧
      env.getObject ns o.APIVersion o.Kind o.Name = .ok parents ∧
      ownerChain env ns parents rest

/-- The world `w2` continues `w`: same certificate store, and the calls of `w` followed by
further calls. -/
def World.continues (w w2 : World) : Prop :=
  w2.certs = w.certs ∧ w2.nextVersion = w.nextVersion ∧ ∃ t, w2.calls = w.calls ++ t

/-! ## Specification vocabulary: admission -/

/-- A pod the handler goes on to inspect: not terminating and not finished. -/
def Pod.admissible (pod : Pod) : Prop :=
  IsZero pod.DeletionTimestamp = true ∧ pod.Phase ∉ ["Failed", "Succeeded"]

/-! ## Fixtures: the objects of the controller tests -/

/-- A world with an empty certificate store and nothing recorded. -/
def World.init : World := { certs := [], nextVersion := 0, calls := [], logs := [] }

/-- A pod with the given name in namespace `default` and nothing else set. -/
def Pod.named (name : String) : Pod :=
  { Name := name, Namespace := "default", GenerateName := "", UID := "pod-uid",
    Annotations := none, OwnerReferences := [], DeletionTimestamp := none, Phase := "",
    Volumes := [], Containers := [], InitContainers := [] }

/-- The three identity annotations of the tests. -/
def identityAnnotations : List (String × String) :=
  [("ira.ontsys.com/trust-anchor", "ta"), ("ira.ontsys.com/profile", "p"),
    ("ira.ontsys.com/role", "c")]

/-- The controller reference to Deployment `deploy` held by its ReplicaSet. -/
def deploymentRef : OwnerReference :=
  { APIVersion := "apps/v1", Kind := "Deployment", Name := "deploy", UID := "deploy-uid",
    Controller := some true, BlockOwnerDeletion := none }

/-- The controller reference to ReplicaSet `deploy-76b849fb6c` held by its pods. -/
def replicaSetRef : OwnerReference :=
  { APIVersion := "apps/v1", Kind := "ReplicaSet", Name := "deploy-76b849fb6c",
    UID := "rs-uid", Controller := some true, BlockOwnerDeletion := none }

/-- An owner reference that is not a controller reference: the `controller` field is
absent, as `controllerutil.SetOwnerReference` leaves it. -/
def plainOwnerRef : OwnerReference :=
  { APIVersion := "v1", Kind := "ConfigMap", Name := "settings", UID := "cm-uid",
    Controller := none, BlockOwnerDeletion := none }

/-- A cluster in which both clients can be built, the Deployment `deploy` and its
ReplicaSet `deploy-76b849fb6c` exist in `default`, no other owner object and no pod is
found, and the certificate client never fails by itself. -/
def deploymentCluster : Cluster :=
  { clientErr := false
    getObject := fun ns apiVersion kind name =>
      if ns = "default" ∧ apiVersion = "apps/v1" ∧ kind = "ReplicaSet" ∧
          name = "deploy-76b849fb6c" then .ok [deploymentRef]
      else if ns = "default" ∧ apiVersion = "apps/v1" ∧ kind = "Deployment" ∧
          name = "deploy" then .ok []
      else .error .notFound
    getPod := fun _ _ => .error .notFound
    certClientErr := none
    certGetErr := none
    certCreateErr := none
    certUpdateErr := none
    parseQuantity := fun text => some { text := text } }

/-- The pod of the Deployment test. -/
def deploymentPod : Pod :=
  { Pod.named "deploy-76b849fb6c-dkmgf" with
    Annotations := some identityAnnotations
    OwnerReferences := [replicaSetRef] }

/-- A stand-alone pod whose only owner reference is not a controller reference. -/
def plainOwnedPod : Pod :=
  { Pod.named "standalone" with OwnerReferences := [plainOwnerRef] }

/-- The pod of the Deployment test with a plain owner reference listed before the
controller reference. -/
def mixedOwnedPod : Pod :=
  { deploymentPod with OwnerReferences := [plainOwnerRef, replicaSetRef] }

/-! ## Specification vocabulary and fixtures: the reconciler -/

/-- Spec 4.1 `issuerSelection`: each of kind and name is the annotation value when its key
is bound and the default otherwise. -/
def issuerSelection (cfg : Config) (a : Annotations) : String × String :=
  (if MapContains a "ira.ontsys.com/issuer-kind" then a.index "ira.ontsys.com/issuer-kind"
    else cfg.DefaultIssuerKind,
   if MapContains a "ira.ontsys.com/issuer-name" then a.index "ira.ontsys.com/issuer-name"
    else cfg.DefaultIssuerName)

/-- The world in which the reconciler starts owner resolution for a fetched live pod. -/
def World.reconciling (w : World) (ns name : String) : World :=
  (w.call (.getPod ns name)).log "Reconciling Pod"

/-- The orphan pod of the controller test (owner Deployment `no-exist`), annotated. -/
def orphanPod : Pod :=
  { Pod.named "no-ower" with
    Annotations := some identityAnnotations
    OwnerReferences :=
      [{ APIVersion := "apps/v1", Kind := "Deployment", Name := "no-exist", UID := "gone-uid",
         Controller := some true, BlockOwnerDeletion := none }] }

/-- The Deployment cluster in which the pods of the tests can be fetched by name. -/
def testCluster (pods : List Pod) : Cluster :=
  { deploymentCluster with
    getPod := fun ns name =>
      match pods.find? (fun p => p.Namespace == ns && p.Name == name) with
      | some p => .ok p
      | none => .error .notFound }

/-- The configuration of the test suites. -/
def testConfig : Config :=
  { CredentialHelperImage := "image"
    CredentialHelperCpuRequest := "250m"
    CredentialHelperMemoryRequest := "64Mi"
    CredentialHelperCpuLimit := ""
    CredentialHelperMemoryLimit := "128Mi"
    SessionDuration := "900"
    DefaultIssuerKind := "ClusterIssuer"
    DefaultIssuerName := "cluster-ira-ca" }

/-! ## Fixtures: the update test -/

/-- The certificate the update test finds in the store. -/
def existingCert : Certificate :=
  { Name := "existing-cert-ira"
    Namespace := "default"
    ResourceVersion := 7
    OwnerReferences := []
    Spec :=
      { CommonName := goBytes "IRA exists: default/existing-cert "
        IssuerRef := { Name := "cluster-ira-ca", Kind := "ClusterIssuer", Group := "cert-manager.io" }
        SecretName := "existing-cert-ira"
        PrivateKey := some { Algorithm := "RSA", Size := 8192 } } }

/-- The world of the update test: `existingCert` is stored. -/
def existingWorld : World := { certs := [existingCert], nextVersion := 7, calls := [], logs := [] }

/-! ## Specification vocabulary: the store up to version stamps -/

/-- The semantic fields of a certificate: everything but the version stamp. -/
def Certificate.semantic (c : Certificate) : Certificate := { c with ResourceVersion := 0 }

/-- The store up to version stamps. -/
def World.semanticStore (w : World) : List Certificate := w.certs.map Certificate.semantic

/-- The store holds an object under the namespace and name of `d`, and every object it
holds there has the semantic fields of `d`. -/
def World.holds (w : World) (d : Certificate) : Prop :=
  w.certs.any (Certificate.hasKey d.Namespace d.Name) = true ∧
  ∀ c ∈ w.certs, Certificate.hasKey d.Namespace d.Name c = true → c.semantic = d.semantic

/-! ## Specification vocabulary: the mutation of spec 4.4, step 5 -/

/-- The trailing-slash annotation is bound to a value other than the empty string. -/
def trailingSlash (a : Annotations) : Prop :=
  ∃ l v, a = some l ∧ l.lookup "ira.ontsys.com/metadata-endpoint-trailing-slash" = some v ∧
    v ≠ ""

/-- The init container the handler appends, for the given annotations and resources. -/
def helperContainer (cfg : Config) (a : Annotations) (resources : ResourceRequirements) :
    Container :=
  { Name := "ira"
    Image := cfg.CredentialHelperImage
    Command := ["aws_signing_helper"]
    Args :=
      [ "serve", "--certificate", "/ira-cert/tls.crt", "--private-key", "/ira-cert/tls.key",
        "--trust-anchor-arn", a.index "ira.ontsys.com/trust-anchor",
        "--profile-arn", a.index "ira.ontsys.com/profile",
        "--role-arn", a.index "ira.ontsys.com/role",
        "\x27--session-duration=" ++ cfg.SessionDuration ++ "\x27" ]
    Env := []
    RestartPolicy := some "Always"
    Resources := resources
    VolumeMounts := [{ Name := "ira-cert", MountPath := "/ira-cert" }] }

/-- The pod the handler serialises for an admissible annotated pod, once the controller
name `n` is resolved, the endpoint value is chosen and the resources are read. -/
def mutatedPod (cfg : Config) (pod : Pod) (n endpoint : String)
    (resources : ResourceRequirements) : Pod :=
  { pod with
    Volumes := pod.Volumes ++
      [{ Name := "ira-cert", Secret := some (GetCertName pod.Annotations n) }]
    Containers := pod.Containers.map (fun (c : Container) =>
      { c with Env := c.Env ++
          [{ Name := "AWS_EC2_METADATA_SERVICE_ENDPOINT", Value := endpoint }] })
    InitContainers := pod.InitContainers ++ [helperContainer cfg pod.Annotations resources] }

/-- The world in which the handler starts working on a decoded pod. -/
def World.handling (w : World) : World := w.log "handling the pod CREATE/UPDATE event for"

/-- The bindings one configuration string contributes to a resource map: none when the
string is empty, else the key bound to the quantity the string parses to. -/
def configuredQuantity (env : Cluster) (text key : String) : ResourceList :=
  if text = "" then []
  else
    match env.parseQuantity text with
    | some q => [(key, q)]
    | none => []

/-- A configuration string is empty or is a valid quantity. -/
def validQuantityText (env : Cluster) (text : String) : Prop :=
  text = "" ∨ ∃ q, env.parseQuantity text = some q

/-! ## Fixtures: the pods of the webhook tests -/

/-- The container every test pod runs. -/
def myContainer : Container :=
  { Name := "my-container", Image := "my-image", Command := [], Args := [], Env := [],
    RestartPolicy := none, Resources := { Limits := [], Requests := [] }, VolumeMounts := [] }

/-- The pod `annotated` of the webhook test: the three identity annotations and nothing
else. -/
def annotatedPod : Pod :=
  { Pod.named "annotated" with
    Annotations := some identityAnnotations
    Containers := [myContainer] }

/-- The pod `named-cert` of the webhook test: the identity annotations and the certificate
name `cert-name`. -/
def namedCertPod : Pod :=
  { Pod.named "named-cert" with
    Annotations := some (identityAnnotations ++ [("ira.ontsys.com/cert", "cert-name")])
    Containers := [myContainer] }

/-- The pod `finished` of the webhook test, here also annotated. -/
def finishedPod : Pod :=
  { Pod.named "finished" with
    Annotations := some identityAnnotations
    Phase := "Succeeded"
    Containers := [myContainer] }

/-- The pod `unannotated` of the controller test. -/
def unannotatedPod : Pod :=
  { Pod.named "unannotated" with Containers := [myContainer] }

/-! ## Specification vocabulary: answers of the certificate client, submitted objects -/

/-- What `cmClient.Create` answers on a store: an injected failure, else already-exists
when the name is taken, else success. -/
def certCreateAnswer (env : Cluster) (certs : List Certificate) (ns name : String) :
    Option ApiError :=
  match env.certCreateErr with
  | some err => some err
  | none => if certs.any (Certificate.hasKey ns name) then some .alreadyExists else none

/-- What `cmClient.Update` answers on a store for an object submitted with the given
version: an injected failure, else not-found, else a conflict on a stale version, else
success. -/
def certUpdateAnswer (env : Cluster) (certs : List Certificate) (ns name : String)
    (version : Nat) : Option ApiError :=
  match env.certUpdateErr with
  | some err => some err
  | none =>
    match certs.find? (Certificate.hasKey ns name) with
    | none => some .notFound
    | some found => if found.ResourceVersion = version then none else some .conflict

/-- The certificate a call submits to the store, if the call is a write. -/
def Call.submitted : Call → Option Certificate
  | .certCreate _ c => some c
  | .certUpdate _ c => some c
  | _ => none

/-- The certificates submitted by a list of calls, in order. -/
def submittedCertificates (calls : List Call) : List Certificate :=
  calls.filterMap Call.submitted

/-- Whether a call goes to the certificate client. -/
def Call.isCert : Call → Bool
  | .newCertClient => true
  | .certGet _ _ => true
  | .certCreate _ _ => true
  | .certUpdate _ _ => true
  | _ => false

/-- A cluster as `deploymentCluster` whose certificate get fails with a server error. -/
def getFailingCluster : Cluster :=
  { deploymentCluster with certGetErr := some (.other "internal error") }

/-- The pod `deleting` of the controller test once its deletion has begun. -/
def deletingPod : Pod :=
  { Pod.named "deleting" with
    Annotations := some identityAnnotations
    DeletionTimestamp := some 1719835200
    Containers := [myContainer] }


/-! ## Specification vocabulary: what a run adds to the record -/

/-- The world with further calls and log lines recorded, the store untouched. -/
def World.extend (w : World) (t : List Call) (l : List String) : World :=
  { w with calls := w.calls ++ t, logs := w.logs ++ l }

/-! ## cmd/root.go: configure -/

/-- The type `rootFlags`. -/
structure rootFlags where
  enableHTTP2 : Bool
  enableLeaderElection : Bool
  generateCert : Bool
  metricsAddr : String
  probeAddr : String
  secureMetrics : Bool
  deriving DecidableEq, Repr

/-- What `configure` sets up on a manager: the options `ctrl.NewManager` was called with
and the registrations made afterwards. -/
structure Manager where
  metricsAddr : String
  secureMetrics : Bool
  probeAddr : String
  leaderElection : Bool
  leaderElectionID : String
  disableHTTP2 : Bool
  webhookRegistered : Bool
  reconcilerSetUp : Bool
  healthz : Bool
  readyz : Bool
  deriving DecidableEq, Repr

/-- The surroundings of `configure`: whether `ctrl.NewManager` fails on the given flags,
the value of the environment variable `ENABLE_WEBHOOKS`, and whether the controller setup
and the two health registrations fail. -/
structure Startup where
  newManagerErr : rootFlags → Option String
  enableWebhooks : String
  setupErr : Option String
  healthzErr : Option String
  readyzErr : Option String

/-- What a run of `configure` leaves behind: the messages logged as errors and the number
of calls of `ctrl.NewManager`. -/
structure StartupRecord where
  logs : List String
  newManagerCalls : Nat
  deriving DecidableEq, Repr

/-- The kinds `configure` accepts: `cmv1.ClusterIssuerKind` and `cmv1.IssuerKind`. -/
def issuerKinds : List String := ["ClusterIssuer", "Issuer"]

/-- Source `configure`; the package variables it reads are the fields of `cfg`. -/
def configure (cfg : Config) (sys : Startup) (f : rootFlags) :
    (Option Manager × Nat) × StartupRecord :=
  if cfg.CredentialHelperImage == "" then
    ((none, 1),
      { logs := ["Please provide an image to use that contains the rolesanywhere-credential-helper"],
        newManagerCalls := 0 })
  else if !issuerKinds.contains cfg.DefaultIssuerKind then
    ((none, 1),
      { logs := ["Please provide a valid issuer kind (" ++ ",".intercalate issuerKinds ++ ")"],
        newManagerCalls := 0 })
  else
    let disableHTTP2 := !f.enableHTTP2
    match sys.newManagerErr f with
    | some _ => ((none, 1), { logs := ["unable to start manager"], newManagerCalls := 1 })
    | none =>
      let mgr : Manager :=
        { metricsAddr := f.metricsAddr
          secureMetrics := f.secureMetrics
          probeAddr := f.probeAddr
          leaderElection := f.enableLeaderElection
          leaderElectionID := "fe237894.ontsys.com"
          disableHTTP2 := disableHTTP2
          webhookRegistered := false
          reconcilerSetUp := false
          healthz := false
          readyz := false }
      let mgr : Manager :=
        if sys.enableWebhooks != "false" then { mgr with webhookRegistered := true } else mgr
      match (if f.generateCert then sys.setupErr else none) with
      | some _ => ((none, 1), { logs := ["unable to create controller"], newManagerCalls := 1 })
      | none =>
        let mgr : Manager := if f.generateCert then { mgr with reconcilerSetUp := true } else mgr
        match sys.healthzErr with
        | some _ =>
          ((none, 1), { logs := ["unable to set up health check"], newManagerCalls := 1 })
        | none =>
          let mgr : Manager := { mgr with healthz := true }
          match sys.readyzErr with
          | some _ =>
            ((none, 1), { logs := ["unable to set up ready check"], newManagerCalls := 1 })
          | none => ((some { mgr with readyz := true }, 0), { logs := [], newManagerCalls := 1 })

/-- The flags of the configuration tests. -/
def testFlags : rootFlags :=
  { enableHTTP2 := false, enableLeaderElection := false, generateCert := false,
    metricsAddr := "0", probeAddr := ":8081", secureMetrics := false }

/-- Surroundings in which nothing fails. -/
def quietStartup : Startup :=
  { newManagerErr := fun _ => none, enableWebhooks := "", setupErr := none,
    healthzErr := none, readyzErr := none }

/-- The package variables as the configuration tests leave them before each test: no image
and no issuer kind. -/
def blankConfig : Config :=
  { CredentialHelperImage := ""
    CredentialHelperCpuRequest := ""
    CredentialHelperMemoryRequest := ""
    CredentialHelperCpuLimit := ""
    CredentialHelperMemoryLimit := ""
    SessionDuration := ""
    DefaultIssuerKind := ""
    DefaultIssuerName := "" }

/-! ## Fixtures: issuer annotations -/

/-- The pod `issuer` of the controller test: both issuer annotations. -/
def issuerPod : Pod :=
  { Pod.named "issuer" with
    Annotations := some (identityAnnotations ++
      [("ira.ontsys.com/issuer-kind", "Issuer"), ("ira.ontsys.com/issuer-name", "i")])
    Containers := [myContainer] }

/-- A pod that overrides the issuer kind only. -/
def issuerKindPod : Pod :=
  { Pod.named "issuer-kind" with
    Annotations := some (identityAnnotations ++ [("ira.ontsys.com/issuer-kind", "Issuer")])
    Containers := [myContainer] }

/-- The pod with the long name of the controller test, whose common name is truncated. -/
def longNamePod : Pod :=
  { Pod.named
      "this-is-a-really-long-pod-name-that-will-cause-a-failure-when-creating-the-cert" with
    Annotations := some identityAnnotations
    Containers := [myContainer] }

/-! ## Specification vocabulary: depth of the owner chain -/

/-- The chain of first qualifying references that starts from `owners` has at most `d`
references: either no reference of `owners` qualifies, or `d` is positive and the lookup of
the first qualifying one fails or answers owner references whose chain has at most `d - 1`
references. -/
def chainWithin (env : Cluster) (ns : String) : Nat → List OwnerReference → Bool
  | 0, owners => (owners.find? OwnerReference.qualifies).isNone
  | d + 1, owners =>
    match owners.find? OwnerReference.qualifies with
    | none => true
    | some o =>
      match env.getObject ns o.APIVersion o.Kind o.Name with
      | .error _ => true
      | .ok parents => chainWithin env ns d parents

/-- A cluster with a cycle of ownership: every owner object, the ReplicaSet
`deploy-76b849fb6c` included, names that ReplicaSet as its controller. -/
def cyclicCluster : Cluster :=
  { deploymentCluster with getObject := fun _ _ _ _ => .ok [replicaSetRef] }

/-! ## Specification vocabulary: a lookup that fails -/

/-- The climb from `owners` reaches `bad` through the chain `chain` and fails there: each
reference of the chain is the first qualifying one of the list scanned (the owner
references of the pod, then of the object fetched for the reference before) and its lookup
succeeds; `bad` is the first qualifying reference of the object fetched last and its lookup
fails with an error other than not-found.  `flag` is what is asked of each reference
scanned before a qualifying one, besides not qualifying. -/
def failingChain (env : Cluster) (ns : String) (flag : OwnerReference → Prop) :
    List OwnerReference → List OwnerReference → OwnerReference → Prop
  | owners, [], bad =>
    ∃ pre post err, owners = pre ++ bad :: post ∧
      (∀ p ∈ pre, p.qualifies = false ∧ flag p) ∧ bad.qualifies = true ∧
      env.getObject ns bad.APIVersion bad.Kind bad.Name = .error err ∧
      IsNotFound (some err) = false
  | owners, o :: rest, bad =>
    ∃ pre post parents, owners = pre ++ o :: post ∧
      (∀ p ∈ pre, p.qualifies = false ∧ flag p) ∧ o.qualifies = true ∧
      env.getObject ns o.APIVersion o.Kind o.Name = .ok parents ∧
      failingChain env ns flag parents rest bad

/-- A cluster in which the ReplicaSet `deploy-76b849fb6c` is found, every other lookup of
an owner object fails with a server error, and the pod of the Deployment test can be
fetched. -/
def failingLookupCluster : Cluster :=
  { deploymentCluster with
    getObject := fun ns apiVersion kind name =>
      if ns = "default" ∧ apiVersion = "apps/v1" ∧ kind = "ReplicaSet" ∧
          name = "deploy-76b849fb6c" then .ok [deploymentRef]
      else .error (.other "etcdserver: request timed out")
    getPod := fun _ _ => .ok deploymentPod }

/-- A cluster in which the ReplicaSet `deploy-76b849fb6c` exists with the given owner
references and no other owner object is found: its Deployment is gone. -/
def orphanedReplicaSetCluster (owners : List OwnerReference) : Cluster :=
  { deploymentCluster with
    getObject := fun ns apiVersion kind name =>
      if ns = "default" ∧ apiVersion = "apps/v1" ∧ kind = "ReplicaSet" ∧
          name = "deploy-76b849fb6c" then .ok owners
      else .error .notFound }

/-! # Theorems -/

/-! ## Annotation policy -/

theorem lookup_isSome_iff (k : String) (l : List (String × String)) :
    (l.lookup k).isSome = true ↔ k ∈ l.map Prod.fst := by
  induction l with
  | nil => simp
  | cons e rest ih =>
    obtain ⟨k1, v1⟩ := e
    by_cases h : k = k1
    · subst h
      simp [List.lookup]
    · have hb : (k == k1) = false := by simpa using h
      simp [List.lookup, hb, ih, h]

theorem mapContains_iff (a : Annotations) (k : String) :
    MapContains a k = true ↔ a.hasKey k := by
  cases a with
  | none => simp [MapContains, Annotations.hasKey]
  | some l => simp [MapContains, Annotations.hasKey, lookup_isSome_iff]

theorem identity_condition_iff (a : Annotations) :
    (MapContains a "ira.ontsys.com/trust-anchor" && MapContains a "ira.ontsys.com/profile" &&
      MapContains a "ira.ontsys.com/role") = true ↔ identityKeys a := by
  simp [identityKeys, mapContains_iff, and_assoc]

theorem hasKey_mapValues (f : String → String) (a : Annotations) (k : String) :
    (a.mapValues f).hasKey k ↔ a.hasKey k := by
  cases a with
  | none => simp [Annotations.mapValues, Annotations.hasKey]
  | some l =>
    simp only [Annotations.mapValues, Annotations.hasKey, Option.map_some', Option.some.injEq,
      exists_eq_left', List.map_map]
    rfl

/-! ## Certificate synchroniser: the paths of `GenerateCertificate` -/

theorem GenerateCertificate_skip (env : Cluster) (a : Annotations) (name ns : String)
    (o : Option OwnerReference) (ik iname : String) (w : World) (h : ¬ identityKeys a) :
    GenerateCertificate env a name ns o ik iname w =
      ((Result.empty, none), w.log "Skipping unannotated resource") := by
  rw [← identity_condition_iff] at h
  simp [GenerateCertificate, h]

theorem GenerateCertificate_clientErr (env : Cluster) (a : Annotations) (name ns : String)
    (o : Option OwnerReference) (ik iname : String) (w : World) (h : identityKeys a)
    (err : ApiError) (hc : env.certClientErr = some err) :
    GenerateCertificate env a name ns o ik iname w =
      ((Result.empty, some err), w.syncStarted) := by
  rw [← identity_condition_iff] at h
  simp [GenerateCertificate, h, hc, World.syncStarted]

theorem GenerateCertificate_getErr (env : Cluster) (a : Annotations) (name ns : String)
    (o : Option OwnerReference) (ik iname : String) (w : World) (h : identityKeys a)
    (hc : env.certClientErr = none) (err : ApiError)
    (hg : certGetAnswer env w.certs ns (GetCertName a name) = .error err)
    (hn : IsNotFound (some err) = false) :
    GenerateCertificate env a name ns o ik iname w =
      ((Result.empty, some err), w.syncStarted.call (.certGet ns (GetCertName a name))) := by
  rw [← identity_condition_iff] at h
  have hg2 : certGetAnswer env (w.log "Found resource with annotations").certs ns
      (GetCertName a name) = .error err := hg
  simp [GenerateCertificate, h, hc, World.syncStarted, certGet, World.call, hg2, hn]

theorem GenerateCertificate_create (env : Cluster) (a : Annotations) (name ns : String)
    (o : Option OwnerReference) (ik iname : String) (w : World) (h : identityKeys a)
    (hc : env.certClientErr = none) (err : ApiError)
    (hg : certGetAnswer env w.certs ns (GetCertName a name) = .error err)
    (hn : IsNotFound (some err) = true) :
    GenerateCertificate env a name ns o ik iname w =
      ((Result.empty,
        (certCreate env ns (desiredCertificate a name ns o ik iname)
          ((w.syncStarted.call (.certGet ns (GetCertName a name))).log
            "Cert doesn\x27t exist: creating")).1),
       (certCreate env ns (desiredCertificate a name ns o ik iname)
          ((w.syncStarted.call (.certGet ns (GetCertName a name))).log
            "Cert doesn\x27t exist: creating")).2) := by
  rw [← identity_condition_iff] at h
  have hg2 : certGetAnswer env (w.log "Found resource with annotations").certs ns
      (GetCertName a name) = .error err := hg
  cases o <;>
    simp only [GenerateCertificate, h, hc, World.syncStarted, certGet, World.call, hg2, hn,
      desiredCertificate, RSAKeyAlgorithm, Option.toList, if_true] <;>
    split <;> simp_all

theorem GenerateCertificate_update (env : Cluster) (a : Annotations) (name ns : String)
    (o : Option OwnerReference) (ik iname : String) (w : World) (h : identityKeys a)
    (hc : env.certClientErr = none) (found : Certificate)
    (hg : certGetAnswer env w.certs ns (GetCertName a name) = .ok found) :
    GenerateCertificate env a name ns o ik iname w =
      ((Result.empty,
        (certUpdate env ns
          { desiredCertificate a name ns o ik iname with ResourceVersion := found.ResourceVersion }
          ((w.syncStarted.call (.certGet ns (GetCertName a name))).log "Found certificate")).1),
       (certUpdate env ns
          { desiredCertificate a name ns o ik iname with ResourceVersion := found.ResourceVersion }
          ((w.syncStarted.call (.certGet ns (GetCertName a name))).log "Found certificate")).2) := by
  rw [← identity_condition_iff] at h
  have hg2 : certGetAnswer env (w.log "Found resource with annotations").certs ns
      (GetCertName a name) = .ok found := hg
  cases o <;>
    simp only [GenerateCertificate, h, hc, World.syncStarted, certGet, World.call, hg2,
      desiredCertificate, RSAKeyAlgorithm, Option.toList, if_true] <;>
    split <;> simp_all

/-! ## Calls recorded by the clients -/

@[simp] theorem World.call_calls (w : World) (c : Call) : (w.call c).calls = w.calls ++ [c] := rfl

@[simp] theorem World.call_logs (w : World) (c : Call) : (w.call c).logs = w.logs := rfl

@[simp] theorem World.call_certs (w : World) (c : Call) : (w.call c).certs = w.certs := rfl

@[simp] theorem World.call_nextVersion (w : World) (c : Call) :
    (w.call c).nextVersion = w.nextVersion := rfl

@[simp] theorem World.log_calls (w : World) (m : String) : (w.log m).calls = w.calls := rfl

@[simp] theorem World.log_logs (w : World) (m : String) : (w.log m).logs = w.logs ++ [m] := rfl

@[simp] theorem World.log_certs (w : World) (m : String) : (w.log m).certs = w.certs := rfl

@[simp] theorem World.log_nextVersion (w : World) (m : String) :
    (w.log m).nextVersion = w.nextVersion := rfl

@[simp] theorem World.syncStarted_calls (w : World) :
    w.syncStarted.calls = w.calls ++ [.newCertClient] := rfl

@[simp] theorem World.syncStarted_certs (w : World) : w.syncStarted.certs = w.certs := rfl

@[simp] theorem World.syncStarted_nextVersion (w : World) :
    w.syncStarted.nextVersion = w.nextVersion := rfl

@[simp] theorem certCreate_calls (env : Cluster) (ns : String) (c : Certificate) (w : World) :
    (certCreate env ns c w).2.calls = w.calls ++ [.certCreate ns c] := by
  unfold certCreate
  cases env.certCreateErr <;> simp
  split <;> simp

@[simp] theorem certUpdate_calls (env : Cluster) (ns : String) (c : Certificate) (w : World) :
    (certUpdate env ns c w).2.calls = w.calls ++ [.certUpdate ns c] := by
  unfold certUpdate
  cases env.certUpdateErr <;> simp
  split
  · simp
  · split <;> simp

theorem GenerateCertificate_calls (env : Cluster) (a : Annotations) (name ns : String)
    (o : Option OwnerReference) (ik iname : String) (w : World) :
    (GenerateCertificate env a name ns o ik iname w).2.calls =
      w.calls ++ syncCalls env a name ns o ik iname w.certs := by
  by_cases h : identityKeys a
  · have hb := (identity_condition_iff a).2 h
    cases hc : env.certClientErr with
    | some err =>
      rw [GenerateCertificate_clientErr env a name ns o ik iname w h err hc]
      simp [syncCalls, hb, hc]
    | none =>
      cases hg : certGetAnswer env w.certs ns (GetCertName a name) with
      | error err =>
        cases hn : IsNotFound (some err) with
        | true =>
          rw [GenerateCertificate_create env a name ns o ik iname w h hc err hg hn]
          simp [syncCalls, hb, hc, hg, hn]
        | false =>
          rw [GenerateCertificate_getErr env a name ns o ik iname w h hc err hg hn]
          simp [syncCalls, hb, hc, hg, hn]
      | ok found =>
        rw [GenerateCertificate_update env a name ns o ik iname w h hc found hg]
        simp [syncCalls, hb, hc, hg]
  · rw [GenerateCertificate_skip env a name ns o ik iname w h]
    rw [← identity_condition_iff] at h
    simp [syncCalls, h]

/-! ## Owner resolution -/

@[simp] theorem World.processed_zero (w : World) : w.processed 0 = w := by
  simp [World.processed]

@[simp] theorem World.processed_calls (w : World) (n : Nat) :
    (w.processed n).calls = w.calls := rfl

@[simp] theorem World.processed_certs (w : World) (n : Nat) :
    (w.processed n).certs = w.certs := rfl

@[simp] theorem World.processed_nextVersion (w : World) (n : Nat) :
    (w.processed n).nextVersion = w.nextVersion := rfl

theorem World.log_processed (w : World) (n : Nat) :
    (w.log "Processing owner reference").processed n = w.processed (n + 1) := by
  simp [World.processed, World.log, List.replicate_succ]

theorem World.processed_log (w : World) (n : Nat) :
    (w.processed n).log "Processing owner reference" = w.processed (n + 1) := by
  simp [World.processed, World.log, List.replicate_succ']

theorem getRootOwnerLoop_skip (env : Cluster) (ns : String)
    (recur : List OwnerReference → World → Outcome (Option OwnerReference) × World)
    (pre rest : List OwnerReference) (w : World)
    (h : ∀ p ∈ pre, p.Controller ≠ none ∧ p.qualifies = false) :
    getRootOwnerLoop env ns recur (pre ++ rest) w =
      getRootOwnerLoop env ns recur rest (w.processed pre.length) := by
  induction pre generalizing w with
  | nil => simp
  | cons p pre ih =>
    have hp := h p (List.mem_cons_self _ _)
    have hrest : ∀ q ∈ pre, q.Controller ≠ none ∧ q.qualifies = false :=
      fun q hq => h q (List.mem_cons_of_mem _ hq)
    cases hc : p.Controller with
    | none => exact absurd hc hp.1
    | some c =>
      have hq : (c && controllerKinds.contains p.Kind) = false := by
        have := hp.2
        simp only [OwnerReference.qualifies, hc] at this
        cases c <;> simp_all
      have step : getRootOwnerLoop env ns recur (p :: (pre ++ rest)) w =
          getRootOwnerLoop env ns recur (pre ++ rest) (w.log "Processing owner reference") := by
        simp only [getRootOwnerLoop, hc, hq, Bool.false_eq_true, if_false]
      rw [List.cons_append, step, ih _ hrest, World.log_processed, List.length_cons]

/-- With no qualifying reference (and all flags set) the loop issues no lookup and finds no
owner. -/
theorem getRootOwnerLoop_none (env : Cluster) (ns : String)
    (recur : List OwnerReference → World → Outcome (Option OwnerReference) × World)
    (owners : List OwnerReference) (w : World)
    (h : ∀ p ∈ owners, p.Controller ≠ none ∧ p.qualifies = false) :
    getRootOwnerLoop env ns recur owners w = (.ok none, w.processed owners.length) := by
  have := getRootOwnerLoop_skip env ns recur owners [] w h
  simpa [getRootOwnerLoop] using this

theorem getRootOwner_none (env : Cluster) (ns : String) (fuel : Nat)
    (owners : List OwnerReference) (w : World)
    (h : ∀ p ∈ owners, p.Controller ≠ none ∧ p.qualifies = false) :
    getRootOwner env ns fuel owners w = (.ok none, w.processed owners.length) := by
  cases fuel <;> exact getRootOwnerLoop_none env ns _ owners w h

/-- The loop at its first qualifying reference: the lookup is issued and decides. -/
theorem getRootOwnerLoop_candidate (env : Cluster) (ns : String)
    (recur : List OwnerReference → World → Outcome (Option OwnerReference) × World)
    (pre post : List OwnerReference) (o : OwnerReference) (w : World)
    (h : ∀ p ∈ pre, p.Controller ≠ none ∧ p.qualifies = false) (ho : o.qualifies = true) :
    getRootOwnerLoop env ns recur (pre ++ o :: post) w =
      match env.getObject ns o.APIVersion o.Kind o.Name with
      | .error err =>
        if IsNotFound (some err) then
          (.ok none, ((w.processed (pre.length + 1)).call (lookupOf ns o)).log "Owner not found")
        else
          (.panic "could not get owner", (w.processed (pre.length + 1)).call (lookupOf ns o))
      | .ok parentOwners =>
        match recur parentOwners ((w.processed (pre.length + 1)).call (lookupOf ns o)) with
        | (.ok none, w) => (.ok (some o), w)
        | (parent, w) => (parent, w) := by
  rw [getRootOwnerLoop_skip env ns recur pre (o :: post) w h]
  have hc : o.Controller = some true := by
    cases hcc : o.Controller with
    | none => simp [OwnerReference.qualifies, hcc] at ho
    | some c => cases c <;> simp_all [OwnerReference.qualifies]
  have hk : controllerKinds.contains o.Kind = true := by
    simp only [OwnerReference.qualifies, hc] at ho
    simpa using ho
  simp only [getRootOwnerLoop, hc, hk, World.processed_log, lookupOf, Bool.and_self, if_true]

/-- Climbing a chain: with fuel for every level, `getRootOwner` returns the last reference
of the chain (none for the empty chain) after exactly one lookup per level, in order. -/
theorem getRootOwner_chain (env : Cluster) (ns : String) (chain : List OwnerReference) :
    ∀ (fuel : Nat) (owners : List OwnerReference) (w : World),
      ownerChain env ns owners chain → chain.length ≤ fuel →
      (getRootOwner env ns fuel owners w).1 = .ok chain.getLast? ∧
      (getRootOwner env ns fuel owners w).2.calls = w.calls ++ chain.map (lookupOf ns) ∧
      (getRootOwner env ns fuel owners w).2.certs = w.certs ∧
      (getRootOwner env ns fuel owners w).2.nextVersion = w.nextVersion := by
  induction chain with
  | nil =>
    intro fuel owners w h _
    rw [getRootOwner_none env ns fuel owners w h]
    simp
  | cons o rest ih =>
    intro fuel owners w h hfuel
    obtain ⟨pre, post, parents, hown, hpre, ho, hget, hrest⟩ := h
    cases fuel with
    | zero => simp at hfuel
    | succ fuel =>
      have hlen : rest.length ≤ fuel := by simpa using hfuel
      have hrec := ih fuel parents ((w.processed (pre.length + 1)).call (lookupOf ns o))
        hrest hlen
      subst hown
      simp only [getRootOwner]
      rw [getRootOwnerLoop_candidate env ns _ pre post o w hpre ho]
      simp only [hget]
      generalize getRootOwner env ns fuel parents
        ((w.processed (pre.length + 1)).call (lookupOf ns o)) = res at hrec
      obtain ⟨r, w2⟩ := res
      obtain ⟨h1, h2, h3, h4⟩ := hrec
      simp only at h1 h2 h3 h4
      subst h1
      cases hl : rest.getLast? with
      | none =>
        simp [List.getLast?_cons, hl, h2, h3, h4]
      | some p =>
        simp [List.getLast?_cons, hl, h2, h3, h4]

theorem World.continues_refl (w : World) : w.continues w :=
  ⟨rfl, rfl, [], by simp⟩

theorem World.continues_trans {w1 w2 w3 : World} (h12 : w1.continues w2)
    (h23 : w2.continues w3) : w1.continues w3 := by
  obtain ⟨a1, b1, t1, c1⟩ := h12
  obtain ⟨a2, b2, t2, c2⟩ := h23
  exact ⟨a2.trans a1, b2.trans b1, t1 ++ t2, by rw [c2, c1, List.append_assoc]⟩

theorem World.continues_log (w : World) (m : String) : w.continues (w.log m) :=
  ⟨rfl, rfl, [], by simp⟩

theorem World.continues_call (w : World) (c : Call) : w.continues (w.call c) :=
  ⟨rfl, rfl, [c], by simp⟩

theorem getRootOwnerLoop_continues (env : Cluster) (ns : String)
    (recur : List OwnerReference → World → Outcome (Option OwnerReference) × World)
    (hrecur : ∀ (os : List OwnerReference) (w : World), w.continues (recur os w).2)
    (owners : List OwnerReference) :
    ∀ w : World, w.continues (getRootOwnerLoop env ns recur owners w).2 := by
  induction owners with
  | nil => intro w; exact World.continues_refl w
  | cons o rest ih =>
    intro w
    have h0 := World.continues_log w "Processing owner reference"
    simp only [getRootOwnerLoop]
    cases o.Controller with
    | none => exact h0
    | some c =>
      simp only
      split
      · have h1 := World.continues_trans h0 (World.continues_call
          (w.log "Processing owner reference") (.getObject ns o.APIVersion o.Kind o.Name))
        cases env.getObject ns o.APIVersion o.Kind o.Name with
        | error err =>
          simp only
          split
          · exact World.continues_trans h1 (World.continues_log _ _)
          · exact h1
        | ok parents =>
          simp only
          have h2 := hrecur parents ((w.log "Processing owner reference").call
            (.getObject ns o.APIVersion o.Kind o.Name))
          split
          · rename_i heq
            rw [heq] at h2
            exact World.continues_trans h1 h2
          · rename_i heq
            rw [heq] at h2
            exact World.continues_trans h1 h2
      · exact World.continues_trans h0 (ih _)

theorem getRootOwner_continues (env : Cluster) (ns : String) (fuel : Nat) :
    ∀ (owners : List OwnerReference) (w : World),
      w.continues (getRootOwner env ns fuel owners w).2 := by
  induction fuel with
  | zero =>
    intro owners w
    exact getRootOwnerLoop_continues env ns _ (fun _ w => World.continues_refl w) owners w
  | succ fuel ih =>
    intro owners w
    exact getRootOwnerLoop_continues env ns _ ih owners w

/-- Owner resolution first builds a client and never touches the certificate store. -/
theorem ControllerNameFromPod_continues (env : Cluster) (fuel : Nat) (pod : Pod) (w : World) :
    (w.call .newClient).continues (ControllerNameFromPod env fuel pod w).2 := by
  unfold ControllerNameFromPod
  simp only
  split
  · exact World.continues_refl _
  · have h := getRootOwner_continues env pod.Namespace fuel pod.OwnerReferences
      (w.call .newClient)
    split <;> rename_i heq <;> rw [heq] at h <;> exact h

/-! ## Admission handler: the paths of `Handle` -/

theorem Handle_terminating (cfg : Config) (env : Cluster) (fuel : Nat) (pod : Pod) (w : World)
    (h : IsZero pod.DeletionTimestamp = false) :
    Handle cfg env fuel (.ok pod) w =
      (.ok (.allowed "pod terminating"),
        (w.log "handling the pod CREATE/UPDATE event for").log "Skipping terminating pod") := by
  simp [Handle, h]

theorem Handle_finished (cfg : Config) (env : Cluster) (fuel : Nat) (pod : Pod) (w : World)
    (h : IsZero pod.DeletionTimestamp = true) (hp : pod.Phase ∈ ["Failed", "Succeeded"]) :
    Handle cfg env fuel (.ok pod) w =
      (.ok (.allowed "pod finished"),
        (w.log "handling the pod CREATE/UPDATE event for").log "Skipping finished pod") := by
  have hp2 : (["Failed", "Succeeded"].contains pod.Phase) = true := by simpa using hp
  simp only [Handle, h, hp2]
  simp

theorem Handle_unannotated (cfg : Config) (env : Cluster) (fuel : Nat) (pod : Pod) (w : World)
    (h : pod.admissible) (ha : ¬ identityKeys pod.Annotations) :
    Handle cfg env fuel (.ok pod) w =
      (.ok (.patch pod),
        (w.log "handling the pod CREATE/UPDATE event for").log "Attempting to patch pod") := by
  have hp2 : (["Failed", "Succeeded"].contains pod.Phase) = false := by
    have := h.2
    simpa using this
  rw [← identity_condition_iff] at ha
  simp only [Handle, h.1, hp2, ha]
  simp

/-- On an admissible annotated pod the handler resolves the owner first; whatever follows
only writes log lines. -/
theorem Handle_annotated_continues (cfg : Config) (env : Cluster) (fuel : Nat) (pod : Pod)
    (w : World) (h : pod.admissible) (ha : identityKeys pod.Annotations) :
    (w.call .newClient).continues (Handle cfg env fuel (.ok pod) w).2 := by
  have hp2 : (["Failed", "Succeeded"].contains pod.Phase) = false := by
    have := h.2
    simpa using this
  rw [← identity_condition_iff] at ha
  have hc := ControllerNameFromPod_continues env fuel pod
    (w.log "handling the pod CREATE/UPDATE event for")
  have hc2 : (w.call .newClient).continues
      (ControllerNameFromPod env fuel pod
        (w.log "handling the pod CREATE/UPDATE event for")).2 := hc
  simp only [Handle, h.1, hp2, ha]
  simp only [Bool.not_true, Bool.false_eq_true, if_false, if_true]
  split
  · rename_i heq; rw [heq] at hc2; exact hc2
  · rename_i heq; rw [heq] at hc2; exact hc2
  · rename_i heq; rw [heq] at hc2
    split
    · exact hc2
    · exact hc2
    · exact World.continues_trans hc2 (World.continues_log _ _)

/-! ## Claims on the annotation policy and the names -/

theorem calls_ne_of_continues_call {w w2 : World} {c : Call}
    (h : (w.call c).continues w2) : w2.calls ≠ w.calls := by
  obtain ⟨_, _, t, ht⟩ := h
  intro heq
  rw [heq] at ht
  have := congrArg List.length ht
  simp at this

/-- C1: the certificate synchroniser leaves its skip branch, and the admission handler
(on a pod that is neither terminating nor finished) starts owner resolution, exactly when the
trust-anchor, profile and role keys are all bound in the annotation map; both use the same
condition, the nil map binds nothing, replacing the values by any others (the empty string
included) changes nothing, and the map binding the three keys to the empty string counts as
annotated. -/
theorem identity_predicate_presence_only (cfg : Config) (env : Cluster) (fuel : Nat)
    (a : Annotations) (name ns : String) (ownerReference : Option OwnerReference)
    (issuerKind issuerName : String) (pod : Pod) (w : World) :
    ((GenerateCertificate env a name ns ownerReference issuerKind issuerName w).2.calls ≠ w.calls
        ↔ identityKeys a) ∧
    ((Handle cfg env fuel (.ok { pod with Annotations := a }) w).2.calls ≠ w.calls
        ↔ (IsZero pod.DeletionTimestamp = true ∧ pod.Phase ∉ ["Failed", "Succeeded"] ∧
            identityKeys a)) ∧
    (hasIdentity a = true ↔ identityKeys a) ∧
    ¬ identityKeys none ∧
    (∀ f : String → String, identityKeys (a.mapValues f) ↔ identityKeys a) ∧
    identityKeys (some [("ira.ontsys.com/trust-anchor", ""), ("ira.ontsys.com/profile", ""),
      ("ira.ontsys.com/role", "")]) := by
  refine ⟨?_, ?_, ?_, ?_, ?_, ?_⟩
  · rw [GenerateCertificate_calls]
    have hb := identity_condition_iff a
    by_cases h : identityKeys a
    · have hb2 := hb.2 h
      simp only [h, iff_true, syncCalls, hb2, if_true]
      cases env.certClientErr with
      | some e => simp
      | none =>
        simp only
        split
        · split <;> simp
        · simp
    · have hb2 : (MapContains a "ira.ontsys.com/trust-anchor" &&
          MapContains a "ira.ontsys.com/profile" && MapContains a "ira.ontsys.com/role") = false := by
        cases hx : (MapContains a "ira.ontsys.com/trust-anchor" &&
          MapContains a "ira.ontsys.com/profile" && MapContains a "ira.ontsys.com/role")
        · rfl
        · exact absurd (hb.1 hx) h
      simp [h, syncCalls, hb2]
  · cases hz : IsZero pod.DeletionTimestamp with
    | false =>
      have ht := Handle_terminating cfg env fuel { pod with Annotations := a } w hz
      rw [ht]
      simp
    | true =>
      by_cases hp : pod.Phase ∈ ["Failed", "Succeeded"]
      · have hf := Handle_finished cfg env fuel { pod with Annotations := a } w hz hp
        rw [hf]
        simp [hp]
      · by_cases ha : identityKeys a
        · have hk := Handle_annotated_continues cfg env fuel { pod with Annotations := a } w
            ⟨hz, hp⟩ ha
          have hne := calls_ne_of_continues_call hk
          simp only [hne, ne_eq, not_false_eq_true, true_iff]
          exact ⟨trivial, hp, ha⟩
        · rw [Handle_unannotated cfg env fuel { pod with Annotations := a } w ⟨hz, hp⟩ ha]
          simp [ha]
  · rw [← identity_condition_iff]
    cases a <;> simp [hasIdentity, MapContains]
  · simp [identityKeys, Annotations.hasKey]
  · intro f
    simp [identityKeys, hasKey_mapValues]
  · simp [identityKeys, Annotations.hasKey]

/-- C2: `GetCertName a n` is the value bound to `ira.ontsys.com/cert` when that key is bound
in `a` (whatever the value: bound to the empty string the result is the empty string), and
is `n` followed by `-ira`, four characters longer than `n`, when it is not; for the pod
`named-cert` of the controller test, annotated with the certificate name `cert-name`, it is
`cert-name`. -/
theorem GetCertName_override_or_suffix (a : Annotations) (n : String) :
    ((∃ l v, a = some l ∧ l.lookup "ira.ontsys.com/cert" = some v ∧ GetCertName a n = v) ∧
        a.hasKey "ira.ontsys.com/cert" ∨
      (¬ a.hasKey "ira.ontsys.com/cert" ∧ GetCertName a n = n ++ "-ira" ∧
        (GetCertName a n).length = n.length + 4)) ∧
    (∀ rest : List (String × String),
      GetCertName (some (("ira.ontsys.com/cert", "") :: rest)) n = "") ∧
    GetCertName (some (("ira.ontsys.com/cert", "cert-name") :: identityAnnotations))
      "named-cert" = "cert-name" := by
  refine ⟨?_, ?_, by decide⟩
  · by_cases h : a.hasKey "ira.ontsys.com/cert"
    · left
      refine ⟨?_, h⟩
      have hm := (mapContains_iff a _).2 h
      cases a with
      | none => simp [MapContains] at hm
      | some l =>
        simp only [MapContains] at hm
        obtain ⟨v, hv⟩ := Option.isSome_iff_exists.1 hm
        exact ⟨l, v, rfl, hv, by simp [GetCertName, MapContains, Annotations.index, hv]⟩
    · right
      have hm : MapContains a "ira.ontsys.com/cert" = false := by
        cases hx : MapContains a "ira.ontsys.com/cert"
        · rfl
        · exact absurd ((mapContains_iff a _).1 hx) h
      refine ⟨h, ?_, ?_⟩
      · simp [GetCertName, hm]
      · simp [GetCertName, hm, String.length_append]
        decide
  · intro rest
    simp [GetCertName, MapContains, Annotations.index, List.lookup]

/-- The bytes of an ASCII string are its characters, one byte each. -/
theorem goBytes_ascii (l : List Char) (h : ∀ c ∈ l, c.val ≤ 0x7f) :
    goBytes (String.mk l) = l.map (fun c => c.val.toUInt8) := by
  induction l with
  | nil => rfl
  | cons c l ih =>
    have hc : c.val ≤ 0x7f := h c (List.mem_cons_self _ _)
    have hl : ∀ d ∈ l, d.val ≤ 0x7f := fun d hd => h d (List.mem_cons_of_mem _ hd)
    have henc : String.utf8EncodeChar c = [c.val.toUInt8] := by
      simp [String.utf8EncodeChar, hc]
    have hstep : goBytes (String.mk (c :: l)) =
        String.utf8EncodeChar c ++ goBytes (String.mk l) := rfl
    rw [hstep, henc, ih hl]
    rfl

/-- The Go `len` of a string is the size of its UTF-8 encoding. -/
theorem goBytes_length (s : String) : (goBytes s).length = s.utf8ByteSize := by
  have h : s.toUTF8.data.size = s.utf8ByteSize := String.size_toUTF8 s
  simp only [goBytes, Array.length_toList]
  exact h

/-- The common name of an ASCII name and namespace, in characters: the string itself when
it has fewer than 65 characters, its first 64 characters otherwise. -/
theorem getCommonName_ascii (name ns : String) (hname : isAscii name = true)
    (hns : isAscii ns = true) :
    (goBytes (ns ++ "/" ++ name)).length = (ns ++ "/" ++ name).length ∧
    getCommonName name ns =
      goBytes (if (ns ++ "/" ++ name).length < 65 then ns ++ "/" ++ name
        else String.mk ((ns ++ "/" ++ name).data.take 64)) := by
  have hall : ∀ c ∈ (ns ++ "/" ++ name).data, c.val ≤ 0x7f := by
    intro c hc
    simp only [isAscii, List.all_eq_true, decide_eq_true_eq] at hname hns
    have hd : (ns ++ "/" ++ name).data = ns.data ++ [Char.ofNat 47] ++ name.data := rfl
    rw [hd] at hc
    simp only [List.mem_append, List.mem_singleton] at hc
    rcases hc with (hc | hc) | hc
    · exact hns c hc
    · subst hc; decide
    · exact hname c hc
  have hb : goBytes (ns ++ "/" ++ name) =
      (ns ++ "/" ++ name).data.map (fun c => c.val.toUInt8) :=
    goBytes_ascii (ns ++ "/" ++ name).data hall
  have hlen : (goBytes (ns ++ "/" ++ name)).length = (ns ++ "/" ++ name).length := by
    rw [hb, List.length_map]
    rfl
  refine ⟨hlen, ?_⟩
  simp only [getCommonName, hlen, sliceTo]
  by_cases h : (ns ++ "/" ++ name).length < 65
  · rw [if_pos h, if_pos h]
  · rw [if_neg h, if_neg h]
    have htake : ∀ c ∈ (ns ++ "/" ++ name).data.take 64, c.val ≤ 0x7f :=
      fun c hc => hall c (List.mem_of_mem_take hc)
    rw [goBytes_ascii _ htake, hb, List.map_take]

/-- C3: with `s` the namespace, a slash and the name, and lengths counted as Go counts them,
in bytes of the UTF-8 encoding: the common name is `s` itself when `s` is shorter than 65
and is exactly the first 64 bytes of `s` otherwise; it is always a prefix of `s` of length
at most 64, of length exactly 64 when `s` is longer than 64.  When name and namespace are
ASCII, as are all names the API server admits, bytes are characters: the length tested is
the number of characters of `s` and the common name is `s` or its first 64 characters.
For the long pod name of the controller test in namespace `default` it is the 64
characters the test expects; for a name of 40 letters of two bytes each, where `s` has 48
characters and 88 bytes, it is the first 64 bytes, which are the first 36 characters. -/
theorem getCommonName_truncates_to_64 (name ns : String) :
    ((goBytes (ns ++ "/" ++ name)).length < 65 ∧
        getCommonName name ns = goBytes (ns ++ "/" ++ name) ∨
      65 ≤ (goBytes (ns ++ "/" ++ name)).length ∧
        getCommonName name ns = (goBytes (ns ++ "/" ++ name)).take 64 ∧
        (getCommonName name ns).length = 64) ∧
    getCommonName name ns <+: goBytes (ns ++ "/" ++ name) ∧
    (getCommonName name ns).length ≤ 64 ∧
    (goBytes (ns ++ "/" ++ name)).length = (ns ++ "/" ++ name).utf8ByteSize ∧
    (isAscii name = true → isAscii ns = true →
      (goBytes (ns ++ "/" ++ name)).length = (ns ++ "/" ++ name).length ∧
      getCommonName name ns =
        goBytes (if (ns ++ "/" ++ name).length < 65 then ns ++ "/" ++ name
          else String.mk ((ns ++ "/" ++ name).data.take 64))) ∧
    getCommonName
        "this-is-a-really-long-pod-name-that-will-cause-a-failure-when-creating-the-cert"
        "default" =
      goBytes "default/this-is-a-really-long-pod-name-that-will-cause-a-failure" ∧
    ("default" ++ "/" ++ String.mk (List.replicate 40 (Char.ofNat 233))).length = 48 ∧
    (goBytes ("default" ++ "/" ++ String.mk (List.replicate 40 (Char.ofNat 233)))).length =
      88 ∧
    getCommonName (String.mk (List.replicate 40 (Char.ofNat 233))) "default" =
      goBytes ("default/" ++ String.mk (List.replicate 28 (Char.ofNat 233))) := by
  have main : ((goBytes (ns ++ "/" ++ name)).length < 65 ∧
        getCommonName name ns = goBytes (ns ++ "/" ++ name) ∨
      65 ≤ (goBytes (ns ++ "/" ++ name)).length ∧
        getCommonName name ns = (goBytes (ns ++ "/" ++ name)).take 64 ∧
        (getCommonName name ns).length = 64) ∧
      getCommonName name ns <+: goBytes (ns ++ "/" ++ name) ∧
      (getCommonName name ns).length ≤ 64 := by
    by_cases h : (goBytes (ns ++ "/" ++ name)).length < 65
    · have hg : getCommonName name ns = goBytes (ns ++ "/" ++ name) := by
        simp only [getCommonName]
        rw [if_pos h]
      refine ⟨Or.inl ⟨h, hg⟩, ?_, ?_⟩
      · rw [hg]
      · rw [hg]; omega
    · have hg : getCommonName name ns = (goBytes (ns ++ "/" ++ name)).take 64 := by
        simp only [getCommonName]
        rw [if_neg h]
        rfl
      have hl : (getCommonName name ns).length = 64 := by
        rw [hg, List.length_take]
        omega
      refine ⟨Or.inr ⟨by omega, hg, hl⟩, ?_, by omega⟩
      rw [hg]
      exact List.take_prefix _ _
  exact ⟨main.1, main.2.1, main.2.2, goBytes_length _, getCommonName_ascii name ns,
    by decide, by decide, by decide, by decide⟩

/-- Witness for C3: the long pod name of the controller test, which is ASCII, in namespace
`default`. -/
theorem getCommonName_truncates_to_64_witness :
    isAscii "this-is-a-really-long-pod-name-that-will-cause-a-failure-when-creating-the-cert" =
      true ∧
    isAscii "default" = true ∧
    (goBytes ("default" ++ "/" ++
      "this-is-a-really-long-pod-name-that-will-cause-a-failure-when-creating-the-cert")).length
      = ("default" ++ "/" ++
      "this-is-a-really-long-pod-name-that-will-cause-a-failure-when-creating-the-cert").length ∧
    getCommonName
        "this-is-a-really-long-pod-name-that-will-cause-a-failure-when-creating-the-cert"
        "default" =
      goBytes (if ("default" ++ "/" ++
          "this-is-a-really-long-pod-name-that-will-cause-a-failure-when-creating-the-cert").length
            < 65 then "default" ++ "/" ++
          "this-is-a-really-long-pod-name-that-will-cause-a-failure-when-creating-the-cert"
        else String.mk (("default" ++ "/" ++
          "this-is-a-really-long-pod-name-that-will-cause-a-failure-when-creating-the-cert").data.take
            64)) :=
  have h := (getCommonName_truncates_to_64
    "this-is-a-really-long-pod-name-that-will-cause-a-failure-when-creating-the-cert"
    "default").2.2.2.2.1 (by decide) (by decide)
  ⟨by decide, by decide, h.1, h.2⟩

/-! ## Claims on owner resolution -/

/-- Owner resolution climbs to the top of a chain: when the client can be built, the
references climbed from the pod form the non-empty chain `o1, ..., on` and the fuel covers
its length, `ControllerNameFromPod` returns the name and kind of `on` and `on` itself, after
one lookup per level and without touching the certificate store. -/
theorem ControllerNameFromPod_climbs (env : Cluster) (fuel : Nat) (pod : Pod) (w : World)
    (chain : List OwnerReference) (hne : chain ≠ [])
    (hclient : env.clientErr = false)
    (hchain : ownerChain env pod.Namespace pod.OwnerReferences chain)
    (hfuel : chain.length ≤ fuel) :
    (ControllerNameFromPod env fuel pod w).1 =
      .ok ((chain.getLast hne).Name ++ "-" ++ toLower (chain.getLast hne).Kind,
        some (chain.getLast hne)) ∧
    (ControllerNameFromPod env fuel pod w).2.calls =
      w.calls ++ .newClient :: chain.map (lookupOf pod.Namespace) ∧
    (ControllerNameFromPod env fuel pod w).2.certs = w.certs := by
  have h := getRootOwner_chain env pod.Namespace chain fuel pod.OwnerReferences
    (w.call .newClient) hchain hfuel
  have hl : chain.getLast? = some (chain.getLast hne) := List.getLast?_eq_getLast _ hne
  rw [hl] at h
  unfold ControllerNameFromPod
  simp only [hclient, Bool.false_eq_true, if_false]
  generalize getRootOwner env pod.Namespace fuel pod.OwnerReferences (w.call .newClient) = res
    at h
  obtain ⟨r, w2⟩ := res
  obtain ⟨h1, h2, h3, _⟩ := h
  simp only at h1 h2 h3
  subst h1
  simp [h2, h3]

/-- Owner resolution falls back to the pod: when the client can be built and every owner
reference has its controller flag set and none qualifies, `ControllerNameFromPod` returns
the pod name and no owner, issuing no lookup. -/
theorem ControllerNameFromPod_self (env : Cluster) (fuel : Nat) (pod : Pod) (w : World)
    (hclient : env.clientErr = false)
    (h : ∀ p ∈ pod.OwnerReferences, p.Controller ≠ none ∧ p.qualifies = false) :
    ControllerNameFromPod env fuel pod w =
      (.ok (pod.Name, none), (w.call .newClient).processed pod.OwnerReferences.length) := by
  unfold ControllerNameFromPod
  simp only [hclient, Bool.false_eq_true, if_false]
  rw [getRootOwner_none env pod.Namespace fuel pod.OwnerReferences _ h]

/-- C4: on the ReplicaSet-to-Deployment chain of the controller test the resolution returns
`deploy-deployment` and the Deployment reference, but when a plain owner reference (no
controller flag) is listed before the ReplicaSet reference the same chain is not climbed:
dereferencing the absent flag panics, whatever the fuel. -/
theorem ControllerNameFromPod_unset_flag_before_candidate :
    (ControllerNameFromPod deploymentCluster 2 deploymentPod World.init).1 =
      .ok ("deploy-deployment", some deploymentRef) ∧
    (∀ fuel, (ControllerNameFromPod deploymentCluster fuel mixedOwnedPod World.init).1 =
      .panic "invalid memory address or nil pointer dereference") := by
  refine ⟨by decide, ?_⟩
  intro fuel
  cases fuel <;> rfl

/-- C5: a pod whose only owner reference has no controller flag has no qualifying owner,
yet resolution does not yield the pod name: dereferencing the absent flag panics, whatever
the fuel. -/
theorem ControllerNameFromPod_unset_flag_panics :
    (∀ p ∈ plainOwnedPod.OwnerReferences, p.qualifies = false) ∧
    (∀ fuel, (ControllerNameFromPod deploymentCluster fuel plainOwnedPod World.init).1 =
      .panic "invalid memory address or nil pointer dereference") := by
  refine ⟨by decide, ?_⟩
  intro fuel
  cases fuel <;> rfl

/-! ## Reconciler -/

/-- Once the pod is fetched, is not terminating and its owner is resolved, the reconciler
is the certificate synchroniser run on the resolved name, with the pod as owner when no
owner was resolved. -/
theorem Reconcile_resolved (cfg : Config) (env : Cluster) (fuel : Nat) (ns name : String)
    (w : World) (pod : Pod) (n : String) (owner : Option OwnerReference) (w2 : World)
    (hget : env.getPod ns name = .ok pod) (hz : IsZero pod.DeletionTimestamp = true)
    (hres : ControllerNameFromPod env fuel pod (w.reconciling ns name) = (.ok (n, owner), w2)) :
    Reconcile cfg env fuel ns name w =
      (.ok (GenerateCertificate env pod.Annotations n pod.Namespace
          (some (owner.getD (NewControllerRef pod))) (issuerSelection cfg pod.Annotations).1
          (issuerSelection cfg pod.Annotations).2 w2).1,
        (GenerateCertificate env pod.Annotations n pod.Namespace
          (some (owner.getD (NewControllerRef pod))) (issuerSelection cfg pod.Annotations).1
          (issuerSelection cfg pod.Annotations).2 w2).2) := by
  have hres2 : ControllerNameFromPod env fuel pod
      ((w.call (.getPod ns name)).log "Reconciling Pod") = (.ok (n, owner), w2) := hres
  simp only [Reconcile, hget, hz, hres2, issuerSelection]
  cases owner <;> simp

/-- A climb candidate that is not found: resolution answers as for a pod without owner. -/
theorem ControllerNameFromPod_not_found (env : Cluster) (fuel : Nat) (pod : Pod) (w : World)
    (pre post : List OwnerReference) (o : OwnerReference) (err : ApiError)
    (hclient : env.clientErr = false)
    (hown : pod.OwnerReferences = pre ++ o :: post)
    (hpre : ∀ p ∈ pre, p.Controller ≠ none ∧ p.qualifies = false) (ho : o.qualifies = true)
    (hlook : env.getObject pod.Namespace o.APIVersion o.Kind o.Name = .error err)
    (hnf : IsNotFound (some err) = true) :
    ControllerNameFromPod env fuel pod w =
      (.ok (pod.Name, none),
        ((((w.call .newClient).processed (pre.length + 1)).call
          (lookupOf pod.Namespace o)).log "Owner not found")) := by
  unfold ControllerNameFromPod
  simp only [hclient, Bool.false_eq_true, if_false, hown]
  cases fuel <;>
    simp only [getRootOwner] <;>
    rw [getRootOwnerLoop_candidate env pod.Namespace _ pre post o _ hpre ho] <;>
    simp only [hlook, hnf, if_true]

theorem certGet_mem_syncCalls (env : Cluster) (a : Annotations) (name ns : String)
    (o : Option OwnerReference) (ik iname : String) (certs : List Certificate)
    (h : identityKeys a) (hc : env.certClientErr = none) :
    Call.certGet ns (GetCertName a name) ∈ syncCalls env a name ns o ik iname certs := by
  have hb := (identity_condition_iff a).2 h
  simp only [syncCalls, hb, hc, if_true]
  split
  · split <;> simp
  · simp

/-- C6 (as the code has it): when the pod is fetched and live, the client can be built, and
the first qualifying owner reference of the pod (every reference before it having its
controller flag set) is reported not found, resolution yields the pod name and no owner,
which is also its answer for the same pod without owner references, and the reconciler goes
on to the certificate synchroniser under the pod name with the pod as owner: after the pod
fetch, the client and the one lookup come the calls of the synchroniser, among them the
certificate get whenever the pod is annotated and the certificate client can be built. -/
theorem Reconcile_owner_not_found_proceeds (cfg : Config) (env : Cluster) (fuel : Nat)
    (ns name : String) (w : World) (pod : Pod) (pre post : List OwnerReference)
    (o : OwnerReference) (err : ApiError)
    (hget : env.getPod ns name = .ok pod) (hz : IsZero pod.DeletionTimestamp = true)
    (hclient : env.clientErr = false)
    (hown : pod.OwnerReferences = pre ++ o :: post)
    (hpre : ∀ p ∈ pre, p.Controller ≠ none ∧ p.qualifies = false) (ho : o.qualifies = true)
    (hlook : env.getObject pod.Namespace o.APIVersion o.Kind o.Name = .error err)
    (hnf : IsNotFound (some err) = true) :
    (ControllerNameFromPod env fuel pod (w.reconciling ns name)).1 = .ok (pod.Name, none) ∧
    (ControllerNameFromPod env fuel { pod with OwnerReferences := [] }
      (w.reconciling ns name)).1 = .ok (pod.Name, none) ∧
    (Reconcile cfg env fuel ns name w).2.calls =
      w.calls ++ [.getPod ns name, .newClient, lookupOf pod.Namespace o] ++
        syncCalls env pod.Annotations pod.Name pod.Namespace (some (NewControllerRef pod))
          (issuerSelection cfg pod.Annotations).1 (issuerSelection cfg pod.Annotations).2
          w.certs ∧
    (identityKeys pod.Annotations → env.certClientErr = none →
      Call.certGet pod.Namespace (GetCertName pod.Annotations pod.Name) ∈
        (Reconcile cfg env fuel ns name w).2.calls) := by
  have hres := ControllerNameFromPod_not_found env fuel pod (w.reconciling ns name) pre post o
    err hclient hown hpre ho hlook hnf
  have hself := ControllerNameFromPod_self env fuel { pod with OwnerReferences := [] }
    (w.reconciling ns name) hclient (by simp)
  have hrec := Reconcile_resolved cfg env fuel ns name w pod pod.Name none _ hget hz hres
  have hcalls : (Reconcile cfg env fuel ns name w).2.calls =
      w.calls ++ [.getPod ns name, .newClient, lookupOf pod.Namespace o] ++
        syncCalls env pod.Annotations pod.Name pod.Namespace (some (NewControllerRef pod))
          (issuerSelection cfg pod.Annotations).1 (issuerSelection cfg pod.Annotations).2
          w.certs := by
    rw [hrec]
    simp [GenerateCertificate_calls, World.reconciling]
  refine ⟨by rw [hres], by rw [hself], hcalls, ?_⟩
  intro ha hc
  rw [hcalls]
  exact List.mem_append_right _ (certGet_mem_syncCalls env _ _ _ _ _ _ _ ha hc)

/-- Witness for C6 as amended: the annotated orphan pod of the controller test. -/
theorem Reconcile_owner_not_found_proceeds_witness :
    (ControllerNameFromPod (testCluster [orphanPod]) 1 orphanPod
      (World.init.reconciling "default" "no-ower")).1 = .ok ("no-ower", none) ∧
    Call.certGet "default" "no-ower-ira" ∈
      (Reconcile testConfig (testCluster [orphanPod]) 1 "default" "no-ower" World.init).2.calls :=
  have h := Reconcile_owner_not_found_proceeds testConfig (testCluster [orphanPod]) 1
    "default" "no-ower" World.init orphanPod [] []
    { APIVersion := "apps/v1", Kind := "Deployment", Name := "no-exist", UID := "gone-uid",
      Controller := some true, BlockOwnerDeletion := none }
    .notFound rfl (by decide) (by decide) (by decide) (by decide) (by decide)
    rfl (by decide)
  ⟨h.1, h.2.2.2 (by simp [identityKeys, Annotations.hasKey, orphanPod, identityAnnotations])
    (by decide)⟩

/-- C6 (counterexample): for the annotated orphan pod of the controller test, whose owner
Deployment is not found, resolution answers exactly as for the same pod without owner
references, and the reconciler gets and creates the certificate `no-ower-ira`. -/
theorem owner_not_found_still_creates_certificate :
    (ControllerNameFromPod (testCluster [orphanPod]) 1 orphanPod World.init).1 =
      (ControllerNameFromPod (testCluster [orphanPod]) 1
        { orphanPod with OwnerReferences := [] } World.init).1 ∧
    (Reconcile testConfig (testCluster [orphanPod]) 1 "default" "no-ower" World.init).2.calls =
      [ .getPod "default" "no-ower", .newClient,
        .getObject "default" "apps/v1" "Deployment" "no-exist", .newCertClient,
        .certGet "default" "no-ower-ira",
        .certCreate "default"
          (desiredCertificate (some identityAnnotations) "no-ower" "default"
            (some (NewControllerRef orphanPod)) "ClusterIssuer" "cluster-ira-ca") ] ∧
    ((Reconcile testConfig (testCluster [orphanPod]) 1 "default" "no-ower" World.init).2.certs.map
      (fun c => c.Name)) = ["no-ower-ira"] := by
  decide

/-! ## Certificate store operations -/

theorem find?_none_any_false (certs : List Certificate) (q : Certificate → Bool)
    (h : certs.find? q = none) : certs.any q = false := by
  induction certs with
  | nil => rfl
  | cons c rest ih =>
    simp only [List.find?_cons] at h
    cases hq : q c with
    | true => simp [hq] at h
    | false =>
      simp only [hq] at h
      simp [hq, ih h]

theorem find?_some_any_true (certs : List Certificate) (q : Certificate → Bool)
    (c : Certificate) (h : certs.find? q = some c) : certs.any q = true := by
  have hm := List.mem_of_find?_eq_some h
  have hq := List.find?_some h
  exact List.any_eq_true.2 ⟨c, hm, hq⟩

/-- A create that the store accepts appends the object under a fresh version. -/
theorem certCreate_ok (env : Cluster) (ns : String) (cert : Certificate) (w : World)
    (he : env.certCreateErr = none)
    (hf : w.certs.find? (Certificate.hasKey ns cert.Name) = none) :
    certCreate env ns cert w =
      (none, { w.call (.certCreate ns cert) with
        certs := w.certs ++
          [{ cert with Namespace := ns, ResourceVersion := w.nextVersion + 1 }],
        nextVersion := w.nextVersion + 1 }) := by
  have ha := find?_none_any_false _ _ hf
  simp [certCreate, he, ha, World.call]

/-- An update that the store accepts replaces the stored object as a whole. -/
theorem certUpdate_ok (env : Cluster) (ns : String) (cert found : Certificate) (w : World)
    (he : env.certUpdateErr = none)
    (hf : w.certs.find? (Certificate.hasKey ns cert.Name) = some found)
    (hv : found.ResourceVersion = cert.ResourceVersion) :
    certUpdate env ns cert w =
      (none, { w.call (.certUpdate ns cert) with
        certs := w.certs.map (fun c =>
          if Certificate.hasKey ns cert.Name c then
            { cert with Namespace := ns, ResourceVersion := w.nextVersion + 1 }
          else c),
        nextVersion := w.nextVersion + 1 }) := by
  have hf2 : (w.call (.certUpdate ns cert)).certs.find? (Certificate.hasKey ns cert.Name) =
      some found := hf
  simp only [certUpdate, he, hf2, hv, if_true]
  rfl

/-- A create that fails leaves the store as it was. -/
theorem certCreate_err (env : Cluster) (ns : String) (cert : Certificate) (w : World)
    (err : ApiError) (h : (certCreate env ns cert w).1 = some err) :
    (certCreate env ns cert w).2 = w.call (.certCreate ns cert) := by
  cases he : env.certCreateErr with
  | some e => simp [certCreate, he]
  | none =>
    cases hany : w.certs.any (Certificate.hasKey ns cert.Name) with
    | true => simp only [certCreate, he, World.call_certs, hany, if_true]
    | false =>
      simp only [certCreate, he, World.call_certs, hany, Bool.false_eq_true, if_false] at h
      cases h

/-- An update that fails leaves the store as it was. -/
theorem certUpdate_err (env : Cluster) (ns : String) (cert : Certificate) (w : World)
    (err : ApiError) (h : (certUpdate env ns cert w).1 = some err) :
    (certUpdate env ns cert w).2 = w.call (.certUpdate ns cert) := by
  cases he : env.certUpdateErr with
  | some e => simp [certUpdate, he]
  | none =>
    cases hf : w.certs.find? (Certificate.hasKey ns cert.Name) with
    | none => simp only [certUpdate, he, World.call_certs, hf]
    | some found =>
      by_cases hv : found.ResourceVersion = cert.ResourceVersion
      · simp only [certUpdate, he, World.call_certs, hf, hv, if_true] at h
        cases h
      · simp only [certUpdate, he, World.call_certs, hf, hv, if_false]

/-! ## Claims on the certificate synchroniser -/

theorem certGetAnswer_ok (env : Cluster) (certs : List Certificate) (ns name : String)
    (found : Certificate) (h : certGetAnswer env certs ns name = .ok found) :
    env.certGetErr = none ∧ certs.find? (Certificate.hasKey ns name) = some found := by
  unfold certGetAnswer at h
  cases he : env.certGetErr with
  | some e => simp [he] at h
  | none =>
    simp only [he] at h
    cases hf : certs.find? (Certificate.hasKey ns name) with
    | none => simp [hf] at h
    | some c =>
      simp only [hf, Except.ok.injEq] at h
      exact ⟨rfl, by rw [h]⟩

theorem certGetAnswer_notFound (env : Cluster) (certs : List Certificate) (ns name : String)
    (err : ApiError) (h : certGetAnswer env certs ns name = .error err)
    (he : env.certGetErr = none) :
    certs.find? (Certificate.hasKey ns name) = none := by
  unfold certGetAnswer at h
  simp only [he] at h
  cases hf : certs.find? (Certificate.hasKey ns name) with
  | none => rfl
  | some c => simp [hf] at h

/-- C7: for an annotation map lacking at least one of the trust-anchor, profile and role
keys, and whatever the name, namespace, owner reference and issuer, `GenerateCertificate`
returns the empty result with no error, records no call at all (no client is built, no get,
create or update is issued), leaves the certificate store and its version counter as they
were, and only logs that it skips the resource. -/
theorem GenerateCertificate_skips_unannotated (env : Cluster) (a : Annotations)
    (name ns : String) (o : Option OwnerReference) (ik iname : String) (w : World)
    (h : ¬ identityKeys a) :
    (GenerateCertificate env a name ns o ik iname w).1 = (Result.empty, none) ∧
    (GenerateCertificate env a name ns o ik iname w).2.calls = w.calls ∧
    (GenerateCertificate env a name ns o ik iname w).2.certs = w.certs ∧
    (GenerateCertificate env a name ns o ik iname w).2.nextVersion = w.nextVersion ∧
    (GenerateCertificate env a name ns o ik iname w).2.logs =
      w.logs ++ ["Skipping unannotated resource"] := by
  rw [GenerateCertificate_skip env a name ns o ik iname w h]
  simp

/-- Witness for C7: a map with the trust-anchor and profile keys but no role key, in a
world that already stores a certificate. -/
theorem GenerateCertificate_skips_unannotated_witness :
    (GenerateCertificate deploymentCluster
      (some [("ira.ontsys.com/trust-anchor", "ta"), ("ira.ontsys.com/profile", "p")])
      "existing-cert" "default" (some deploymentRef) "ClusterIssuer" "cluster-ira-ca"
      existingWorld).1 = (Result.empty, none) ∧
    (GenerateCertificate deploymentCluster
      (some [("ira.ontsys.com/trust-anchor", "ta"), ("ira.ontsys.com/profile", "p")])
      "existing-cert" "default" (some deploymentRef) "ClusterIssuer" "cluster-ira-ca"
      existingWorld).2.calls = [] :=
  have h := GenerateCertificate_skips_unannotated deploymentCluster
    (some [("ira.ontsys.com/trust-anchor", "ta"), ("ira.ontsys.com/profile", "p")])
    "existing-cert" "default" (some deploymentRef) "ClusterIssuer" "cluster-ira-ca"
    existingWorld (by simp [identityKeys, Annotations.hasKey])
  ⟨h.1, h.2.1⟩

/-- C8: for an annotated input whose certificate name `c = GetCertName annotations name` is
reported not found by the get (the client having been built), `GenerateCertificate` records
exactly the client construction, one get and one create (no update); the object created has
name `c`, the given namespace, secret name `c`, common name `getCommonName name ns`, issuer
reference `(issuerName, issuerKind, cert-manager.io)`, an RSA private key of size 8192, and
as owner references the one supplied owner or none; the result is always the empty result,
and when neither get nor create is made to fail there is no error and the store gains
that object under a fresh version. -/
theorem GenerateCertificate_creates_when_absent (env : Cluster) (a : Annotations)
    (name ns : String) (o : Option OwnerReference) (ik iname : String) (w : World)
    (err : ApiError) (h : identityKeys a) (hc : env.certClientErr = none)
    (hg : certGetAnswer env w.certs ns (GetCertName a name) = .error err)
    (hn : IsNotFound (some err) = true) :
    (GenerateCertificate env a name ns o ik iname w).2.calls =
      w.calls ++ [.newCertClient, .certGet ns (GetCertName a name),
        .certCreate ns (desiredCertificate a name ns o ik iname)] ∧
    desiredCertificate a name ns o ik iname =
      { Name := GetCertName a name
        Namespace := ns
        ResourceVersion := 0
        OwnerReferences := (match o with | some ref => [ref] | none => [])
        Spec :=
          { CommonName := getCommonName name ns
            IssuerRef := { Name := iname, Kind := ik, Group := "cert-manager.io" }
            SecretName := GetCertName a name
            PrivateKey := some { Algorithm := "RSA", Size := 8192 } } } ∧
    (desiredCertificate a name ns o ik iname).Spec.SecretName =
      (desiredCertificate a name ns o ik iname).Name ∧
    (GenerateCertificate env a name ns o ik iname w).1.1 = Result.empty ∧
    (env.certGetErr = none → env.certCreateErr = none →
      (GenerateCertificate env a name ns o ik iname w).1.2 = none ∧
      (GenerateCertificate env a name ns o ik iname w).2.certs =
        w.certs ++ [{ desiredCertificate a name ns o ik iname with
          ResourceVersion := w.nextVersion + 1 }]) := by
  have hpath := GenerateCertificate_create env a name ns o ik iname w h hc err hg hn
  refine ⟨?_, ?_, rfl, ?_, ?_⟩
  · rw [hpath]
    simp
  · cases o <;> rfl
  · rw [hpath]
  · intro hge hce
    have hf := certGetAnswer_notFound env w.certs ns _ err hg hge
    rw [hpath, certCreate_ok env ns _ _ hce (by simpa using hf)]
    simp [desiredCertificate]

/-- Witness for C8: the stand-alone pod `annotated` of the controller test on an empty
store. -/
theorem GenerateCertificate_creates_when_absent_witness :
    (GenerateCertificate deploymentCluster (some identityAnnotations) "annotated" "default"
      (some (NewControllerRef (Pod.named "annotated"))) "ClusterIssuer" "cluster-ira-ca"
      World.init).2.calls =
        [.newCertClient, .certGet "default" "annotated-ira",
          .certCreate "default"
            { Name := "annotated-ira"
              Namespace := "default"
              ResourceVersion := 0
              OwnerReferences := [NewControllerRef (Pod.named "annotated")]
              Spec :=
                { CommonName := goBytes "default/annotated"
                  IssuerRef :=
                    { Name := "cluster-ira-ca", Kind := "ClusterIssuer", Group := "cert-manager.io" }
                  SecretName := "annotated-ira"
                  PrivateKey := some { Algorithm := "RSA", Size := 8192 } } }] :=
  (GenerateCertificate_creates_when_absent deploymentCluster (some identityAnnotations)
    "annotated" "default" (some (NewControllerRef (Pod.named "annotated"))) "ClusterIssuer"
    "cluster-ira-ca" World.init .notFound
    (by simp [identityKeys, Annotations.hasKey, identityAnnotations]) rfl rfl rfl).1

/-- C9: for an annotated input whose certificate name is found by the get (the client
having been built), `GenerateCertificate` records exactly the client construction, one get
and one update (no create); the object submitted is the freshly computed desired certificate
with only the resource version taken from the object found: its name, namespace, owner
references and spec do not depend on what was found; the result is always the empty
result, and when the update is not made to fail there is no error and every stored object
under that name is replaced as a whole by the desired certificate under a fresh version. -/
theorem GenerateCertificate_updates_when_found (env : Cluster) (a : Annotations)
    (name ns : String) (o : Option OwnerReference) (ik iname : String) (w : World)
    (found : Certificate) (h : identityKeys a) (hc : env.certClientErr = none)
    (hg : certGetAnswer env w.certs ns (GetCertName a name) = .ok found) :
    (GenerateCertificate env a name ns o ik iname w).2.calls =
      w.calls ++ [.newCertClient, .certGet ns (GetCertName a name),
        .certUpdate ns
          { Name := GetCertName a name
            Namespace := ns
            ResourceVersion := found.ResourceVersion
            OwnerReferences := (match o with | some ref => [ref] | none => [])
            Spec :=
              { CommonName := getCommonName name ns
                IssuerRef := { Name := iname, Kind := ik, Group := "cert-manager.io" }
                SecretName := GetCertName a name
                PrivateKey := some { Algorithm := "RSA", Size := 8192 } } }] ∧
    (GenerateCertificate env a name ns o ik iname w).1.1 = Result.empty ∧
    (env.certUpdateErr = none →
      (GenerateCertificate env a name ns o ik iname w).1.2 = none ∧
      (GenerateCertificate env a name ns o ik iname w).2.certs =
        w.certs.map (fun c =>
          if Certificate.hasKey ns (GetCertName a name) c then
            { desiredCertificate a name ns o ik iname with
              ResourceVersion := w.nextVersion + 1 }
          else c)) := by
  have hpath := GenerateCertificate_update env a name ns o ik iname w h hc found hg
  refine ⟨?_, ?_, ?_⟩
  · rw [hpath]
    cases o <;> simp [desiredCertificate]
  · rw [hpath]
  · intro hue
    have hf := (certGetAnswer_ok env w.certs ns _ found hg).2
    have hupd := certUpdate_ok env ns
      { desiredCertificate a name ns o ik iname with ResourceVersion := found.ResourceVersion }
      found ((w.syncStarted.call (.certGet ns (GetCertName a name))).log "Found certificate")
      hue hf rfl
    rw [hpath, hupd]
    exact ⟨rfl, rfl⟩

/-- Witness for C9: the update test.  The stored certificate has the common name
`IRA exists: default/existing-cert ` and no owner; after the run it has the common name
`default/existing-cert` and is owned by the pod. -/
theorem GenerateCertificate_updates_when_found_witness :
    (GenerateCertificate deploymentCluster (some identityAnnotations) "existing-cert" "default"
      (some (NewControllerRef (Pod.named "existing-cert"))) "ClusterIssuer" "cluster-ira-ca"
      existingWorld).1.2 = none ∧
    (GenerateCertificate deploymentCluster (some identityAnnotations) "existing-cert" "default"
      (some (NewControllerRef (Pod.named "existing-cert"))) "ClusterIssuer" "cluster-ira-ca"
      existingWorld).2.certs =
        [{ Name := "existing-cert-ira"
           Namespace := "default"
           ResourceVersion := 8
           OwnerReferences := [NewControllerRef (Pod.named "existing-cert")]
           Spec :=
             { CommonName := goBytes "default/existing-cert"
               IssuerRef :=
                 { Name := "cluster-ira-ca", Kind := "ClusterIssuer", Group := "cert-manager.io" }
               SecretName := "existing-cert-ira"
               PrivateKey := some { Algorithm := "RSA", Size := 8192 } } }] :=
  (GenerateCertificate_updates_when_found deploymentCluster (some identityAnnotations)
    "existing-cert" "default" (some (NewControllerRef (Pod.named "existing-cert")))
    "ClusterIssuer" "cluster-ira-ca" existingWorld existingCert
    (by simp [identityKeys, Annotations.hasKey, identityAnnotations]) rfl rfl).2.2 rfl

/-! ## Idempotence of the certificate synchroniser -/

theorem certCreate_present (env : Cluster) (ns : String) (cert : Certificate) (w : World)
    (h : w.certs.any (Certificate.hasKey ns cert.Name) = true) :
    (certCreate env ns cert w).2.certs = w.certs := by
  cases he : env.certCreateErr with
  | some e => simp [certCreate, he]
  | none => simp only [certCreate, he, World.call_certs, h, if_true]

theorem certUpdate_semantic (env : Cluster) (ns : String) (cert : Certificate) (w : World)
    (hns : cert.Namespace = ns)
    (h : ∀ c ∈ w.certs, Certificate.hasKey ns cert.Name c = true → c.semantic = cert.semantic) :
    (certUpdate env ns cert w).2.certs.map Certificate.semantic =
      w.certs.map Certificate.semantic := by
  cases he : env.certUpdateErr with
  | some e => simp [certUpdate, he]
  | none =>
    cases hf : w.certs.find? (Certificate.hasKey ns cert.Name) with
    | none => simp only [certUpdate, he, World.call_certs, hf]
    | some found =>
      by_cases hv : found.ResourceVersion = cert.ResourceVersion
      · simp only [certUpdate, he, World.call_certs, hf, hv, if_true, List.map_map]
        apply List.map_congr_left
        intro c hc
        by_cases hk : Certificate.hasKey ns cert.Name c = true
        · simp only [Function.comp, hk, if_true]
          rw [h c hc hk]
          subst hns
          rfl
        · simp [Function.comp, hk]
      · simp only [certUpdate, he, World.call_certs, hf, hv, if_false]

/-- A run on a store that already holds the desired certificate changes no semantic field
of the store, whatever its outcome. -/
theorem GenerateCertificate_semantic_of_holds (env : Cluster) (a : Annotations)
    (name ns : String) (o : Option OwnerReference) (ik iname : String) (w : World)
    (hh : w.holds (desiredCertificate a name ns o ik iname)) :
    (GenerateCertificate env a name ns o ik iname w).2.semanticStore = w.semanticStore := by
  unfold World.semanticStore
  by_cases h : identityKeys a
  · cases hc : env.certClientErr with
    | some err =>
      rw [GenerateCertificate_clientErr env a name ns o ik iname w h err hc]
      rfl
    | none =>
      cases hg : certGetAnswer env w.certs ns (GetCertName a name) with
      | error err =>
        cases hn : IsNotFound (some err) with
        | true =>
          rw [GenerateCertificate_create env a name ns o ik iname w h hc err hg hn]
          have hcr := certCreate_present env ns (desiredCertificate a name ns o ik iname)
            ((w.syncStarted.call (.certGet ns (GetCertName a name))).log
              "Cert doesn\x27t exist: creating") hh.1
          simp only
          rw [hcr]
          rfl
        | false =>
          rw [GenerateCertificate_getErr env a name ns o ik iname w h hc err hg hn]
          rfl
      | ok found =>
        rw [GenerateCertificate_update env a name ns o ik iname w h hc found hg]
        have hup := certUpdate_semantic env ns
          { desiredCertificate a name ns o ik iname with ResourceVersion := found.ResourceVersion }
          ((w.syncStarted.call (.certGet ns (GetCertName a name))).log "Found certificate")
          rfl hh.2
        simp only
        rw [hup]
        rfl
  · rw [GenerateCertificate_skip env a name ns o ik iname w h]
    rfl

theorem certCreate_none (env : Cluster) (ns : String) (cert : Certificate) (w : World)
    (h : (certCreate env ns cert w).1 = none) :
    w.certs.any (Certificate.hasKey ns cert.Name) = false ∧
    (certCreate env ns cert w).2.certs =
      w.certs ++ [{ cert with Namespace := ns, ResourceVersion := w.nextVersion + 1 }] := by
  cases he : env.certCreateErr with
  | some e => simp [certCreate, he] at h
  | none =>
    cases hany : w.certs.any (Certificate.hasKey ns cert.Name) with
    | true => simp [certCreate, he, World.call_certs, hany] at h
    | false =>
      refine ⟨rfl, ?_⟩
      simp only [certCreate, he, World.call_certs, hany, Bool.false_eq_true, if_false]
      rfl

theorem certUpdate_none (env : Cluster) (ns : String) (cert : Certificate) (w : World)
    (h : (certUpdate env ns cert w).1 = none) :
    w.certs.any (Certificate.hasKey ns cert.Name) = true ∧
    (certUpdate env ns cert w).2.certs =
      w.certs.map (fun c =>
        if Certificate.hasKey ns cert.Name c then
          { cert with Namespace := ns, ResourceVersion := w.nextVersion + 1 }
        else c) := by
  cases he : env.certUpdateErr with
  | some e => simp [certUpdate, he] at h
  | none =>
    cases hf : w.certs.find? (Certificate.hasKey ns cert.Name) with
    | none => simp [certUpdate, he, World.call_certs, hf] at h
    | some found =>
      by_cases hv : found.ResourceVersion = cert.ResourceVersion
      · refine ⟨find?_some_any_true _ _ found hf, ?_⟩
        simp only [certUpdate, he, World.call_certs, hf, hv, if_true]
        rfl
      · simp [certUpdate, he, World.call_certs, hf, hv] at h

theorem hasKey_self (ns name : String) (c : Certificate) (hn : c.Name = name)
    (hs : c.Namespace = ns) : Certificate.hasKey ns name c = true := by
  simp [Certificate.hasKey, hn, hs]

/-- A run that succeeds on an annotated input leaves the desired certificate in the
store. -/
theorem GenerateCertificate_holds_of_ok (env : Cluster) (a : Annotations)
    (name ns : String) (o : Option OwnerReference) (ik iname : String) (w : World)
    (h : identityKeys a)
    (hok : (GenerateCertificate env a name ns o ik iname w).1.2 = none) :
    (GenerateCertificate env a name ns o ik iname w).2.holds
      (desiredCertificate a name ns o ik iname) := by
  cases hc : env.certClientErr with
  | some err =>
    rw [GenerateCertificate_clientErr env a name ns o ik iname w h err hc] at hok
    cases hok
  | none =>
    cases hg : certGetAnswer env w.certs ns (GetCertName a name) with
    | error err =>
      cases hn : IsNotFound (some err) with
      | false =>
        rw [GenerateCertificate_getErr env a name ns o ik iname w h hc err hg hn] at hok
        cases hok
      | true =>
        rw [GenerateCertificate_create env a name ns o ik iname w h hc err hg hn] at hok ⊢
        obtain ⟨hany, hcerts⟩ := certCreate_none env ns _ _ hok
        have hany2 : w.certs.any (Certificate.hasKey ns (GetCertName a name)) = false := hany
        constructor
        · show List.any _ _ = true
          rw [hcerts, List.any_append]
          simp [desiredCertificate, Certificate.hasKey]
        · intro c hcm hk
          have hcm2 : c ∈ (certCreate env ns (desiredCertificate a name ns o ik iname)
              ((w.syncStarted.call (.certGet ns (GetCertName a name))).log
                "Cert doesn\x27t exist: creating")).2.certs := hcm
          rw [hcerts, List.mem_append] at hcm2
          rcases hcm2 with hin | hin
          · have hk2 : Certificate.hasKey ns (GetCertName a name) c = true := hk
            have hcontra : w.certs.any (Certificate.hasKey ns (GetCertName a name)) = true :=
              List.any_eq_true.2 ⟨c, hin, hk2⟩
            rw [hany2] at hcontra
            cases hcontra
          · rw [List.mem_singleton] at hin
            rw [hin]
            rfl
    | ok found =>
      rw [GenerateCertificate_update env a name ns o ik iname w h hc found hg] at hok ⊢
      obtain ⟨hany, hcerts⟩ := certUpdate_none env ns _ _ hok
      have hany2 : w.certs.any (Certificate.hasKey ns (GetCertName a name)) = true := hany
      constructor
      · show List.any _ _ = true
        rw [hcerts]
        obtain ⟨c0, hc0, hk0⟩ := List.any_eq_true.1 hany2
        apply List.any_eq_true.2
        refine ⟨_, List.mem_map_of_mem _ hc0, ?_⟩
        have hk1 : Certificate.hasKey ns (desiredCertificate a name ns o ik iname).Name c0 = true :=
          hk0
        rw [if_pos hk1]
        exact hasKey_self _ _ _ rfl rfl
      · intro c hcm hk
        have hcm2 : c ∈ (certUpdate env ns
            { desiredCertificate a name ns o ik iname with
              ResourceVersion := found.ResourceVersion }
            ((w.syncStarted.call (.certGet ns (GetCertName a name))).log
              "Found certificate")).2.certs := hcm
        rw [hcerts, List.mem_map] at hcm2
        obtain ⟨c0, hc0, hrepl⟩ := hcm2
        by_cases hk0 : Certificate.hasKey ns (GetCertName a name) c0 = true
        · have hk1 : Certificate.hasKey ns (desiredCertificate a name ns o ik iname).Name c0 =
              true := hk0
          rw [if_pos hk1] at hrepl
          rw [← hrepl]
          rfl
        · have hk1 : ¬ Certificate.hasKey ns (desiredCertificate a name ns o ik iname).Name c0 =
              true := hk0
          rw [if_neg hk1] at hrepl
          rw [hrepl] at hk0
          exact absurd hk hk0

theorem any_true_find? (certs : List Certificate) (q : Certificate → Bool)
    (h : certs.any q = true) : ∃ c, certs.find? q = some c := by
  cases hf : certs.find? q with
  | some c => exact ⟨c, rfl⟩
  | none =>
    rw [find?_none_any_false certs q hf] at h
    cases h

theorem World.holds_of_semanticStore_eq (w w2 : World) (d : Certificate)
    (he : w2.semanticStore = w.semanticStore) (hh : w.holds d) : w2.holds d := by
  have key : ∀ v : World, v.holds d ↔
      (v.semanticStore.any (Certificate.hasKey d.Namespace d.Name) = true ∧
        ∀ c ∈ v.semanticStore, Certificate.hasKey d.Namespace d.Name c = true →
          c = d.semantic) := by
    intro v
    unfold World.holds World.semanticStore
    constructor
    · rintro ⟨h1, h2⟩
      constructor
      · obtain ⟨c, hc, hk⟩ := List.any_eq_true.1 h1
        exact List.any_eq_true.2 ⟨c.semantic, List.mem_map_of_mem _ hc, hk⟩
      · intro c hc hk
        obtain ⟨c0, hc0, rfl⟩ := List.mem_map.1 hc
        exact h2 c0 hc0 hk
    · rintro ⟨h1, h2⟩
      constructor
      · obtain ⟨c, hc, hk⟩ := List.any_eq_true.1 h1
        obtain ⟨c0, hc0, rfl⟩ := List.mem_map.1 hc
        exact List.any_eq_true.2 ⟨c0, hc0, hk⟩
      · intro c hc hk
        exact h2 c.semantic (List.mem_map_of_mem _ hc) hk
  rw [key] at hh ⊢
  rw [he]
  exact hh

/-- C10: when a run of `GenerateCertificate` on an annotated input (whatever the initial
store) returns no error, a second run with the same inputs leaves every stored certificate
with the semantic fields it had after the first run, only version stamps may differ; after
either run the store holds the desired certificate (name, namespace, spec and owner
references) under its name, and when the get is not made to fail the second run takes the
update path, submitting the desired certificate with the version of an object found. -/
theorem GenerateCertificate_idempotent (env : Cluster) (a : Annotations)
    (name ns : String) (o : Option OwnerReference) (ik iname : String) (w : World)
    (h : identityKeys a)
    (hok : (GenerateCertificate env a name ns o ik iname w).1.2 = none) :
    (GenerateCertificate env a name ns o ik iname
        (GenerateCertificate env a name ns o ik iname w).2).2.semanticStore =
      (GenerateCertificate env a name ns o ik iname w).2.semanticStore ∧
    (GenerateCertificate env a name ns o ik iname w).2.holds
      (desiredCertificate a name ns o ik iname) ∧
    (GenerateCertificate env a name ns o ik iname
        (GenerateCertificate env a name ns o ik iname w).2).2.holds
      (desiredCertificate a name ns o ik iname) ∧
    (env.certGetErr = none →
      ∃ found ∈ (GenerateCertificate env a name ns o ik iname w).2.certs,
        (GenerateCertificate env a name ns o ik iname
            (GenerateCertificate env a name ns o ik iname w).2).2.calls =
          (GenerateCertificate env a name ns o ik iname w).2.calls ++
            [.newCertClient, .certGet ns (GetCertName a name),
              .certUpdate ns { desiredCertificate a name ns o ik iname with
                ResourceVersion := found.ResourceVersion }]) := by
  have hh := GenerateCertificate_holds_of_ok env a name ns o ik iname w h hok
  have hs := GenerateCertificate_semantic_of_holds env a name ns o ik iname _ hh
  refine ⟨hs, hh, World.holds_of_semanticStore_eq _ _ _ hs hh, ?_⟩
  intro hge
  obtain ⟨found, hfound⟩ := any_true_find? _ _ hh.1
  refine ⟨found, List.mem_of_find?_eq_some hfound, ?_⟩
  have hc : env.certClientErr = none := by
    cases hc : env.certClientErr with
    | none => rfl
    | some err =>
      rw [GenerateCertificate_clientErr env a name ns o ik iname w h err hc] at hok
      cases hok
  have hb := (identity_condition_iff a).2 h
  have hget : certGetAnswer env (GenerateCertificate env a name ns o ik iname w).2.certs ns
      (GetCertName a name) = .ok found := by
    have hfound2 : List.find? (Certificate.hasKey ns (GetCertName a name))
        (GenerateCertificate env a name ns o ik iname w).2.certs = some found := hfound
    simp only [certGetAnswer, hge, hfound2]
  rw [GenerateCertificate_calls]
  simp only [syncCalls, hb, hc, hget, if_true]

/-- Witness for C10: the stand-alone pod `annotated` on an empty store; the first run
creates the certificate, the second updates it, and only the version stamp moves. -/
theorem GenerateCertificate_idempotent_witness :
    (GenerateCertificate deploymentCluster (some identityAnnotations) "annotated" "default"
      (some (NewControllerRef (Pod.named "annotated"))) "ClusterIssuer" "cluster-ira-ca"
      (GenerateCertificate deploymentCluster (some identityAnnotations) "annotated" "default"
        (some (NewControllerRef (Pod.named "annotated"))) "ClusterIssuer" "cluster-ira-ca"
        World.init).2).2.semanticStore =
    (GenerateCertificate deploymentCluster (some identityAnnotations) "annotated" "default"
      (some (NewControllerRef (Pod.named "annotated"))) "ClusterIssuer" "cluster-ira-ca"
      World.init).2.semanticStore :=
  (GenerateCertificate_idempotent deploymentCluster (some identityAnnotations) "annotated"
    "default" (some (NewControllerRef (Pod.named "annotated"))) "ClusterIssuer"
    "cluster-ira-ca" World.init
    (by simp [identityKeys, Annotations.hasKey, identityAnnotations]) rfl).1

/-! ## Admission handler: the mutation -/

theorem trailingSlash_condition_iff (a : Annotations) :
    (MapContains a "ira.ontsys.com/metadata-endpoint-trailing-slash" &&
      a.index "ira.ontsys.com/metadata-endpoint-trailing-slash" != "") = true ↔
      trailingSlash a := by
  cases a with
  | none => simp [MapContains, trailingSlash]
  | some l =>
    cases hl : l.lookup "ira.ontsys.com/metadata-endpoint-trailing-slash" with
    | none => simp [MapContains, trailingSlash, Annotations.index, hl]
    | some v => simp [MapContains, trailingSlash, Annotations.index, hl]

/-- The handler on an admissible annotated pod whose owner resolves to the name `n` and
whose configured quantities parse: the response is the patch to the mutated pod. -/
theorem Handle_annotated (cfg : Config) (env : Cluster) (fuel : Nat) (pod : Pod) (w : World)
    (n : String) (o : Option OwnerReference) (w2 : World) (resources : ResourceRequirements)
    (h : pod.admissible) (ha : identityKeys pod.Annotations)
    (hres : ControllerNameFromPod env fuel pod w.handling = (.ok (n, o), w2))
    (hq : helperResources cfg env = .ok resources) :
    Handle cfg env fuel (.ok pod) w =
      (.ok (.patch (mutatedPod cfg pod n
          (if (MapContains pod.Annotations "ira.ontsys.com/metadata-endpoint-trailing-slash" &&
              pod.Annotations.index "ira.ontsys.com/metadata-endpoint-trailing-slash" != "")
            then "http://127.0.0.1:9911/" else "http://127.0.0.1:9911")
          resources)),
        w2.log "Attempting to patch pod") := by
  have hp2 : (["Failed", "Succeeded"].contains pod.Phase) = false := by
    have := h.2
    simpa using this
  rw [← identity_condition_iff] at ha
  have hres2 : ControllerNameFromPod env fuel pod
      (w.log "handling the pod CREATE/UPDATE event for") = (.ok (n, o), w2) := hres
  simp only [Handle, h.1, hp2, ha, hres2, hq]
  simp only [Bool.not_true, Bool.false_eq_true, if_false, if_true, mutatedPod, helperContainer]
  split <;> rfl

/-- With four strings that are empty or valid, the resources of the injected container are
the per-field contributions, requests and limits apart. -/
theorem helperResources_ok (cfg : Config) (env : Cluster)
    (h1 : validQuantityText env cfg.CredentialHelperCpuRequest)
    (h2 : validQuantityText env cfg.CredentialHelperMemoryRequest)
    (h3 : validQuantityText env cfg.CredentialHelperCpuLimit)
    (h4 : validQuantityText env cfg.CredentialHelperMemoryLimit) :
    helperResources cfg env = .ok
      { Limits := configuredQuantity env cfg.CredentialHelperCpuLimit "cpu" ++
          configuredQuantity env cfg.CredentialHelperMemoryLimit "memory"
        Requests := configuredQuantity env cfg.CredentialHelperCpuRequest "cpu" ++
          configuredQuantity env cfg.CredentialHelperMemoryRequest "memory" } := by
  have key : ∀ text, validQuantityText env text →
      text = "" ∨ (text ≠ "" ∧ ∃ q, env.parseQuantity text = some q) := by
    intro text h
    by_cases e : text = ""
    · exact Or.inl e
    · exact Or.inr ⟨e, h.resolve_left e⟩
  unfold helperResources
  rcases key _ h1 with e1 | ⟨e1, q1, p1⟩ <;>
  rcases key _ h2 with e2 | ⟨e2, q2, p2⟩ <;>
  rcases key _ h3 with e3 | ⟨e3, q3, p3⟩ <;>
  rcases key _ h4 with e4 | ⟨e4, q4, p4⟩ <;>
  simp [*, configuredQuantity, MustParse, ResourceList.set]

/-! ## Claims on the admission handler -/

/-- C12: a decoded pod with a non-zero deletion timestamp is allowed with reason
`pod terminating`, and otherwise a pod in phase Succeeded or Failed is allowed with reason
`pod finished` (a pod that is both gets `pod terminating`); whatever its annotations, the
response carries no patch, no client is built and no owner lookup or other call is issued,
and the certificate store is untouched. -/
theorem Handle_skips_terminating_and_finished (cfg : Config) (env : Cluster) (fuel : Nat)
    (pod : Pod) (w : World)
    (h : IsZero pod.DeletionTimestamp = false ∨ pod.Phase = "Succeeded" ∨
      pod.Phase = "Failed") :
    (Handle cfg env fuel (.ok pod) w).1 =
      .ok (.allowed (if IsZero pod.DeletionTimestamp = false then "pod terminating"
        else "pod finished")) ∧
    (∀ p, (Handle cfg env fuel (.ok pod) w).1 ≠ .ok (.patch p)) ∧
    (Handle cfg env fuel (.ok pod) w).2.calls = w.calls ∧
    (Handle cfg env fuel (.ok pod) w).2.certs = w.certs := by
  cases hz : IsZero pod.DeletionTimestamp with
  | false =>
    rw [Handle_terminating cfg env fuel pod w hz]
    simp
  | true =>
    have hp : pod.Phase ∈ ["Failed", "Succeeded"] := by
      rcases h with h | h | h
      · rw [hz] at h; cases h
      · simp [h]
      · simp [h]
    rw [Handle_finished cfg env fuel pod w hz hp]
    simp

/-- Witness for C12: the finished pod of the webhook test, carrying the identity
annotations. -/
theorem Handle_skips_terminating_and_finished_witness :
    (Handle testConfig deploymentCluster 0 (.ok finishedPod) World.init).1 =
      .ok (.allowed "pod finished") ∧
    (Handle testConfig deploymentCluster 0 (.ok finishedPod) World.init).2.calls = [] :=
  have h := Handle_skips_terminating_and_finished testConfig deploymentCluster 0 finishedPod
    World.init (Or.inr (Or.inl rfl))
  ⟨h.1, h.2.2.1⟩

/-- C13: for a decoded pod that is neither terminating nor finished and lacks at least one
of the three identity keys, the pod serialised for the patch is the decoded pod itself (same
volumes, same containers with their environments, same init containers), and no client is
built and no owner lookup is issued. -/
theorem Handle_leaves_unannotated_unmutated (cfg : Config) (env : Cluster) (fuel : Nat)
    (pod : Pod) (w : World) (h : pod.admissible) (ha : ¬ identityKeys pod.Annotations) :
    (∃ p, (Handle cfg env fuel (.ok pod) w).1 = .ok (.patch p) ∧ p = pod ∧
      p.Volumes = pod.Volumes ∧ p.Containers = pod.Containers ∧
      p.InitContainers = pod.InitContainers) ∧
    (Handle cfg env fuel (.ok pod) w).2.calls = w.calls ∧
    (Handle cfg env fuel (.ok pod) w).2.certs = w.certs := by
  rw [Handle_unannotated cfg env fuel pod w h ha]
  exact ⟨⟨pod, rfl, rfl, rfl, rfl, rfl⟩, rfl, rfl⟩

/-- Witness for C13: the unannotated pod of the controller test. -/
theorem Handle_leaves_unannotated_unmutated_witness :
    (Handle testConfig deploymentCluster 0 (.ok unannotatedPod) World.init).2.calls = [] :=
  (Handle_leaves_unannotated_unmutated testConfig deploymentCluster 0 unannotatedPod
    World.init ⟨rfl, by decide⟩ (by simp [identityKeys, Annotations.hasKey, unannotatedPod,
      Pod.named])).2.1

/-- With no qualifying reference in the list the loop issues no lookup: it either finds no
owner or panics on a reference without controller flag. -/
theorem getRootOwnerLoop_no_candidate (env : Cluster) (ns : String)
    (recur : List OwnerReference → World → Outcome (Option OwnerReference) × World)
    (owners : List OwnerReference) (hq : ∀ p ∈ owners, p.qualifies = false) :
    ∀ w : World,
      ((getRootOwnerLoop env ns recur owners w).1 = .ok none ∨
        (getRootOwnerLoop env ns recur owners w).1 =
          .panic "invalid memory address or nil pointer dereference") ∧
      (getRootOwnerLoop env ns recur owners w).2.calls = w.calls ∧
      (getRootOwnerLoop env ns recur owners w).2.certs = w.certs ∧
      (getRootOwnerLoop env ns recur owners w).2.nextVersion = w.nextVersion := by
  induction owners with
  | nil => intro w; simp [getRootOwnerLoop]
  | cons p rest ih =>
    intro w
    have hp := hq p (List.mem_cons_self _ _)
    have hrest : ∀ q ∈ rest, q.qualifies = false := fun q hm => hq q (List.mem_cons_of_mem _ hm)
    cases hc : p.Controller with
    | none => simp [getRootOwnerLoop, hc]
    | some c =>
      have hcond : (c && controllerKinds.contains p.Kind) = false := by
        simp only [OwnerReference.qualifies, hc] at hp
        cases c <;> simp_all
      have step : getRootOwnerLoop env ns recur (p :: rest) w =
          getRootOwnerLoop env ns recur rest (w.log "Processing owner reference") := by
        simp only [getRootOwnerLoop, hc, hcond, Bool.false_eq_true, if_false]
      rw [step]
      exact ih hrest _

/-- A pod without qualifying owner reference: resolution builds the client, issues no
lookup, and either yields the pod name and no owner or panics. -/
theorem ControllerNameFromPod_no_candidate (env : Cluster) (fuel : Nat) (pod : Pod) (w : World)
    (hq : ∀ p ∈ pod.OwnerReferences, p.qualifies = false) :
    ((ControllerNameFromPod env fuel pod w).1 = .ok (pod.Name, none) ∨
      ∃ msg, (ControllerNameFromPod env fuel pod w).1 = .panic msg) ∧
    (ControllerNameFromPod env fuel pod w).2.calls = w.calls ++ [.newClient] ∧
    (ControllerNameFromPod env fuel pod w).2.certs = w.certs ∧
    (ControllerNameFromPod env fuel pod w).2.nextVersion = w.nextVersion := by
  unfold ControllerNameFromPod
  cases hcl : env.clientErr with
  | true => simp
  | false =>
    simp only [Bool.false_eq_true, if_false]
    have hloop : ∀ recur, _ := fun recur =>
      getRootOwnerLoop_no_candidate env pod.Namespace recur pod.OwnerReferences hq
        (w.call .newClient)
    have hroot : ((getRootOwner env pod.Namespace fuel pod.OwnerReferences
          (w.call .newClient)).1 = .ok none ∨
        (getRootOwner env pod.Namespace fuel pod.OwnerReferences (w.call .newClient)).1 =
          .panic "invalid memory address or nil pointer dereference") ∧
        (getRootOwner env pod.Namespace fuel pod.OwnerReferences
          (w.call .newClient)).2.calls = (w.call .newClient).calls ∧
        (getRootOwner env pod.Namespace fuel pod.OwnerReferences
          (w.call .newClient)).2.certs = (w.call .newClient).certs ∧
        (getRootOwner env pod.Namespace fuel pod.OwnerReferences
          (w.call .newClient)).2.nextVersion = (w.call .newClient).nextVersion := by
      cases fuel <;> exact hloop _
    generalize getRootOwner env pod.Namespace fuel pod.OwnerReferences (w.call .newClient) = res
      at hroot
    obtain ⟨r, w2⟩ := res
    obtain ⟨h1, h2, h3, h4⟩ := hroot
    simp only at h1 h2 h3 h4
    rcases h1 with h1 | h1 <;> subst h1 <;> simp [h2, h3, h4]

/-- C14: for a decoded pod that is neither terminating nor finished and carries the three
identity annotations, once its owner resolves to the controller name `n` (and the
configured quantities parse) the volume list of the mutated pod is the original list, in
order, followed by exactly one volume `ira-cert` backed by the secret
`GetCertName pod.Annotations n`; `n` is the pod name when no owner reference qualifies, and
for the pod `named-cert` of the webhook test the secret is `cert-name`. -/
theorem Handle_injects_cert_volume (cfg : Config) (env : Cluster) (fuel : Nat) (pod : Pod)
    (w : World) (n : String) (o : Option OwnerReference) (w2 : World)
    (resources : ResourceRequirements)
    (h : pod.admissible) (ha : identityKeys pod.Annotations)
    (hres : ControllerNameFromPod env fuel pod w.handling = (.ok (n, o), w2))
    (hq : helperResources cfg env = .ok resources) :
    (∃ p, (Handle cfg env fuel (.ok pod) w).1 = .ok (.patch p) ∧
      p.Volumes = pod.Volumes ++
        [{ Name := "ira-cert", Secret := some (GetCertName pod.Annotations n) }]) ∧
    ((∀ r ∈ pod.OwnerReferences, r.qualifies = false) → n = pod.Name) ∧
    (∃ p, (Handle testConfig deploymentCluster 0 (.ok namedCertPod) World.init).1 =
        .ok (.patch p) ∧
      p.Volumes = [{ Name := "ira-cert", Secret := some "cert-name" }]) := by
  refine ⟨?_, ?_, ?_⟩
  · rw [Handle_annotated cfg env fuel pod w n o w2 resources h ha hres hq]
    exact ⟨_, rfl, rfl⟩
  · intro hnq
    have hnc := (ControllerNameFromPod_no_candidate env fuel pod w.handling hnq).1
    rw [hres] at hnc
    rcases hnc with hnc | ⟨msg, hnc⟩
    · simp only [Outcome.ok.injEq, Prod.mk.injEq] at hnc
      exact hnc.1
    · cases hnc
  · exact ⟨_, rfl, by decide⟩

/-- Witness for C14: the pod `annotated` of the webhook test gets the secret
`annotated-ira`. -/
theorem Handle_injects_cert_volume_witness :
    ∃ p, (Handle testConfig deploymentCluster 0 (.ok annotatedPod) World.init).1 =
        .ok (.patch p) ∧
      p.Volumes = [{ Name := "ira-cert", Secret := some "annotated-ira" }] :=
  (Handle_injects_cert_volume testConfig deploymentCluster 0 annotatedPod World.init
    "annotated" none (ControllerNameFromPod deploymentCluster 0 annotatedPod
      World.init.handling).2
    { Limits := [("memory", { text := "128Mi" })],
      Requests := [("cpu", { text := "250m" }), ("memory", { text := "64Mi" })] }
    ⟨rfl, by decide⟩
    (by simp [identityKeys, Annotations.hasKey, annotatedPod, identityAnnotations])
    rfl rfl).1

/-- C15: in the mutated pod the container list is the original list, same length and
order, each container unchanged but for its environment, which is the original environment
followed by exactly one variable `AWS_EC2_METADATA_SERVICE_ENDPOINT`; its value is
`http://127.0.0.1:9911/` exactly when the trailing-slash annotation is bound to a non-empty
value and `http://127.0.0.1:9911` otherwise (key absent, or bound to the empty string);
the original init containers are unchanged and the one appended has no environment. -/
theorem Handle_appends_endpoint_variable (cfg : Config) (env : Cluster) (fuel : Nat)
    (pod : Pod) (w : World) (n : String) (o : Option OwnerReference) (w2 : World)
    (resources : ResourceRequirements)
    (h : pod.admissible) (ha : identityKeys pod.Annotations)
    (hres : ControllerNameFromPod env fuel pod w.handling = (.ok (n, o), w2))
    (hq : helperResources cfg env = .ok resources) :
    ∃ p value helper, (Handle cfg env fuel (.ok pod) w).1 = .ok (.patch p) ∧
      p.Containers = pod.Containers.map (fun (c : Container) =>
        { c with Env := c.Env ++
            [{ Name := "AWS_EC2_METADATA_SERVICE_ENDPOINT", Value := value }] }) ∧
      p.Containers.length = pod.Containers.length ∧
      (trailingSlash pod.Annotations ∧ value = "http://127.0.0.1:9911/" ∨
        ¬ trailingSlash pod.Annotations ∧ value = "http://127.0.0.1:9911") ∧
      (¬ pod.Annotations.hasKey "ira.ontsys.com/metadata-endpoint-trailing-slash" →
        ¬ trailingSlash pod.Annotations) ∧
      (pod.Annotations.index "ira.ontsys.com/metadata-endpoint-trailing-slash" = "" →
        ¬ trailingSlash pod.Annotations) ∧
      p.InitContainers = pod.InitContainers ++ [helper] ∧ helper.Env = [] := by
  rw [Handle_annotated cfg env fuel pod w n o w2 resources h ha hres hq]
  refine ⟨_, _, _, rfl, rfl, by simp [mutatedPod], ?_, ?_, ?_, rfl, rfl⟩
  · by_cases ht : trailingSlash pod.Annotations
    · left
      exact ⟨ht, by rw [if_pos ((trailingSlash_condition_iff _).2 ht)]⟩
    · right
      refine ⟨ht, ?_⟩
      rw [if_neg (fun hc => ht ((trailingSlash_condition_iff _).1 hc))]
  · rintro hk ⟨l, v, hl, hv, _⟩
    apply hk
    refine ⟨l, hl, ?_⟩
    exact (lookup_isSome_iff _ l).1 (by rw [hv]; rfl)
  · rintro hi ⟨l, v, hl, hv, hne⟩
    apply hne
    rw [hl] at hi
    simpa [Annotations.index, hv] using hi

/-- Witness for C15: the pod `annotated` of the webhook test, which has no trailing-slash
annotation, gets the value without the slash. -/
theorem Handle_appends_endpoint_variable_witness :
    ∃ p value helper,
      (Handle testConfig deploymentCluster 0 (.ok annotatedPod) World.init).1 =
        .ok (.patch p) ∧
      p.Containers = annotatedPod.Containers.map (fun (c : Container) =>
        { c with Env := c.Env ++
            [{ Name := "AWS_EC2_METADATA_SERVICE_ENDPOINT", Value := value }] }) ∧
      p.Containers.length = annotatedPod.Containers.length ∧
      (trailingSlash annotatedPod.Annotations ∧ value = "http://127.0.0.1:9911/" ∨
        ¬ trailingSlash annotatedPod.Annotations ∧ value = "http://127.0.0.1:9911") ∧
      (¬ annotatedPod.Annotations.hasKey "ira.ontsys.com/metadata-endpoint-trailing-slash" →
        ¬ trailingSlash annotatedPod.Annotations) ∧
      (annotatedPod.Annotations.index "ira.ontsys.com/metadata-endpoint-trailing-slash" = "" →
        ¬ trailingSlash annotatedPod.Annotations) ∧
      p.InitContainers = annotatedPod.InitContainers ++ [helper] ∧ helper.Env = [] :=
  Handle_appends_endpoint_variable testConfig deploymentCluster 0 annotatedPod World.init
    "annotated" none (ControllerNameFromPod deploymentCluster 0 annotatedPod
      World.init.handling).2
    { Limits := [("memory", { text := "128Mi" })],
      Requests := [("cpu", { text := "250m" }), ("memory", { text := "64Mi" })] }
    ⟨rfl, by decide⟩
    (by simp [identityKeys, Annotations.hasKey, annotatedPod, identityAnnotations])
    rfl rfl

/-- C16: for the pod `annotated` of the webhook test, which carries only the three identity
annotations, the handler gives the container the variable
`AWS_EC2_METADATA_SERVICE_ENDPOINT` with the value `http://127.0.0.1:9911`, not the value
`http://127.0.0.1:9911/` the test asserts. -/
theorem Handle_endpoint_without_annotation_has_no_slash :
    ∃ p, (Handle testConfig deploymentCluster 0 (.ok annotatedPod) World.init).1 =
        .ok (.patch p) ∧
      p.Containers.map (fun c => c.Env) =
        [[{ Name := "AWS_EC2_METADATA_SERVICE_ENDPOINT", Value := "http://127.0.0.1:9911" }]] ∧
      ∀ c ∈ p.Containers,
        ({ Name := "AWS_EC2_METADATA_SERVICE_ENDPOINT", Value := "http://127.0.0.1:9911/" } :
          EnvVar) ∉ c.Env :=
  ⟨_, rfl, by decide, by decide⟩

/-- C17: in the mutated pod the init-container list is the original list, in order,
followed by exactly one container named `ira` with the configured credential-helper image,
the command `aws_signing_helper`, restart policy `Always`, the single volume mount of
`ira-cert` at `/ira-cert`, and the arguments `serve`, the certificate and key paths, the
trust-anchor, profile and role flags each followed by the value of the annotation, and the
session-duration parameter built from the configured session duration. -/
theorem Handle_injects_helper_container (cfg : Config) (env : Cluster) (fuel : Nat)
    (pod : Pod) (w : World) (n : String) (o : Option OwnerReference) (w2 : World)
    (resources : ResourceRequirements)
    (h : pod.admissible) (ha : identityKeys pod.Annotations)
    (hres : ControllerNameFromPod env fuel pod w.handling = (.ok (n, o), w2))
    (hq : helperResources cfg env = .ok resources) :
    ∃ p, (Handle cfg env fuel (.ok pod) w).1 = .ok (.patch p) ∧
      p.InitContainers = pod.InitContainers ++
        [{ Name := "ira"
           Image := cfg.CredentialHelperImage
           Command := ["aws_signing_helper"]
           Args :=
             [ "serve", "--certificate", "/ira-cert/tls.crt", "--private-key",
               "/ira-cert/tls.key",
               "--trust-anchor-arn", pod.Annotations.index "ira.ontsys.com/trust-anchor",
               "--profile-arn", pod.Annotations.index "ira.ontsys.com/profile",
               "--role-arn", pod.Annotations.index "ira.ontsys.com/role",
               "\x27--session-duration=" ++ cfg.SessionDuration ++ "\x27" ]
           Env := []
           RestartPolicy := some "Always"
           Resources := resources
           VolumeMounts := [{ Name := "ira-cert", MountPath := "/ira-cert" }] }] := by
  rw [Handle_annotated cfg env fuel pod w n o w2 resources h ha hres hq]
  exact ⟨_, rfl, rfl⟩

/-- Witness for C17: the pod `annotated` of the webhook test; the arguments carry `ta`, `p`
and `c`. -/
theorem Handle_injects_helper_container_witness :
    ∃ p, (Handle testConfig deploymentCluster 0 (.ok annotatedPod) World.init).1 =
        .ok (.patch p) ∧
      p.InitContainers =
        [{ Name := "ira"
           Image := "image"
           Command := ["aws_signing_helper"]
           Args :=
             [ "serve", "--certificate", "/ira-cert/tls.crt", "--private-key",
               "/ira-cert/tls.key", "--trust-anchor-arn", "ta", "--profile-arn", "p",
               "--role-arn", "c", "\x27--session-duration=900\x27" ]
           Env := []
           RestartPolicy := some "Always"
           Resources :=
             { Limits := [("memory", { text := "128Mi" })],
               Requests := [("cpu", { text := "250m" }), ("memory", { text := "64Mi" })] }
           VolumeMounts := [{ Name := "ira-cert", MountPath := "/ira-cert" }] }] :=
  Handle_injects_helper_container testConfig deploymentCluster 0 annotatedPod World.init
    "annotated" none (ControllerNameFromPod deploymentCluster 0 annotatedPod
      World.init.handling).2
    { Limits := [("memory", { text := "128Mi" })],
      Requests := [("cpu", { text := "250m" }), ("memory", { text := "64Mi" })] }
    ⟨rfl, by decide⟩
    (by simp [identityKeys, Annotations.hasKey, annotatedPod, identityAnnotations])
    rfl rfl

theorem lookup_configuredQuantity (env : Cluster) (t1 t2 : String)
    (h1 : validQuantityText env t1) (h2 : validQuantityText env t2) :
    (configuredQuantity env t1 "cpu" ++ configuredQuantity env t2 "memory").lookup "cpu" =
      (if t1 = "" then none else env.parseQuantity t1) ∧
    (configuredQuantity env t1 "cpu" ++ configuredQuantity env t2 "memory").lookup "memory" =
      (if t2 = "" then none else env.parseQuantity t2) ∧
    (∀ k, k ≠ "cpu" → k ≠ "memory" →
      (configuredQuantity env t1 "cpu" ++ configuredQuantity env t2 "memory").lookup k =
        none) := by
  have key : ∀ text, validQuantityText env text →
      text = "" ∨ (text ≠ "" ∧ ∃ q, env.parseQuantity text = some q) := by
    intro text h
    by_cases e : text = ""
    · exact Or.inl e
    · exact Or.inr ⟨e, h.resolve_left e⟩
  rcases key _ h1 with e1 | ⟨e1, q1, p1⟩ <;>
  rcases key _ h2 with e2 | ⟨e2, q2, p2⟩ <;>
  (refine ⟨?_, ?_, ?_⟩
   · simp [*, configuredQuantity, List.lookup]
   · simp [*, configuredQuantity, List.lookup]
   · intro k hk1 hk2
     have b1 : (k == "cpu") = false := by simpa using hk1
     have b2 : (k == "memory") = false := by simpa using hk2
     simp [*, configuredQuantity, List.lookup])

theorem isSome_configured_iff (env : Cluster) (text : String)
    (h : validQuantityText env text) :
    (if text = "" then none else env.parseQuantity text).isSome = true ↔ text ≠ "" := by
  by_cases e : text = ""
  · simp [e]
  · obtain ⟨q, hq⟩ := h.resolve_left e
    simp [e, hq]

/-- C18: when each of the four configuration strings is empty or a valid quantity, the
requests map of the injected init container binds `cpu` exactly when the CPU-request string
is non-empty and `memory` exactly when the memory-request string is non-empty, its limits
map binds `cpu` exactly when the CPU-limit string is non-empty and `memory` exactly when
the memory-limit string is non-empty, every bound key maps to the quantity its string
parses to, no other key is bound, and each decision looks at its own string only: with the
CPU limit empty and the memory limit set, the limits map is exactly the memory binding. -/
theorem Handle_sizes_helper_per_field (cfg : Config) (env : Cluster) (fuel : Nat)
    (pod : Pod) (w : World) (n : String) (o : Option OwnerReference) (w2 : World)
    (h : pod.admissible) (ha : identityKeys pod.Annotations)
    (hres : ControllerNameFromPod env fuel pod w.handling = (.ok (n, o), w2))
    (h1 : validQuantityText env cfg.CredentialHelperCpuRequest)
    (h2 : validQuantityText env cfg.CredentialHelperMemoryRequest)
    (h3 : validQuantityText env cfg.CredentialHelperCpuLimit)
    (h4 : validQuantityText env cfg.CredentialHelperMemoryLimit) :
    ∃ p helper, (Handle cfg env fuel (.ok pod) w).1 = .ok (.patch p) ∧
      p.InitContainers = pod.InitContainers ++ [helper] ∧
      helper.Resources.Requests.lookup "cpu" =
        (if cfg.CredentialHelperCpuRequest = "" then none
          else env.parseQuantity cfg.CredentialHelperCpuRequest) ∧
      helper.Resources.Requests.lookup "memory" =
        (if cfg.CredentialHelperMemoryRequest = "" then none
          else env.parseQuantity cfg.CredentialHelperMemoryRequest) ∧
      helper.Resources.Limits.lookup "cpu" =
        (if cfg.CredentialHelperCpuLimit = "" then none
          else env.parseQuantity cfg.CredentialHelperCpuLimit) ∧
      helper.Resources.Limits.lookup "memory" =
        (if cfg.CredentialHelperMemoryLimit = "" then none
          else env.parseQuantity cfg.CredentialHelperMemoryLimit) ∧
      ((helper.Resources.Requests.lookup "cpu").isSome = true ↔
        cfg.CredentialHelperCpuRequest ≠ "") ∧
      ((helper.Resources.Requests.lookup "memory").isSome = true ↔
        cfg.CredentialHelperMemoryRequest ≠ "") ∧
      ((helper.Resources.Limits.lookup "cpu").isSome = true ↔
        cfg.CredentialHelperCpuLimit ≠ "") ∧
      ((helper.Resources.Limits.lookup "memory").isSome = true ↔
        cfg.CredentialHelperMemoryLimit ≠ "") ∧
      (∀ k, k ≠ "cpu" → k ≠ "memory" →
        helper.Resources.Requests.lookup k = none ∧
        helper.Resources.Limits.lookup k = none) ∧
      (cfg.CredentialHelperCpuLimit = "" → cfg.CredentialHelperMemoryLimit ≠ "" →
        ∀ q, env.parseQuantity cfg.CredentialHelperMemoryLimit = some q →
          helper.Resources.Limits = [("memory", q)]) := by
  have hq := helperResources_ok cfg env h1 h2 h3 h4
  rw [Handle_annotated cfg env fuel pod w n o w2 _ h ha hres hq]
  have hreq := lookup_configuredQuantity env _ _ h1 h2
  have hlim := lookup_configuredQuantity env _ _ h3 h4
  refine ⟨_, _, rfl, rfl, hreq.1, hreq.2.1, hlim.1, hlim.2.1, ?_, ?_, ?_, ?_, ?_, ?_⟩
  · have hi := isSome_configured_iff env _ h1
    rw [← hreq.1] at hi
    exact hi
  · have hi := isSome_configured_iff env _ h2
    rw [← hreq.2.1] at hi
    exact hi
  · have hi := isSome_configured_iff env _ h3
    rw [← hlim.1] at hi
    exact hi
  · have hi := isSome_configured_iff env _ h4
    rw [← hlim.2.1] at hi
    exact hi
  · intro k hk1 hk2
    exact ⟨hreq.2.2 k hk1 hk2, hlim.2.2 k hk1 hk2⟩
  · intro e3 e4 q hp
    show configuredQuantity env _ "cpu" ++ configuredQuantity env _ "memory" = _
    simp [configuredQuantity, e3, e4, hp]

/-- Witness for C18: the configuration of the webhook test (no CPU limit, memory limit
`128Mi`) on the pod `annotated`: the limits map is exactly the memory binding. -/
theorem Handle_sizes_helper_per_field_witness :
    ∃ p helper, (Handle testConfig deploymentCluster 0 (.ok annotatedPod) World.init).1 =
        .ok (.patch p) ∧
      p.InitContainers = annotatedPod.InitContainers ++ [helper] ∧
      helper.Resources.Limits = [("memory", { text := "128Mi" })] ∧
      helper.Resources.Requests.lookup "cpu" = some { text := "250m" } :=
  match Handle_sizes_helper_per_field testConfig deploymentCluster 0 annotatedPod World.init
    "annotated" none (ControllerNameFromPod deploymentCluster 0 annotatedPod
      World.init.handling).2
    ⟨rfl, by decide⟩
    (by simp [identityKeys, Annotations.hasKey, annotatedPod, identityAnnotations])
    rfl (Or.inr ⟨_, rfl⟩) (Or.inr ⟨_, rfl⟩) (Or.inl rfl) (Or.inr ⟨_, rfl⟩) with
  | ⟨p, helper, hp, hi, hc, _, _, _, _, _, _, _, _, hE⟩ =>
    ⟨p, helper, hp, hi, hE rfl (by decide) _ rfl, hc⟩

/-! ## Claims on error propagation and the reconciler -/

theorem certCreate_answer (env : Cluster) (ns : String) (cert : Certificate) (w : World) :
    (certCreate env ns cert w).1 = certCreateAnswer env w.certs ns cert.Name := by
  cases he : env.certCreateErr with
  | some e => simp [certCreate, certCreateAnswer, he]
  | none =>
    cases hany : w.certs.any (Certificate.hasKey ns cert.Name) with
    | true => simp only [certCreate, certCreateAnswer, he, World.call_certs, hany, if_true]
    | false =>
      simp only [certCreate, certCreateAnswer, he, World.call_certs, hany,
        Bool.false_eq_true, if_false]

theorem certUpdate_answer (env : Cluster) (ns : String) (cert : Certificate) (w : World) :
    (certUpdate env ns cert w).1 =
      certUpdateAnswer env w.certs ns cert.Name cert.ResourceVersion := by
  cases he : env.certUpdateErr with
  | some e => simp [certUpdate, certUpdateAnswer, he]
  | none =>
    cases hf : w.certs.find? (Certificate.hasKey ns cert.Name) with
    | none => simp only [certUpdate, certUpdateAnswer, he, World.call_certs, hf]
    | some found =>
      by_cases hv : found.ResourceVersion = cert.ResourceVersion
      · simp only [certUpdate, certUpdateAnswer, he, World.call_certs, hf, hv, if_true]
      · simp only [certUpdate, certUpdateAnswer, he, World.call_certs, hf, hv, if_false]

/-- C11: for an annotated input (the client having been built): if the get fails with an
error other than not-found, `GenerateCertificate` returns exactly that error after the get
alone, with neither create nor update; if the create after a not-found get fails, it
returns exactly the error of the create; if the update after a successful get fails, it
returns exactly the error of the update; in each case the result is the empty result, at
most that one write was attempted and the store is left as it was. -/
theorem GenerateCertificate_propagates_errors (env : Cluster) (a : Annotations)
    (name ns : String) (o : Option OwnerReference) (ik iname : String) (w : World)
    (h : identityKeys a) (hc : env.certClientErr = none) :
    (∀ err, certGetAnswer env w.certs ns (GetCertName a name) = .error err →
      IsNotFound (some err) = false →
      (GenerateCertificate env a name ns o ik iname w).1 = (Result.empty, some err) ∧
      (GenerateCertificate env a name ns o ik iname w).2.calls =
        w.calls ++ [.newCertClient, .certGet ns (GetCertName a name)] ∧
      (GenerateCertificate env a name ns o ik iname w).2.certs = w.certs) ∧
    (∀ err e, certGetAnswer env w.certs ns (GetCertName a name) = .error err →
      IsNotFound (some err) = true →
      certCreateAnswer env w.certs ns (GetCertName a name) = some e →
      (GenerateCertificate env a name ns o ik iname w).1 = (Result.empty, some e) ∧
      (GenerateCertificate env a name ns o ik iname w).2.calls =
        w.calls ++ [.newCertClient, .certGet ns (GetCertName a name),
          .certCreate ns (desiredCertificate a name ns o ik iname)] ∧
      (GenerateCertificate env a name ns o ik iname w).2.certs = w.certs) ∧
    (∀ found e, certGetAnswer env w.certs ns (GetCertName a name) = .ok found →
      certUpdateAnswer env w.certs ns (GetCertName a name) found.ResourceVersion = some e →
      (GenerateCertificate env a name ns o ik iname w).1 = (Result.empty, some e) ∧
      (GenerateCertificate env a name ns o ik iname w).2.calls =
        w.calls ++ [.newCertClient, .certGet ns (GetCertName a name),
          .certUpdate ns { desiredCertificate a name ns o ik iname with
            ResourceVersion := found.ResourceVersion }] ∧
      (GenerateCertificate env a name ns o ik iname w).2.certs = w.certs) := by
  refine ⟨?_, ?_, ?_⟩
  · intro err hg hn
    rw [GenerateCertificate_getErr env a name ns o ik iname w h hc err hg hn]
    simp
  · intro err e hg hn hce
    have hpath := GenerateCertificate_create env a name ns o ik iname w h hc err hg hn
    have hans := certCreate_answer env ns (desiredCertificate a name ns o ik iname)
      ((w.syncStarted.call (.certGet ns (GetCertName a name))).log
        "Cert doesn\x27t exist: creating")
    have hans2 : (certCreate env ns (desiredCertificate a name ns o ik iname)
        ((w.syncStarted.call (.certGet ns (GetCertName a name))).log
          "Cert doesn\x27t exist: creating")).1 = some e := by
      rw [hans]
      exact hce
    have hw := certCreate_err env ns _ _ e hans2
    rw [hpath]
    refine ⟨by rw [hans2], ?_, ?_⟩
    · simp
    · simp only
      rw [hw]
      rfl
  · intro found e hg hue
    have hpath := GenerateCertificate_update env a name ns o ik iname w h hc found hg
    have hans := certUpdate_answer env ns
      { desiredCertificate a name ns o ik iname with ResourceVersion := found.ResourceVersion }
      ((w.syncStarted.call (.certGet ns (GetCertName a name))).log "Found certificate")
    have hans2 : (certUpdate env ns
        { desiredCertificate a name ns o ik iname with
          ResourceVersion := found.ResourceVersion }
        ((w.syncStarted.call (.certGet ns (GetCertName a name))).log
          "Found certificate")).1 = some e := by
      rw [hans]
      exact hue
    have hw := certUpdate_err env ns _ _ e hans2
    rw [hpath]
    refine ⟨by rw [hans2], ?_, ?_⟩
    · simp
    · simp only
      rw [hw]
      rfl

/-- Witness for C11: the get fails with a server error for the stand-alone pod
`annotated`; that error comes back and nothing is written. -/
theorem GenerateCertificate_propagates_errors_witness :
    (GenerateCertificate getFailingCluster (some identityAnnotations) "annotated" "default"
      (some (NewControllerRef (Pod.named "annotated"))) "ClusterIssuer" "cluster-ira-ca"
      World.init).1 = (Result.empty, some (.other "internal error")) ∧
    (GenerateCertificate getFailingCluster (some identityAnnotations) "annotated" "default"
      (some (NewControllerRef (Pod.named "annotated"))) "ClusterIssuer" "cluster-ira-ca"
      World.init).2.calls = [.newCertClient, .certGet "default" "annotated-ira"] :=
  have h := (GenerateCertificate_propagates_errors getFailingCluster
    (some identityAnnotations) "annotated" "default"
    (some (NewControllerRef (Pod.named "annotated"))) "ClusterIssuer" "cluster-ira-ca"
    World.init (by simp [identityKeys, Annotations.hasKey, identityAnnotations]) rfl).1
    (.other "internal error") rfl rfl
  ⟨h.1, h.2.1⟩

/-- C19: when the pod fetch fails or the fetched pod has a non-zero deletion timestamp, the
reconciler stops after the fetch: a not-found fetch gives the empty result and no error,
any other fetch error gives the empty result and a non-nil error (the fetch error, wrapped),
a terminating pod gives the empty result and no error; in all three cases the only call
recorded is the pod fetch (no client, no owner lookup, no certificate get, create or
update) and the certificate store is untouched. -/
theorem Reconcile_early_exits (cfg : Config) (env : Cluster) (fuel : Nat) (ns name : String)
    (w : World)
    (h : (∃ err, env.getPod ns name = .error err) ∨
      (∃ pod, env.getPod ns name = .ok pod ∧ IsZero pod.DeletionTimestamp = false)) :
    (∀ err, env.getPod ns name = .error err → IsNotFound (some err) = true →
      (Reconcile cfg env fuel ns name w).1 = .ok (Result.empty, none)) ∧
    (∀ err, env.getPod ns name = .error err → IsNotFound (some err) = false →
      (Reconcile cfg env fuel ns name w).1 =
        .ok (Result.empty, some (.wrapped "could not fetch Pod: " err))) ∧
    (∀ pod, env.getPod ns name = .ok pod → IsZero pod.DeletionTimestamp = false →
      (Reconcile cfg env fuel ns name w).1 = .ok (Result.empty, none)) ∧
    (Reconcile cfg env fuel ns name w).2.calls = w.calls ++ [.getPod ns name] ∧
    (Reconcile cfg env fuel ns name w).2.certs = w.certs ∧
    (Reconcile cfg env fuel ns name w).2.nextVersion = w.nextVersion := by
  refine ⟨?_, ?_, ?_, ?_⟩
  · intro err hg hn
    simp [Reconcile, hg, hn]
  · intro err hg hn
    simp [Reconcile, hg, hn]
  · intro pod hg hz
    simp [Reconcile, hg, hz]
  · rcases h with ⟨err, hg⟩ | ⟨pod, hg, hz⟩
    · cases hn : IsNotFound (some err) <;> simp [Reconcile, hg, hn]
    · simp [Reconcile, hg, hz]

/-- Witness for C19: the request for the pod `no-exist`, which is not found, and the
request for the annotated pod `deleting`, whose deletion has begun. -/
theorem Reconcile_early_exits_witness :
    ((Reconcile testConfig (testCluster []) 1 "default" "no-exist" World.init).1 =
        .ok (Result.empty, none) ∧
      (Reconcile testConfig (testCluster []) 1 "default" "no-exist" World.init).2.calls =
        [.getPod "default" "no-exist"]) ∧
    ((Reconcile testConfig (testCluster [deletingPod]) 1 "default" "deleting" World.init).1 =
        .ok (Result.empty, none) ∧
      (Reconcile testConfig (testCluster [deletingPod]) 1 "default" "deleting"
        World.init).2.calls = [.getPod "default" "deleting"]) :=
  have h := Reconcile_early_exits testConfig (testCluster []) 1 "default" "no-exist"
    World.init (Or.inl ⟨.notFound, rfl⟩)
  have h2 := Reconcile_early_exits testConfig (testCluster [deletingPod]) 1 "default"
    "deleting" World.init (Or.inr ⟨deletingPod, rfl, rfl⟩)
  ⟨⟨h.1 .notFound rfl rfl, h.2.2.2.1⟩, ⟨h2.2.2.1 deletingPod rfl rfl, h2.2.2.2.1⟩⟩

theorem Reconcile_panic (cfg : Config) (env : Cluster) (fuel : Nat) (ns name : String)
    (w : World) (pod : Pod) (msg : String) (w2 : World)
    (hget : env.getPod ns name = .ok pod) (hz : IsZero pod.DeletionTimestamp = true)
    (hres : ControllerNameFromPod env fuel pod (w.reconciling ns name) = (.panic msg, w2)) :
    Reconcile cfg env fuel ns name w = (.panic msg, w2) := by
  have hres2 : ControllerNameFromPod env fuel pod
      ((w.call (.getPod ns name)).log "Reconciling Pod") = (.panic msg, w2) := hres
  simp only [Reconcile, hget, hz, hres2]
  simp

theorem submitted_syncCalls (env : Cluster) (a : Annotations) (name ns : String)
    (o : Option OwnerReference) (ik iname : String) (certs : List Certificate) :
    (∀ c ∈ submittedCertificates (syncCalls env a name ns o ik iname certs),
      c.Name = GetCertName a name ∧ c.Namespace = ns ∧
      c.Spec = (desiredCertificate a name ns o ik iname).Spec ∧
      c.OwnerReferences = o.toList) ∧
    (submittedCertificates (syncCalls env a name ns o ik iname certs)).length ≤ 1 ∧
    (identityKeys a → env.certClientErr = none → env.certGetErr = none →
      (submittedCertificates (syncCalls env a name ns o ik iname certs)).length = 1) := by
  unfold syncCalls
  by_cases hb : (MapContains a "ira.ontsys.com/trust-anchor" &&
      MapContains a "ira.ontsys.com/profile" && MapContains a "ira.ontsys.com/role") = true
  · simp only [hb, if_true]
    cases hc : env.certClientErr with
    | some e => simp [submittedCertificates, Call.submitted]
    | none =>
      cases hg : certGetAnswer env certs ns (GetCertName a name) with
      | error err =>
        cases hn : IsNotFound (some err) with
        | true =>
          simp [hn, submittedCertificates, Call.submitted, desiredCertificate]
        | false =>
          simp only [hn, Bool.false_eq_true, if_false]
          refine ⟨by simp [submittedCertificates, Call.submitted],
            by simp [submittedCertificates, Call.submitted], ?_⟩
          intro _ _ hge
          exfalso
          unfold certGetAnswer at hg
          simp only [hge] at hg
          cases hf : certs.find? (Certificate.hasKey ns (GetCertName a name)) with
          | none =>
            simp only [hf, Except.error.injEq] at hg
            rw [← hg] at hn
            cases hn
          | some c => simp [hf] at hg
      | ok found =>
        simp [submittedCertificates, Call.submitted, desiredCertificate]
  · have hb2 := hb
    rw [identity_condition_iff] at hb2
    simp only [hb, Bool.false_eq_true, if_false]
    refine ⟨by simp [submittedCertificates], by simp [submittedCertificates], ?_⟩
    intro hk
    exact absurd hk hb2

/-- C20: for a fetched, non-terminating pod that carries the three identity annotations and
has no qualifying owner reference, every certificate the reconciler submits (by create or
update) is named `GetCertName pod.Annotations pod.Name` (the pod name followed by `-ira`
when the cert key is not bound), lies in the namespace of the pod, has its own name as
secret name, has the common name `getCommonName pod.Name pod.Namespace`, and has exactly
one owner reference, the controller reference of kind `Pod`, API version `v1`, with the
name and UID of the pod; at most one certificate is submitted, and exactly one when every
owner reference has its controller flag set, both clients can be built and the get is not
made to fail. -/
theorem Reconcile_standalone_pod_owns_certificate (cfg : Config) (env : Cluster) (fuel : Nat)
    (ns name : String) (w : World) (pod : Pod)
    (hget : env.getPod ns name = .ok pod) (hz : IsZero pod.DeletionTimestamp = true)
    (ha : identityKeys pod.Annotations)
    (hnq : ∀ r ∈ pod.OwnerReferences, r.qualifies = false) :
    ∃ added, (Reconcile cfg env fuel ns name w).2.calls = w.calls ++ added ∧
      (∀ c ∈ submittedCertificates added,
        c.Name = GetCertName pod.Annotations pod.Name ∧
        c.Namespace = pod.Namespace ∧
        c.Spec.SecretName = c.Name ∧
        c.Spec.CommonName = getCommonName pod.Name pod.Namespace ∧
        c.OwnerReferences =
          [{ APIVersion := "v1", Kind := "Pod", Name := pod.Name, UID := pod.UID,
             Controller := some true, BlockOwnerDeletion := some true }]) ∧
      (¬ pod.Annotations.hasKey "ira.ontsys.com/cert" →
        GetCertName pod.Annotations pod.Name = pod.Name ++ "-ira") ∧
      (submittedCertificates added).length ≤ 1 ∧
      ((∀ r ∈ pod.OwnerReferences, r.Controller ≠ none) → env.clientErr = false →
        env.certClientErr = none → env.certGetErr = none →
        (submittedCertificates added).length = 1) := by
  have hname : ¬ pod.Annotations.hasKey "ira.ontsys.com/cert" →
      GetCertName pod.Annotations pod.Name = pod.Name ++ "-ira" := by
    intro hk
    have hm : MapContains pod.Annotations "ira.ontsys.com/cert" = false := by
      cases hx : MapContains pod.Annotations "ira.ontsys.com/cert"
      · rfl
      · exact absurd ((mapContains_iff _ _).1 hx) hk
    simp [GetCertName, hm]
  have hnc := ControllerNameFromPod_no_candidate env fuel pod (w.reconciling ns name) hnq
  cases hres : ControllerNameFromPod env fuel pod (w.reconciling ns name) with
  | mk r w2 =>
    rw [hres] at hnc
    obtain ⟨hr, hcalls, hcerts, _⟩ := hnc
    simp only at hr hcalls hcerts
    rcases hr with hr | ⟨msg, hr⟩
    · subst hr
      have hrec := Reconcile_resolved cfg env fuel ns name w pod pod.Name none w2 hget hz hres
      have hsub := submitted_syncCalls env pod.Annotations pod.Name pod.Namespace
        (some (NewControllerRef pod)) (issuerSelection cfg pod.Annotations).1
        (issuerSelection cfg pod.Annotations).2 w2.certs
      refine ⟨[.getPod ns name, .newClient] ++
        syncCalls env pod.Annotations pod.Name pod.Namespace (some (NewControllerRef pod))
          (issuerSelection cfg pod.Annotations).1 (issuerSelection cfg pod.Annotations).2
          w2.certs, ?_, ?_, hname, ?_, ?_⟩
      · rw [hrec]
        simp [GenerateCertificate_calls, hcalls, World.reconciling]
      · intro c hc
        have hc2 : c ∈ submittedCertificates
            (syncCalls env pod.Annotations pod.Name pod.Namespace
              (some (NewControllerRef pod)) (issuerSelection cfg pod.Annotations).1
              (issuerSelection cfg pod.Annotations).2 w2.certs) := by
          simpa [submittedCertificates, Call.submitted] using hc
        obtain ⟨h1, h2, h3, h4⟩ := hsub.1 c hc2
        refine ⟨h1, h2, ?_, ?_, ?_⟩
        · rw [h3, h1]; rfl
        · rw [h3]; rfl
        · rw [h4]; rfl
      · have hl := hsub.2.1
        simpa [submittedCertificates, Call.submitted] using hl
      · intro _ _ hcc hge
        have hl := hsub.2.2 ha hcc hge
        simpa [submittedCertificates, Call.submitted] using hl
    · subst hr
      have hrec := Reconcile_panic cfg env fuel ns name w pod msg w2 hget hz hres
      refine ⟨[.getPod ns name, .newClient], ?_, ?_, hname, ?_, ?_⟩
      · rw [hrec]
        simp [hcalls, World.reconciling]
      · intro c hc
        simp [submittedCertificates, Call.submitted] at hc
      · simp [submittedCertificates, Call.submitted]
      · intro hflags hcl _ _
        exfalso
        have hself := ControllerNameFromPod_self env fuel pod (w.reconciling ns name) hcl
          (fun p hp => ⟨hflags p hp, hnq p hp⟩)
        rw [hself] at hres
        cases hres

/-- Witness for C20: the stand-alone pod `annotated` of the controller test on an empty
store; the one certificate submitted is `annotated-ira`, with common name
`default/annotated`, owned by the pod. -/
theorem Reconcile_standalone_pod_owns_certificate_witness :
    submittedCertificates
      (Reconcile testConfig (testCluster [annotatedPod]) 0 "default" "annotated"
        World.init).2.calls =
      [{ Name := "annotated-ira"
         Namespace := "default"
         ResourceVersion := 0
         OwnerReferences :=
           [{ APIVersion := "v1", Kind := "Pod", Name := "annotated", UID := "pod-uid",
              Controller := some true, BlockOwnerDeletion := some true }]
         Spec :=
           { CommonName := goBytes "default/annotated"
             IssuerRef :=
               { Name := "cluster-ira-ca", Kind := "ClusterIssuer", Group := "cert-manager.io" }
             SecretName := "annotated-ira"
             PrivateKey := some { Algorithm := "RSA", Size := 8192 } } }] ∧
    ∃ added, (Reconcile testConfig (testCluster [annotatedPod]) 0 "default" "annotated"
        World.init).2.calls = World.init.calls ++ added ∧
      (submittedCertificates added).length = 1 :=
  ⟨by decide,
    match Reconcile_standalone_pod_owns_certificate testConfig (testCluster [annotatedPod]) 0
      "default" "annotated" World.init annotatedPod rfl rfl
      (by simp [identityKeys, Annotations.hasKey, annotatedPod, identityAnnotations])
      (by decide) with
    | ⟨added, hcalls, _, _, _, hone⟩ =>
      ⟨added, hcalls, hone (by decide) rfl rfl rfl⟩⟩

/-! ## Owner resolution only adds to the record -/

theorem World.extend_extend (w : World) (t1 t2 : List Call) (l1 l2 : List String) :
    (w.extend t1 l1).extend t2 l2 = w.extend (t1 ++ t2) (l1 ++ l2) := by
  simp [World.extend]

theorem World.log_eq_extend (w : World) (m : String) : w.log m = w.extend [] [m] := by
  simp [World.log, World.extend]

theorem World.call_eq_extend (w : World) (c : Call) : w.call c = w.extend [c] [] := by
  simp [World.call, World.extend]

@[simp] theorem World.extend_calls (w : World) (t : List Call) (l : List String) :
    (w.extend t l).calls = w.calls ++ t := rfl

@[simp] theorem World.extend_certs (w : World) (t : List Call) (l : List String) :
    (w.extend t l).certs = w.certs := rfl

@[simp] theorem World.extend_nextVersion (w : World) (t : List Call) (l : List String) :
    (w.extend t l).nextVersion = w.nextVersion := rfl

/-- The loop of `getRootOwner` returns a value that does not depend on the world it starts
from, and leaves the world extended by lookups and log lines only, provided the recursive
call does. -/
theorem getRootOwnerLoop_writer (env : Cluster) (ns : String)
    (recur : List OwnerReference → World → Outcome (Option OwnerReference) × World)
    (hrecur : ∀ os : List OwnerReference, ∃ r t l, (∀ c ∈ t, Call.isCert c = false) ∧
      ∀ w : World, recur os w = (r, w.extend t l))
    (owners : List OwnerReference) :
    ∃ r t l, (∀ c ∈ t, Call.isCert c = false) ∧
      ∀ w : World, getRootOwnerLoop env ns recur owners w = (r, w.extend t l) := by
  induction owners with
  | nil => exact ⟨.ok none, [], [], by simp, fun w => by simp [getRootOwnerLoop, World.extend]⟩
  | cons o rest ih =>
    cases hc : o.Controller with
    | none =>
      refine ⟨.panic "invalid memory address or nil pointer dereference", [],
        ["Processing owner reference"], by simp, fun w => ?_⟩
      simp [getRootOwnerLoop, hc, World.log_eq_extend]
    | some c =>
      by_cases hcond : (c && controllerKinds.contains o.Kind) = true
      · cases hg : env.getObject ns o.APIVersion o.Kind o.Name with
        | error err =>
          cases hn : IsNotFound (some err) with
          | true =>
            refine ⟨.ok none, [.getObject ns o.APIVersion o.Kind o.Name],
              ["Processing owner reference", "Owner not found"],
              by simp [Call.isCert], fun w => ?_⟩
            simp only [getRootOwnerLoop, hc, hcond, hg, hn, if_true]
            simp [World.log_eq_extend, World.call_eq_extend, World.extend_extend]
          | false =>
            refine ⟨.panic "could not get owner", [.getObject ns o.APIVersion o.Kind o.Name],
              ["Processing owner reference"], by simp [Call.isCert], fun w => ?_⟩
            simp only [getRootOwnerLoop, hc, hcond, hg, hn, if_true, Bool.false_eq_true,
              if_false]
            simp [World.log_eq_extend, World.call_eq_extend, World.extend_extend]
        | ok parents =>
          obtain ⟨r, t, l, ht, hr⟩ := hrecur parents
          have hsub : ∀ c ∈ Call.getObject ns o.APIVersion o.Kind o.Name :: t,
              Call.isCert c = false := by
            intro c hcm
            rcases List.mem_cons.1 hcm with h1 | h1
            · rw [h1]; rfl
            · exact ht c h1
          have hw : ∀ w : World,
              ((w.log "Processing owner reference").call
                (.getObject ns o.APIVersion o.Kind o.Name)).extend t l =
              w.extend (Call.getObject ns o.APIVersion o.Kind o.Name :: t)
                ("Processing owner reference" :: l) := by
            intro w
            simp [World.log_eq_extend, World.call_eq_extend, World.extend_extend]
          cases r with
          | ok v =>
            cases v with
            | none =>
              refine ⟨.ok (some o), Call.getObject ns o.APIVersion o.Kind o.Name :: t,
                "Processing owner reference" :: l, hsub, fun w => ?_⟩
              simp only [getRootOwnerLoop, hc, hcond, hg, hr, if_true]
              rw [hw]
            | some p =>
              refine ⟨.ok (some p), Call.getObject ns o.APIVersion o.Kind o.Name :: t,
                "Processing owner reference" :: l, hsub, fun w => ?_⟩
              simp only [getRootOwnerLoop, hc, hcond, hg, hr, if_true]
              rw [hw]
          | panic msg =>
            refine ⟨.panic msg, Call.getObject ns o.APIVersion o.Kind o.Name :: t,
                "Processing owner reference" :: l, hsub, fun w => ?_⟩
            simp only [getRootOwnerLoop, hc, hcond, hg, hr, if_true]
            rw [hw]
          | outOfFuel =>
            refine ⟨.outOfFuel, Call.getObject ns o.APIVersion o.Kind o.Name :: t,
                "Processing owner reference" :: l, hsub, fun w => ?_⟩
            simp only [getRootOwnerLoop, hc, hcond, hg, hr, if_true]
            rw [hw]
      · obtain ⟨r, t, l, ht, hr⟩ := ih
        refine ⟨r, t, "Processing owner reference" :: l, ht, fun w => ?_⟩
        simp only [getRootOwnerLoop, hc, hcond, if_false, hr]
        simp [World.log_eq_extend, World.extend_extend]

theorem getRootOwner_writer (env : Cluster) (ns : String) (fuel : Nat) :
    ∀ owners : List OwnerReference, ∃ r t l, (∀ c ∈ t, Call.isCert c = false) ∧
      ∀ w : World, getRootOwner env ns fuel owners w = (r, w.extend t l) := by
  induction fuel with
  | zero =>
    intro owners
    exact getRootOwnerLoop_writer env ns _
      (fun _ => ⟨.outOfFuel, [], [], by simp, fun w => by simp [World.extend]⟩) owners
  | succ fuel ih =>
    intro owners
    exact getRootOwnerLoop_writer env ns _ ih owners

/-- Owner resolution returns a value that does not depend on the world it starts from;
it records the client construction and lookups, never a call of the certificate client,
and leaves the store alone. -/
theorem ControllerNameFromPod_writer (env : Cluster) (fuel : Nat) (pod : Pod) :
    ∃ r t l, (∀ c ∈ t, Call.isCert c = false) ∧
      ∀ w : World, ControllerNameFromPod env fuel pod w = (r, w.extend t l) := by
  obtain ⟨r, t, l, ht, hr⟩ := getRootOwner_writer env pod.Namespace fuel pod.OwnerReferences
  have hsub : ∀ c ∈ Call.newClient :: t, Call.isCert c = false := by
    intro c hcm
    rcases List.mem_cons.1 hcm with h1 | h1
    · rw [h1]; rfl
    · exact ht c h1
  have hw : ∀ w : World, (w.call .newClient).extend t l = w.extend (Call.newClient :: t) l := by
    intro w
    simp [World.call_eq_extend, World.extend_extend]
  cases hcl : env.clientErr with
  | true =>
    refine ⟨.panic "could not get client", [.newClient], [], by simp [Call.isCert],
      fun w => ?_⟩
    simp [ControllerNameFromPod, hcl, World.call_eq_extend]
  | false =>
    cases r with
    | ok v =>
      cases v with
      | none =>
        refine ⟨.ok (pod.Name, none), Call.newClient :: t, l, hsub, fun w => ?_⟩
        simp only [ControllerNameFromPod, hcl, hr, Bool.false_eq_true, if_false]
        rw [hw]
      | some owner =>
        refine ⟨.ok (owner.Name ++ "-" ++ toLower owner.Kind, some owner), Call.newClient :: t, l, hsub,
          fun w => ?_⟩
        simp only [ControllerNameFromPod, hcl, hr, Bool.false_eq_true, if_false]
        rw [hw]
    | panic msg =>
      refine ⟨.panic msg, Call.newClient :: t, l, hsub, fun w => ?_⟩
      simp only [ControllerNameFromPod, hcl, hr, Bool.false_eq_true, if_false]
      rw [hw]
    | outOfFuel =>
      refine ⟨.outOfFuel, Call.newClient :: t, l, hsub, fun w => ?_⟩
      simp only [ControllerNameFromPod, hcl, hr, Bool.false_eq_true, if_false]
      rw [hw]

/-! ## Claims on issuer selection and startup -/

theorem submitted_of_not_cert (c : Call) (h : Call.isCert c = false) :
    Call.submitted c = none := by
  cases c <;> simp_all [Call.isCert, Call.submitted]

theorem submitted_eq_nil (t : List Call) (h : ∀ c ∈ t, Call.submitted c = none) :
    submittedCertificates t = [] := by
  unfold submittedCertificates
  exact List.filterMap_eq_nil_iff.2 h

theorem Reconcile_outOfFuel (cfg : Config) (env : Cluster) (fuel : Nat) (ns name : String)
    (w : World) (pod : Pod) (w2 : World)
    (hget : env.getPod ns name = .ok pod) (hz : IsZero pod.DeletionTimestamp = true)
    (hres : ControllerNameFromPod env fuel pod (w.reconciling ns name) = (.outOfFuel, w2)) :
    Reconcile cfg env fuel ns name w = (.outOfFuel, w2) := by
  have hres2 : ControllerNameFromPod env fuel pod
      ((w.call (.getPod ns name)).log "Reconciling Pod") = (.outOfFuel, w2) := hres
  simp only [Reconcile, hget, hz, hres2]
  simp

/-- The certificates a reconcile of a fetched live pod submits are those of the
synchroniser run on the resolved name and owner; nothing is submitted when resolution does
not return. -/
theorem Reconcile_submitted (cfg : Config) (env : Cluster) (fuel : Nat) (ns name : String)
    (w : World) (pod : Pod)
    (hget : env.getPod ns name = .ok pod) (hz : IsZero pod.DeletionTimestamp = true) :
    ∃ added, (Reconcile cfg env fuel ns name w).2.calls = w.calls ++ added ∧
      ∀ c ∈ submittedCertificates added, ∃ n o,
        (∀ w0 : World, (ControllerNameFromPod env fuel pod w0).1 = .ok (n, o)) ∧
        c ∈ submittedCertificates (syncCalls env pod.Annotations n pod.Namespace
          (some (o.getD (NewControllerRef pod))) (issuerSelection cfg pod.Annotations).1
          (issuerSelection cfg pod.Annotations).2 w.certs) := by
  obtain ⟨r, t, l, ht, hr⟩ := ControllerNameFromPod_writer env fuel pod
  have hres := hr (w.reconciling ns name)
  have hnil := submitted_eq_nil t (fun c hc => submitted_of_not_cert c (ht c hc))
  cases r with
  | ok v =>
    obtain ⟨n, o⟩ := v
    have hrec := Reconcile_resolved cfg env fuel ns name w pod n o _ hget hz hres
    refine ⟨[.getPod ns name] ++ t ++
      syncCalls env pod.Annotations n pod.Namespace (some (o.getD (NewControllerRef pod)))
        (issuerSelection cfg pod.Annotations).1 (issuerSelection cfg pod.Annotations).2
        w.certs, ?_, ?_⟩
    · rw [hrec]
      simp [GenerateCertificate_calls, World.reconciling]
    · intro c hc
      refine ⟨n, o, fun w0 => by rw [hr w0], ?_⟩
      have hsplit : submittedCertificates ([Call.getPod ns name] ++ t ++
          syncCalls env pod.Annotations n pod.Namespace
            (some (o.getD (NewControllerRef pod))) (issuerSelection cfg pod.Annotations).1
            (issuerSelection cfg pod.Annotations).2 w.certs) =
          submittedCertificates (syncCalls env pod.Annotations n pod.Namespace
            (some (o.getD (NewControllerRef pod))) (issuerSelection cfg pod.Annotations).1
            (issuerSelection cfg pod.Annotations).2 w.certs) := by
        unfold submittedCertificates at hnil ⊢
        simp [List.filterMap_append, hnil, Call.submitted]
      rw [hsplit] at hc
      exact hc
  | panic msg =>
    have hrec := Reconcile_panic cfg env fuel ns name w pod msg _ hget hz hres
    refine ⟨[.getPod ns name] ++ t, ?_, ?_⟩
    · rw [hrec]
      simp [World.reconciling]
    · intro c hc
      have : submittedCertificates ([Call.getPod ns name] ++ t) = [] := by
        unfold submittedCertificates at hnil ⊢
        simp [List.filterMap_append, hnil, Call.submitted]
      rw [this] at hc
      cases hc
  | outOfFuel =>
    have hrec := Reconcile_outOfFuel cfg env fuel ns name w pod _ hget hz hres
    refine ⟨[.getPod ns name] ++ t, ?_, ?_⟩
    · rw [hrec]
      simp [World.reconciling]
    · intro c hc
      have : submittedCertificates ([Call.getPod ns name] ++ t) = [] := by
        unfold submittedCertificates at hnil ⊢
        simp [List.filterMap_append, hnil, Call.submitted]
      rw [this] at hc
      cases hc

/-- The Go idiom `if MapContains(m, k) then m[k] else d`: the bound value when the key is
bound, the default otherwise. -/
theorem override_or_default (a : Annotations) (k d : String) :
    (∃ l v, a = some l ∧ l.lookup k = some v ∧
      (if MapContains a k then a.index k else d) = v) ∨
    (¬ a.hasKey k ∧ (if MapContains a k then a.index k else d) = d) := by
  by_cases h : a.hasKey k
  · left
    have hm := (mapContains_iff a k).2 h
    cases a with
    | none => simp [MapContains] at hm
    | some l =>
      have hm2 : (l.lookup k).isSome = true := hm
      obtain ⟨v, hv⟩ := Option.isSome_iff_exists.1 hm2
      exact ⟨l, v, rfl, hv, by simp [MapContains, Annotations.index, hv]⟩
  · right
    have hm : MapContains a k = false := by
      cases hx : MapContains a k
      · rfl
      · exact absurd ((mapContains_iff a k).1 hx) h
    exact ⟨h, by simp [hm]⟩

/-- C21: for a fetched, non-terminating pod and any pair of defaults, the issuer kind is the
value bound to `ira.ontsys.com/issuer-kind` when that key is bound and the default kind
otherwise, the issuer name is the value bound to `ira.ontsys.com/issuer-name` when that
key is bound and the default name otherwise, each decided from its own key alone, and every
certificate the reconciler submits carries exactly that name and kind, with group
`cert-manager.io`, as its issuer reference. -/
theorem Reconcile_issuer_selection (cfg : Config) (env : Cluster) (fuel : Nat)
    (ns name : String) (w : World) (pod : Pod)
    (hget : env.getPod ns name = .ok pod) (hz : IsZero pod.DeletionTimestamp = true) :
    ∃ kind nm added,
      ((∃ l v, pod.Annotations = some l ∧ l.lookup "ira.ontsys.com/issuer-kind" = some v ∧
          kind = v) ∨
        (¬ pod.Annotations.hasKey "ira.ontsys.com/issuer-kind" ∧
          kind = cfg.DefaultIssuerKind)) ∧
      ((∃ l v, pod.Annotations = some l ∧ l.lookup "ira.ontsys.com/issuer-name" = some v ∧
          nm = v) ∨
        (¬ pod.Annotations.hasKey "ira.ontsys.com/issuer-name" ∧
          nm = cfg.DefaultIssuerName)) ∧
      (Reconcile cfg env fuel ns name w).2.calls = w.calls ++ added ∧
      ∀ c ∈ submittedCertificates added,
        c.Spec.IssuerRef = { Name := nm, Kind := kind, Group := "cert-manager.io" } := by
  obtain ⟨added, hcalls, hsub⟩ := Reconcile_submitted cfg env fuel ns name w pod hget hz
  refine ⟨(issuerSelection cfg pod.Annotations).1, (issuerSelection cfg pod.Annotations).2,
    added, ?_, ?_, hcalls, ?_⟩
  · exact override_or_default pod.Annotations "ira.ontsys.com/issuer-kind"
      cfg.DefaultIssuerKind
  · exact override_or_default pod.Annotations "ira.ontsys.com/issuer-name"
      cfg.DefaultIssuerName
  · intro c hc
    obtain ⟨n, o, _, hmem⟩ := hsub c hc
    have h3 := ((submitted_syncCalls env pod.Annotations n pod.Namespace
      (some (o.getD (NewControllerRef pod))) (issuerSelection cfg pod.Annotations).1
      (issuerSelection cfg pod.Annotations).2 w.certs).1 c hmem).2.2.1
    rw [h3]
    rfl

/-- Witness for C21: the pod `issuer` of the controller test (kind `Issuer`, name `i`), and
a pod that overrides the kind only and keeps the default name. -/
theorem Reconcile_issuer_selection_witness :
    (∃ kind nm added,
      ((∃ l v, issuerPod.Annotations = some l ∧
          l.lookup "ira.ontsys.com/issuer-kind" = some v ∧ kind = v) ∨
        (¬ issuerPod.Annotations.hasKey "ira.ontsys.com/issuer-kind" ∧
          kind = testConfig.DefaultIssuerKind)) ∧
      ((∃ l v, issuerPod.Annotations = some l ∧
          l.lookup "ira.ontsys.com/issuer-name" = some v ∧ nm = v) ∨
        (¬ issuerPod.Annotations.hasKey "ira.ontsys.com/issuer-name" ∧
          nm = testConfig.DefaultIssuerName)) ∧
      (Reconcile testConfig (testCluster [issuerPod]) 0 "default" "issuer"
        World.init).2.calls = World.init.calls ++ added ∧
      ∀ c ∈ submittedCertificates added,
        c.Spec.IssuerRef = { Name := nm, Kind := kind, Group := "cert-manager.io" }) ∧
    (submittedCertificates (Reconcile testConfig (testCluster [issuerPod]) 0 "default"
        "issuer" World.init).2.calls).map (fun c => c.Spec.IssuerRef) =
      [{ Name := "i", Kind := "Issuer", Group := "cert-manager.io" }] ∧
    (submittedCertificates (Reconcile testConfig (testCluster [issuerKindPod]) 0 "default"
        "issuer-kind" World.init).2.calls).map (fun c => c.Spec.IssuerRef) =
      [{ Name := "cluster-ira-ca", Kind := "Issuer", Group := "cert-manager.io" }] :=
  ⟨Reconcile_issuer_selection testConfig (testCluster [issuerPod]) 0 "default" "issuer"
    World.init issuerPod rfl rfl, by decide, by decide⟩

/-- C22: whatever the flags and the surroundings, `configure` returns no manager and exit
code 1 when the credential-helper image is empty, and also when the image is set but the
default issuer kind is neither `ClusterIssuer` nor `Issuer` (the empty kind included); the
image is tested first (with both wrong the image message is the one logged), and in neither
case is `ctrl.NewManager` called. -/
theorem configure_rejects_missing_image_and_bad_kind (cfg : Config) (sys : Startup)
    (f : rootFlags)
    (h : cfg.CredentialHelperImage = "" ∨
      (cfg.DefaultIssuerKind ≠ "ClusterIssuer" ∧ cfg.DefaultIssuerKind ≠ "Issuer")) :
    (configure cfg sys f).1 = (none, 1) ∧
    (configure cfg sys f).2.newManagerCalls = 0 ∧
    (cfg.CredentialHelperImage = "" →
      (configure cfg sys f).2.logs =
        ["Please provide an image to use that contains the rolesanywhere-credential-helper"]) ∧
    (cfg.CredentialHelperImage ≠ "" →
      (configure cfg sys f).2.logs =
        ["Please provide a valid issuer kind (ClusterIssuer,Issuer)"]) := by
  by_cases hi : cfg.CredentialHelperImage = ""
  · simp [configure, hi]
  · have hk := h.resolve_left hi
    have hc : issuerKinds.contains cfg.DefaultIssuerKind = false := by
      simp [issuerKinds, hk.1, hk.2]
    have hb : (cfg.CredentialHelperImage == "") = false := by simpa using hi
    simp only [configure, hb, hc]
    refine ⟨rfl, rfl, fun h0 => absurd h0 hi, fun _ => ?_⟩
    simp only [Bool.false_eq_true, if_false, Bool.not_false, if_true]
    decide

/-- Witness for C22: the two configuration tests, without an image, and with the image
`test:image` and the empty issuer kind. -/
theorem configure_rejects_missing_image_and_bad_kind_witness :
    (configure blankConfig quietStartup testFlags).1 = (none, 1) ∧
    (configure { blankConfig with CredentialHelperImage := "test:image" } quietStartup
      testFlags).1 = (none, 1) ∧
    (configure { blankConfig with CredentialHelperImage := "test:image" } quietStartup
      testFlags).2.logs = ["Please provide a valid issuer kind (ClusterIssuer,Issuer)"] :=
  have h1 := configure_rejects_missing_image_and_bad_kind blankConfig quietStartup testFlags
    (Or.inl rfl)
  have h2 := configure_rejects_missing_image_and_bad_kind
    { blankConfig with CredentialHelperImage := "test:image" } quietStartup testFlags
    (Or.inr ⟨by decide, by decide⟩)
  ⟨h1.1, h2.1, h2.2.2.2 (by decide)⟩

/-! ## Claims on repeated mutation and on the agreement of the two paths -/

/-- Owner resolution reads the name, the namespace and the owner references of the pod
only: the mutated pod resolves as the original one. -/
theorem ControllerNameFromPod_mutatedPod (cfg : Config) (env : Cluster) (fuel : Nat)
    (pod : Pod) (n endpoint : String) (resources : ResourceRequirements) (w : World) :
    ControllerNameFromPod env fuel (mutatedPod cfg pod n endpoint resources) w =
      ControllerNameFromPod env fuel pod w := rfl

/-- C27: for an admissible pod carrying the three identity annotations (its owner resolving
to `n`, the configured quantities parsing), the handler appends exactly one volume
`ira-cert`, exactly one init container `ira` and exactly one endpoint variable per
container, whatever the pod already holds; run again on the pod it has mutated it appends
all three once more, so that pod ends with the volume twice, the init container twice and
the variable twice in each container, and differs from the pod mutated once. -/
theorem Handle_mutation_not_idempotent (cfg : Config) (env : Cluster) (fuel : Nat)
    (pod : Pod) (w w' : World) (n : String) (o : Option OwnerReference) (w2 : World)
    (resources : ResourceRequirements)
    (h : pod.admissible) (ha : identityKeys pod.Annotations)
    (hres : ControllerNameFromPod env fuel pod w.handling = (.ok (n, o), w2))
    (hq : helperResources cfg env = .ok resources) :
    ∃ p1 p2 value helper,
      (Handle cfg env fuel (.ok pod) w).1 = .ok (.patch p1) ∧
      (Handle cfg env fuel (.ok p1) w').1 = .ok (.patch p2) ∧
      helper.Name = "ira" ∧
      p1.Volumes = pod.Volumes ++
        [{ Name := "ira-cert", Secret := some (GetCertName pod.Annotations n) }] ∧
      p2.Volumes = pod.Volumes ++
        [{ Name := "ira-cert", Secret := some (GetCertName pod.Annotations n) },
         { Name := "ira-cert", Secret := some (GetCertName pod.Annotations n) }] ∧
      p1.InitContainers = pod.InitContainers ++ [helper] ∧
      p2.InitContainers = pod.InitContainers ++ [helper, helper] ∧
      p1.Containers = pod.Containers.map (fun (c : Container) =>
        { c with Env := c.Env ++
            [{ Name := "AWS_EC2_METADATA_SERVICE_ENDPOINT", Value := value }] }) ∧
      p2.Containers = pod.Containers.map (fun (c : Container) =>
        { c with Env := c.Env ++
            [{ Name := "AWS_EC2_METADATA_SERVICE_ENDPOINT", Value := value },
             { Name := "AWS_EC2_METADATA_SERVICE_ENDPOINT", Value := value }] }) ∧
      p2 ≠ p1 := by
  obtain ⟨r, t, l, _, hr⟩ := ControllerNameFromPod_writer env fuel pod
  have hr1 := hr w.handling
  rw [hres] at hr1
  have hrv : r = .ok (n, o) := (congrArg Prod.fst hr1).symm
  subst hrv
  have h1 := Handle_annotated cfg env fuel pod w n o w2 resources h ha hres hq
  obtain ⟨ep, hep⟩ : ∃ ep : String, ep =
      (if (MapContains pod.Annotations "ira.ontsys.com/metadata-endpoint-trailing-slash" &&
          pod.Annotations.index "ira.ontsys.com/metadata-endpoint-trailing-slash" != "")
        then "http://127.0.0.1:9911/" else "http://127.0.0.1:9911") := ⟨_, rfl⟩
  rw [← hep] at h1
  have hres2 : ControllerNameFromPod env fuel (mutatedPod cfg pod n ep resources)
      w'.handling = (.ok (n, o), w'.handling.extend t l) := by
    rw [ControllerNameFromPod_mutatedPod]
    exact hr _
  have h2 := Handle_annotated cfg env fuel (mutatedPod cfg pod n ep resources) w' n o
    (w'.handling.extend t l) resources h ha hres2 hq
  have hep2 : (if (MapContains (mutatedPod cfg pod n ep resources).Annotations
        "ira.ontsys.com/metadata-endpoint-trailing-slash" &&
      (mutatedPod cfg pod n ep resources).Annotations.index
        "ira.ontsys.com/metadata-endpoint-trailing-slash" != "")
      then "http://127.0.0.1:9911/" else "http://127.0.0.1:9911") = ep := hep.symm
  rw [hep2] at h2
  rw [h1]
  refine ⟨mutatedPod cfg pod n ep resources,
    mutatedPod cfg (mutatedPod cfg pod n ep resources) n ep resources, ep,
    helperContainer cfg pod.Annotations resources, rfl,
    by rw [h2], rfl, rfl, ?_, rfl, ?_, rfl, ?_, ?_⟩
  · simp [mutatedPod]
  · simp [mutatedPod]
  · simp [mutatedPod, Function.comp_def]
  · intro heq
    have hlen := congrArg (fun p : Pod => p.Volumes.length) heq
    simp [mutatedPod] at hlen

/-- Witness for C27: the pod `annotated` of the webhook test, mutated twice. -/
theorem Handle_mutation_not_idempotent_witness :
    ∃ p1 p2,
      (Handle testConfig deploymentCluster 0 (.ok annotatedPod) World.init).1 =
        .ok (.patch p1) ∧
      (Handle testConfig deploymentCluster 0 (.ok p1) World.init).1 = .ok (.patch p2) ∧
      p2.Volumes = annotatedPod.Volumes ++
        [{ Name := "ira-cert", Secret := some "annotated-ira" },
         { Name := "ira-cert", Secret := some "annotated-ira" }] ∧
      p2 ≠ p1 :=
  match Handle_mutation_not_idempotent testConfig deploymentCluster 0 annotatedPod World.init
    World.init "annotated" none
    (ControllerNameFromPod deploymentCluster 0 annotatedPod World.init.handling).2
    { Limits := [("memory", { text := "128Mi" })],
      Requests := [("cpu", { text := "250m" }), ("memory", { text := "64Mi" })] }
    ⟨rfl, by decide⟩
    (by simp [identityKeys, Annotations.hasKey, annotatedPod, identityAnnotations])
    rfl rfl with
  | ⟨p1, p2, _, _, hp1, hp2, _, _, hv2, _, _, _, _, hne⟩ => ⟨p1, p2, hp1, hp2, hv2, hne⟩

/-- A patch for an admissible annotated pod: owner resolution returned some name `n`, in
whatever world it runs, and the volume appended is backed by `GetCertName` of `n`. -/
theorem Handle_patch_annotated (cfg : Config) (env : Cluster) (fuel : Nat) (pod : Pod)
    (w : World) (p : Pod) (h : pod.admissible) (ha : identityKeys pod.Annotations)
    (hp : (Handle cfg env fuel (.ok pod) w).1 = .ok (.patch p)) :
    ∃ n o, (∀ w0 : World, (ControllerNameFromPod env fuel pod w0).1 = .ok (n, o)) ∧
      p.Volumes = pod.Volumes ++
        [{ Name := "ira-cert", Secret := some (GetCertName pod.Annotations n) }] := by
  obtain ⟨r, t, l, _, hr⟩ := ControllerNameFromPod_writer env fuel pod
  have hres := hr w.handling
  have hres2 : ControllerNameFromPod env fuel pod
      (w.log "handling the pod CREATE/UPDATE event for") = (r, w.handling.extend t l) := hres
  have hp2 : (["Failed", "Succeeded"].contains pod.Phase) = false := by
    have := h.2
    simpa using this
  have hb := (identity_condition_iff pod.Annotations).2 ha
  cases r with
  | ok v =>
    obtain ⟨n, o⟩ := v
    cases hq : helperResources cfg env with
    | ok resources =>
      rw [Handle_annotated cfg env fuel pod w n o _ resources h ha hres hq] at hp
      simp only [Outcome.ok.injEq, Response.patch.injEq] at hp
      refine ⟨n, o, fun w0 => by rw [hr w0], ?_⟩
      rw [← hp]
      rfl
    | panic msg =>
      simp only [Handle, h.1, hp2, hb, hres2, hq] at hp
      simp at hp
    | outOfFuel =>
      simp only [Handle, h.1, hp2, hb, hres2, hq] at hp
      simp at hp
  | panic msg =>
    simp only [Handle, h.1, hp2, hb, hres2] at hp
    simp at hp
  | outOfFuel =>
    simp only [Handle, h.1, hp2, hb, hres2] at hp
    simp at hp

/-- C25: for a pod that is neither terminating nor finished and carries the three identity
annotations, and one cluster state for both paths, whenever the admission handler answers
with a patch and the reconciler submits a certificate for the same pod, the secret of the
injected volume `ira-cert` is the name of that certificate, which is also its secret name;
this holds whatever the length of the names and whether or not the cert annotation is
bound. -/
theorem admission_and_reconcile_agree_on_secret (cfg : Config) (env : Cluster) (fuel : Nat)
    (pod : Pod) (ns name : String) (w1 w2 : World)
    (h : pod.admissible) (ha : identityKeys pod.Annotations)
    (hget : env.getPod ns name = .ok pod) :
    ∃ added, (Reconcile cfg env fuel ns name w2).2.calls = w2.calls ++ added ∧
      ∀ p c, (Handle cfg env fuel (.ok pod) w1).1 = .ok (.patch p) →
        c ∈ submittedCertificates added →
        p.Volumes = pod.Volumes ++ [{ Name := "ira-cert", Secret := some c.Name }] ∧
        c.Spec.SecretName = c.Name := by
  obtain ⟨added, hcalls, hsub⟩ := Reconcile_submitted cfg env fuel ns name w2 pod hget h.1
  refine ⟨added, hcalls, ?_⟩
  intro p c hp hc
  obtain ⟨n, o, hn, hmem⟩ := hsub c hc
  obtain ⟨n2, o2, hn2, hvol⟩ := Handle_patch_annotated cfg env fuel pod w1 p h ha hp
  have heq := (hn World.init).symm.trans (hn2 World.init)
  simp only [Outcome.ok.injEq, Prod.mk.injEq] at heq
  obtain ⟨h1, _, h3, _⟩ := (submitted_syncCalls env pod.Annotations n pod.Namespace
    (some (o.getD (NewControllerRef pod))) (issuerSelection cfg pod.Annotations).1
    (issuerSelection cfg pod.Annotations).2 w2.certs).1 c hmem
  constructor
  · rw [hvol, h1, heq.1]
  · rw [h3, h1]
    rfl

/-- Witness for C25: the pod `annotated`; the pod with the long name, whose common name is
truncated while the secret and certificate name are not; and the pod `named-cert`, whose
cert annotation names both. -/
theorem admission_and_reconcile_agree_on_secret_witness :
    (∃ added, (Reconcile testConfig (testCluster [annotatedPod]) 0 "default" "annotated"
        World.init).2.calls = World.init.calls ++ added ∧
      ∀ p c, (Handle testConfig (testCluster [annotatedPod]) 0 (.ok annotatedPod)
          World.init).1 = .ok (.patch p) →
        c ∈ submittedCertificates added →
        p.Volumes = annotatedPod.Volumes ++ [{ Name := "ira-cert", Secret := some c.Name }] ∧
        c.Spec.SecretName = c.Name) ∧
    (∃ p, (Handle testConfig (testCluster [longNamePod]) 0 (.ok longNamePod)
        World.init).1 = .ok (.patch p) ∧
      p.Volumes.map (fun v => v.Secret) =
        [some
          "this-is-a-really-long-pod-name-that-will-cause-a-failure-when-creating-the-cert-ira"]) ∧
    (submittedCertificates (Reconcile testConfig (testCluster [longNamePod]) 0 "default"
        "this-is-a-really-long-pod-name-that-will-cause-a-failure-when-creating-the-cert"
        World.init).2.calls).map (fun c => (c.Name, c.Spec.SecretName, c.Spec.CommonName)) =
      [("this-is-a-really-long-pod-name-that-will-cause-a-failure-when-creating-the-cert-ira",
        "this-is-a-really-long-pod-name-that-will-cause-a-failure-when-creating-the-cert-ira",
        goBytes "default/this-is-a-really-long-pod-name-that-will-cause-a-failure")] ∧
    (∃ p, (Handle testConfig (testCluster [namedCertPod]) 0 (.ok namedCertPod)
        World.init).1 = .ok (.patch p) ∧
      p.Volumes.map (fun v => v.Secret) = [some "cert-name"]) ∧
    (submittedCertificates (Reconcile testConfig (testCluster [namedCertPod]) 0 "default"
        "named-cert" World.init).2.calls).map (fun c => (c.Name, c.Spec.SecretName)) =
      [("cert-name", "cert-name")] :=
  ⟨admission_and_reconcile_agree_on_secret testConfig (testCluster [annotatedPod]) 0
      annotatedPod "default" "annotated" World.init World.init ⟨rfl, by decide⟩
      (by simp [identityKeys, Annotations.hasKey, annotatedPod, identityAnnotations]) rfl,
    ⟨_, rfl, by decide⟩, by decide, ⟨_, rfl, by decide⟩, by decide⟩

/-! ## Termination of owner resolution -/

/-- The first element found by a test splits the list: nothing before it passes. -/
theorem find_first {α : Type} (q : α → Bool) :
    ∀ (l : List α) (a : α), l.find? q = some a →
      ∃ pre post, l = pre ++ a :: post ∧ (∀ p ∈ pre, q p = false) ∧ q a = true := by
  intro l
  induction l with
  | nil => intro a h; simp at h
  | cons x xs ih =>
    intro a h
    cases hx : q x with
    | true =>
      simp only [List.find?_cons, hx] at h
      cases h
      exact ⟨[], xs, rfl, by simp, hx⟩
    | false =>
      simp only [List.find?_cons, hx] at h
      obtain ⟨pre, post, hl, hpre, ha⟩ := ih a h
      refine ⟨x :: pre, post, by simp [hl], ?_, ha⟩
      intro p hp
      rcases List.mem_cons.1 hp with rfl | hp
      · exact hx
      · exact hpre p hp

/-- Scanning references that do not qualify: the loop either panics on an absent controller
flag, having issued no call, or goes on with the rest of the list. -/
theorem getRootOwnerLoop_skip_weak (env : Cluster) (ns : String)
    (recur : List OwnerReference → World → Outcome (Option OwnerReference) × World)
    (pre rest : List OwnerReference) (h : ∀ p ∈ pre, p.qualifies = false) :
    ∀ w : World,
      ((getRootOwnerLoop env ns recur (pre ++ rest) w).1 =
          .panic "invalid memory address or nil pointer dereference" ∧
        (getRootOwnerLoop env ns recur (pre ++ rest) w).2.calls = w.calls) ∨
      ∃ k, getRootOwnerLoop env ns recur (pre ++ rest) w =
        getRootOwnerLoop env ns recur rest (w.processed k) := by
  induction pre with
  | nil => intro w; exact Or.inr ⟨0, by simp [World.processed]⟩
  | cons p pre ih =>
    intro w
    have hp := h p (List.mem_cons_self _ _)
    have hrest : ∀ q ∈ pre, q.qualifies = false := fun q hm => h q (List.mem_cons_of_mem _ hm)
    cases hc : p.Controller with
    | none => exact Or.inl (by simp [getRootOwnerLoop, hc])
    | some c =>
      have hcond : (c && controllerKinds.contains p.Kind) = false := by
        simp only [OwnerReference.qualifies, hc] at hp
        cases c <;> simp_all
      have step : getRootOwnerLoop env ns recur (p :: (pre ++ rest)) w =
          getRootOwnerLoop env ns recur (pre ++ rest) (w.log "Processing owner reference") := by
        simp only [getRootOwnerLoop, hc, hcond, Bool.false_eq_true, if_false]
      rw [List.cons_append, step]
      rcases ih hrest (w.log "Processing owner reference") with ⟨h1, h2⟩ | ⟨k, hk⟩
      · exact Or.inl ⟨h1, by simpa using h2⟩
      · exact Or.inr ⟨k + 1, by rw [hk, World.log_processed]⟩

/-- With fuel for the depth of the chain, `getRootOwner` ends (it returns or panics) after at
most one lookup per level. -/
theorem getRootOwner_within (env : Cluster) (ns : String) :
    ∀ (d fuel : Nat) (owners : List OwnerReference) (w : World),
      chainWithin env ns d owners = true → d ≤ fuel →
      (getRootOwner env ns fuel owners w).1 ≠ .outOfFuel ∧
      ∃ t, (getRootOwner env ns fuel owners w).2.calls = w.calls ++ t ∧ t.length ≤ d := by
  have hnone : ∀ (d fuel : Nat) (owners : List OwnerReference) (w : World),
      owners.find? OwnerReference.qualifies = none →
      (getRootOwner env ns fuel owners w).1 ≠ .outOfFuel ∧
      ∃ t, (getRootOwner env ns fuel owners w).2.calls = w.calls ++ t ∧ t.length ≤ d := by
    intro d fuel owners w hf
    have hq : ∀ p ∈ owners, p.qualifies = false := by
      intro p hp
      have := List.find?_eq_none.1 hf p hp
      simpa using this
    have hloop : ∀ recur, _ := fun recur =>
      getRootOwnerLoop_no_candidate env ns recur owners hq w
    have hroot : ((getRootOwner env ns fuel owners w).1 = .ok none ∨
        (getRootOwner env ns fuel owners w).1 =
          .panic "invalid memory address or nil pointer dereference") ∧
        (getRootOwner env ns fuel owners w).2.calls = w.calls ∧
        (getRootOwner env ns fuel owners w).2.certs = w.certs ∧
        (getRootOwner env ns fuel owners w).2.nextVersion = w.nextVersion := by
      cases fuel <;> exact hloop _
    obtain ⟨h1, h2, _, _⟩ := hroot
    refine ⟨?_, [], by simp [h2], by simp⟩
    rcases h1 with h1 | h1 <;> rw [h1] <;> simp
  intro d
  induction d with
  | zero =>
    intro fuel owners w hchain _
    have hf : owners.find? OwnerReference.qualifies = none := by
      simpa [chainWithin] using hchain
    exact hnone 0 fuel owners w hf
  | succ d ih =>
    intro fuel owners w hchain hfuel
    cases hf : owners.find? OwnerReference.qualifies with
    | none => exact hnone (d + 1) fuel owners w hf
    | some o =>
      obtain ⟨f, rfl⟩ : ∃ f, fuel = f + 1 := ⟨fuel - 1, by omega⟩
      have hdf : d ≤ f := by omega
      obtain ⟨pre, post, hown, hpre, ho⟩ := find_first _ owners o hf
      subst hown
      simp only [getRootOwner]
      rcases getRootOwnerLoop_skip_weak env ns (getRootOwner env ns f) pre (o :: post) hpre w
        with ⟨h1, h2⟩ | ⟨k, hk⟩
      · refine ⟨by rw [h1]; simp, [], by simp [h2], by simp⟩
      · rw [hk]
        have hcand := getRootOwnerLoop_candidate env ns (getRootOwner env ns f) [] post o
          (w.processed k) (by simp) ho
        simp only [List.nil_append] at hcand
        rw [hcand]
        cases hg : env.getObject ns o.APIVersion o.Kind o.Name with
        | error err =>
          cases hnf : IsNotFound (some err) with
          | true =>
            simp only [hnf, if_true]
            exact ⟨by simp, [lookupOf ns o], by simp [World.processed, World.call, World.log],
              by simp⟩
          | false =>
            simp only [hnf, Bool.false_eq_true, if_false]
            exact ⟨by simp, [lookupOf ns o], by simp [World.processed, World.call],
              by simp⟩
        | ok parents =>
          have hch : chainWithin env ns d parents = true := by
            simpa [chainWithin, hf, hg] using hchain
          have hrec := ih f parents (((w.processed k).processed ([] : List
            OwnerReference).length.succ).call (lookupOf ns o)) hch hdf
          simp only
          generalize getRootOwner env ns f parents _ = res at hrec ⊢
          obtain ⟨r, w2⟩ := res
          obtain ⟨hr, t, ht, hlen⟩ := hrec
          simp only at hr ht
          refine ⟨?_, lookupOf ns o :: t, ?_, by simpa using hlen⟩
          · cases r with
            | ok v => cases v <;> simp
            | panic m => simp
            | outOfFuel => exact absurd rfl hr
          · have : w2.calls = w.calls ++ lookupOf ns o :: t := by
              rw [ht]; simp [World.processed, World.call]
            cases r with
            | ok v => cases v <;> simpa using this
            | panic m => simpa using this
            | outOfFuel => exact absurd rfl hr

/-- On the cyclic cluster the climb from the ReplicaSet reference uses up any fuel, with one
lookup per level reached. -/
theorem getRootOwner_cyclic : ∀ (fuel : Nat) (w : World),
    (getRootOwner cyclicCluster "default" fuel [replicaSetRef] w).1 = .outOfFuel ∧
    (getRootOwner cyclicCluster "default" fuel [replicaSetRef] w).2.calls.length =
      w.calls.length + (fuel + 1) := by
  intro fuel
  induction fuel with
  | zero =>
    intro w
    simp [getRootOwner, getRootOwnerLoop, replicaSetRef, cyclicCluster, controllerKinds,
      World.call, World.log]
  | succ f ih =>
    intro w
    have hcand := getRootOwnerLoop_candidate cyclicCluster "default"
      (getRootOwner cyclicCluster "default" f) [] [] replicaSetRef w (by simp) (by decide)
    simp only [List.nil_append] at hcand
    simp only [getRootOwner]
    rw [hcand]
    have hg : cyclicCluster.getObject "default" replicaSetRef.APIVersion replicaSetRef.Kind
        replicaSetRef.Name = .ok [replicaSetRef] := rfl
    simp only [hg]
    have hrec := ih (((w.processed (([] : List OwnerReference).length + 1)).call
      (lookupOf "default" replicaSetRef)))
    generalize getRootOwner cyclicCluster "default" f [replicaSetRef] _ = res at hrec ⊢
    obtain ⟨r, w2⟩ := res
    obtain ⟨h1, h2⟩ := hrec
    simp only at h1 h2
    subst h1
    simp [h2, World.processed, World.call]
    omega

/-- The loop consults `recur` only for the object fetched for the first qualifying
reference. -/
theorem getRootOwnerLoop_congr (env : Cluster) (ns : String)
    (recur recur2 : List OwnerReference → World → Outcome (Option OwnerReference) × World) :
    ∀ (owners : List OwnerReference),
      (∀ o, owners.find? OwnerReference.qualifies = some o → ∀ parents,
        env.getObject ns o.APIVersion o.Kind o.Name = .ok parents →
        ∀ w, recur parents w = recur2 parents w) →
      ∀ w, getRootOwnerLoop env ns recur owners w = getRootOwnerLoop env ns recur2 owners w := by
  intro owners
  induction owners with
  | nil => intro _ w; simp [getRootOwnerLoop]
  | cons p rest ih =>
    intro h w
    cases hc : p.Controller with
    | none => simp [getRootOwnerLoop, hc]
    | some c =>
      cases hcond : (c && controllerKinds.contains p.Kind) with
      | false =>
        have hq : p.qualifies = false := by
          simp only [OwnerReference.qualifies, hc]
          cases c <;> simp_all
        have hrest : ∀ o, rest.find? OwnerReference.qualifies = some o → ∀ parents,
            env.getObject ns o.APIVersion o.Kind o.Name = .ok parents →
            ∀ w, recur parents w = recur2 parents w := by
          intro o ho
          exact h o (by simp [List.find?_cons, hq, ho])
        simp only [getRootOwnerLoop, hc, hcond, Bool.false_eq_true, if_false]
        exact ih hrest _
      | true =>
        have hq : p.qualifies = true := by
          simp only [OwnerReference.qualifies, hc]
          cases c <;> simp_all
        have hp := h p (by simp [List.find?_cons, hq])
        simp only [getRootOwnerLoop, hc, hcond, if_true]
        cases hg : env.getObject ns p.APIVersion p.Kind p.Name with
        | error err => rfl
        | ok parents => simp only [hp parents hg]

/-- Fuel beyond the depth of the chain changes nothing: the run with any fuel that covers
the depth is the run with the depth as fuel. -/
theorem getRootOwner_fuel_irrelevant (env : Cluster) (ns : String) :
    ∀ (d fuel : Nat) (owners : List OwnerReference) (w : World),
      chainWithin env ns d owners = true → d ≤ fuel →
      getRootOwner env ns fuel owners w = getRootOwner env ns d owners w := by
  intro d
  induction d with
  | zero =>
    intro fuel owners w hchain _
    have hf : owners.find? OwnerReference.qualifies = none := by
      simpa [chainWithin] using hchain
    cases fuel with
    | zero => rfl
    | succ f =>
      simp only [getRootOwner]
      exact getRootOwnerLoop_congr env ns _ _ owners (by simp [hf]) w
  | succ d ih =>
    intro fuel owners w hchain hfuel
    obtain ⟨f, rfl⟩ : ∃ f, fuel = f + 1 := ⟨fuel - 1, by omega⟩
    have hdf : d ≤ f := by omega
    simp only [getRootOwner]
    refine getRootOwnerLoop_congr env ns _ _ owners ?_ w
    intro o ho parents hg w2
    have hch : chainWithin env ns d parents = true := by
      simpa [chainWithin, ho, hg] using hchain
    exact ih f parents w2 hch hdf

/-- C24: when the chain of first qualifying controller references that starts from the
given owner references has at most `d` references, `getRootOwner` run with any recursion
bound of at least `d` ends by itself (it returns or panics, the bound is not reached), its
run is the run with bound `d`, and it adds at most `d` calls, all of them lookups; on the
cluster with a cycle of ownership no depth bounds the chain and the climb goes on to any
recursion bound, with one more lookup for each level allowed. -/
theorem getRootOwner_terminates_within_chain_depth (env : Cluster) (ns : String)
    (d fuel : Nat) (owners : List OwnerReference) (w : World)
    (hchain : chainWithin env ns d owners = true) (hfuel : d ≤ fuel) :
    (getRootOwner env ns fuel owners w).1 ≠ .outOfFuel ∧
    getRootOwner env ns fuel owners w = getRootOwner env ns d owners w ∧
    (∃ t, (getRootOwner env ns fuel owners w).2.calls = w.calls ++ t ∧ t.length ≤ d) ∧
    (∀ n, chainWithin cyclicCluster "default" n [replicaSetRef] = false) ∧
    (∀ (n : Nat) (w2 : World),
      (getRootOwner cyclicCluster "default" n [replicaSetRef] w2).1 = .outOfFuel ∧
      (getRootOwner cyclicCluster "default" n [replicaSetRef] w2).2.calls.length =
        w2.calls.length + (n + 1)) := by
  have h := getRootOwner_within env ns d fuel owners w hchain hfuel
  refine ⟨h.1, getRootOwner_fuel_irrelevant env ns d fuel owners w hchain hfuel, h.2, ?_,
    getRootOwner_cyclic⟩
  intro n
  induction n with
  | zero => decide
  | succ n ih =>
    have hf : [replicaSetRef].find? OwnerReference.qualifies = some replicaSetRef := by decide
    have hg : cyclicCluster.getObject "default" replicaSetRef.APIVersion replicaSetRef.Kind
        replicaSetRef.Name = .ok [replicaSetRef] := rfl
    simp only [chainWithin, hf, hg, ih]

theorem getRootOwner_terminates_within_chain_depth_witness :
    chainWithin deploymentCluster "default" 2 deploymentPod.OwnerReferences = true ∧
    (getRootOwner deploymentCluster "default" 5 deploymentPod.OwnerReferences World.init).1 =
      .ok (some deploymentRef) ∧
    (getRootOwner deploymentCluster "default" 5 deploymentPod.OwnerReferences
      World.init).1 ≠ .outOfFuel ∧
    (∃ t, (getRootOwner deploymentCluster "default" 5 deploymentPod.OwnerReferences
      World.init).2.calls = World.init.calls ++ t ∧ t.length ≤ 2) ∧
    (getRootOwner cyclicCluster "default" 5 [replicaSetRef] World.init).1 = .outOfFuel :=
  have h := getRootOwner_terminates_within_chain_depth deploymentCluster "default" 2 5
    deploymentPod.OwnerReferences World.init (by decide) (by decide)
  ⟨by decide, by decide, h.1, h.2.2.1, (h.2.2.2.2 5 World.init).1⟩

/-! ## A lookup that fails aborts the operation -/

/-- When every reference scanned has its controller flag set, the climb to a failing lookup
panics with the message of the lookup, after one lookup per level. -/
theorem getRootOwner_failingChain_flags (env : Cluster) (ns : String)
    (chain : List OwnerReference) (bad : OwnerReference) :
    ∀ (fuel : Nat) (owners : List OwnerReference) (w : World),
      failingChain env ns (fun p => p.Controller ≠ none) owners chain bad →
      chain.length ≤ fuel →
      (getRootOwner env ns fuel owners w).1 = .panic "could not get owner" ∧
      (getRootOwner env ns fuel owners w).2.calls =
        w.calls ++ (chain ++ [bad]).map (lookupOf ns) := by
  induction chain with
  | nil =>
    intro fuel owners w h _
    obtain ⟨pre, post, err, hown, hpre, hb, hget, hnf⟩ := h
    have hpre2 : ∀ p ∈ pre, p.Controller ≠ none ∧ p.qualifies = false :=
      fun p hp => ⟨(hpre p hp).2, (hpre p hp).1⟩
    subst hown
    cases fuel <;>
      simp only [getRootOwner] <;>
      rw [getRootOwnerLoop_candidate env ns _ pre post bad w hpre2 hb] <;>
      simp [hget, hnf, World.processed, World.call]
  | cons o rest ih =>
    intro fuel owners w h hfuel
    obtain ⟨pre, post, parents, hown, hpre, ho, hget, hrest⟩ := h
    have hpre2 : ∀ p ∈ pre, p.Controller ≠ none ∧ p.qualifies = false :=
      fun p hp => ⟨(hpre p hp).2, (hpre p hp).1⟩
    cases fuel with
    | zero => simp at hfuel
    | succ fuel =>
      have hlen : rest.length ≤ fuel := by simpa using hfuel
      have hrec := ih fuel parents ((w.processed (pre.length + 1)).call (lookupOf ns o))
        hrest hlen
      subst hown
      simp only [getRootOwner]
      rw [getRootOwnerLoop_candidate env ns _ pre post o w hpre2 ho]
      simp only [hget]
      generalize getRootOwner env ns fuel parents
        ((w.processed (pre.length + 1)).call (lookupOf ns o)) = res at hrec
      obtain ⟨r, w2⟩ := res
      obtain ⟨h1, h2⟩ := hrec
      simp only at h1 h2
      subst h1
      simp [h2, World.processed, World.call]

/-- The climb to a failing lookup panics, whatever the controller flags of the references
scanned on the way. -/
theorem getRootOwner_failingChain (env : Cluster) (ns : String)
    (chain : List OwnerReference) (bad : OwnerReference) :
    ∀ (fuel : Nat) (owners : List OwnerReference) (w : World),
      failingChain env ns (fun _ => True) owners chain bad → chain.length ≤ fuel →
      ∃ msg, (getRootOwner env ns fuel owners w).1 = .panic msg := by
  induction chain with
  | nil =>
    intro fuel owners w h _
    obtain ⟨pre, post, err, hown, hpre, hb, hget, hnf⟩ := h
    have hpre2 : ∀ p ∈ pre, p.qualifies = false := fun p hp => (hpre p hp).1
    subst hown
    have key : ∀ recur, ∃ msg,
        (getRootOwnerLoop env ns recur (pre ++ bad :: post) w).1 = .panic msg := by
      intro recur
      rcases getRootOwnerLoop_skip_weak env ns recur pre (bad :: post) hpre2 w
        with ⟨h1, _⟩ | ⟨k, hk⟩
      · exact ⟨_, h1⟩
      · have hcand := getRootOwnerLoop_candidate env ns recur [] post bad
          (w.processed k) (by simp) hb
        simp only [List.nil_append] at hcand
        rw [hk, hcand]
        simp only [hget, hnf, Bool.false_eq_true, if_false]
        exact ⟨_, rfl⟩
    cases fuel <;> exact key _
  | cons o rest ih =>
    intro fuel owners w h hfuel
    obtain ⟨pre, post, parents, hown, hpre, ho, hget, hrest⟩ := h
    have hpre2 : ∀ p ∈ pre, p.qualifies = false := fun p hp => (hpre p hp).1
    cases fuel with
    | zero => simp at hfuel
    | succ fuel =>
      have hlen : rest.length ≤ fuel := by simpa using hfuel
      subst hown
      simp only [getRootOwner]
      rcases getRootOwnerLoop_skip_weak env ns (getRootOwner env ns fuel) pre (o :: post)
        hpre2 w with ⟨h1, _⟩ | ⟨k, hk⟩
      · exact ⟨_, h1⟩
      · have hcand := getRootOwnerLoop_candidate env ns (getRootOwner env ns fuel) [] post o
          (w.processed k) (by simp) ho
        simp only [List.nil_append] at hcand
        rw [hk, hcand]
        simp only [hget]
        obtain ⟨msg, hmsg⟩ := ih fuel parents
          (((w.processed k).processed (([] : List OwnerReference).length + 1)).call
            (lookupOf ns o)) hrest hlen
        generalize getRootOwner env ns fuel parents _ = res at hmsg ⊢
        obtain ⟨r, w2⟩ := res
        simp only at hmsg
        subst hmsg
        exact ⟨msg, rfl⟩

/-- Owner resolution panics when the climb reaches a lookup that fails. -/
theorem ControllerNameFromPod_failingChain (env : Cluster) (fuel : Nat) (pod : Pod)
    (chain : List OwnerReference) (bad : OwnerReference)
    (hchain : failingChain env pod.Namespace (fun _ => True) pod.OwnerReferences chain bad)
    (hfuel : chain.length ≤ fuel) (w : World) :
    ∃ msg, (ControllerNameFromPod env fuel pod w).1 = .panic msg := by
  unfold ControllerNameFromPod
  cases hcl : env.clientErr with
  | true => exact ⟨"could not get client", by simp⟩
  | false =>
    simp only [Bool.false_eq_true, if_false]
    obtain ⟨msg, hmsg⟩ := getRootOwner_failingChain env pod.Namespace chain bad fuel
      pod.OwnerReferences (w.call .newClient) hchain hfuel
    generalize getRootOwner env pod.Namespace fuel pod.OwnerReferences (w.call .newClient) = res
      at hmsg ⊢
    obtain ⟨r, w2⟩ := res
    simp only at hmsg
    subst hmsg
    exact ⟨msg, rfl⟩

/-- The handler on an admissible annotated pod whose owner resolution panics: the panic
goes through, no response is produced. -/
theorem Handle_panic (cfg : Config) (env : Cluster) (fuel : Nat) (pod : Pod) (w : World)
    (msg : String) (w2 : World)
    (h : pod.admissible) (ha : identityKeys pod.Annotations)
    (hres : ControllerNameFromPod env fuel pod w.handling = (.panic msg, w2)) :
    Handle cfg env fuel (.ok pod) w = (.panic msg, w2) := by
  have hp2 : (["Failed", "Succeeded"].contains pod.Phase) = false := by
    have := h.2
    simpa using this
  rw [← identity_condition_iff] at ha
  have hres2 : ControllerNameFromPod env fuel pod
      (w.log "handling the pod CREATE/UPDATE event for") = (.panic msg, w2) := hres
  simp only [Handle, h.1, hp2, ha, hres2]
  simp

/-- C23: for every pod whose owner chain reaches a qualifying reference whose lookup fails
with an error other than not-found, at the first level or deeper, owner resolution run with
a recursion bound that covers the chain ends in a panic, so it returns neither the pod name
nor an owner; the panic is `could not get owner`, after one lookup per level, when the
client is built and every reference scanned on the way has its controller flag set; the
reconciler of such a live pod ends in the same panic having called nothing of the
certificate client and leaving the store as it was, and the admission handler of such an
admissible annotated pod ends in the panic without a response. -/
theorem lookup_failure_aborts_resolution (env : Cluster) (fuel : Nat) (pod : Pod)
    (chain : List OwnerReference) (bad : OwnerReference)
    (hchain : failingChain env pod.Namespace (fun _ => True) pod.OwnerReferences chain bad)
    (hfuel : chain.length ≤ fuel) :
    (∀ w, ∃ msg, (ControllerNameFromPod env fuel pod w).1 = .panic msg) ∧
    (env.clientErr = false →
      failingChain env pod.Namespace (fun p => p.Controller ≠ none) pod.OwnerReferences
        chain bad →
      ∀ w, (ControllerNameFromPod env fuel pod w).1 = .panic "could not get owner" ∧
        (ControllerNameFromPod env fuel pod w).2.calls =
          w.calls ++ .newClient :: (chain ++ [bad]).map (lookupOf pod.Namespace)) ∧
    (∀ (cfg : Config) (ns name : String) (w : World),
      env.getPod ns name = .ok pod → IsZero pod.DeletionTimestamp = true →
      ∃ msg t, (Reconcile cfg env fuel ns name w).1 = .panic msg ∧
        (Reconcile cfg env fuel ns name w).2.calls = w.calls ++ .getPod ns name :: t ∧
        (∀ c ∈ t, Call.isCert c = false) ∧
        (Reconcile cfg env fuel ns name w).2.certs = w.certs) ∧
    (∀ (cfg : Config) (w : World), pod.admissible → identityKeys pod.Annotations →
      ∃ msg, (Handle cfg env fuel (.ok pod) w).1 = .panic msg) := by
  have hpanic := ControllerNameFromPod_failingChain env fuel pod chain bad hchain hfuel
  obtain ⟨r, t, l, ht, hw⟩ := ControllerNameFromPod_writer env fuel pod
  obtain ⟨msg, hmsg⟩ := hpanic World.init
  have hr : r = .panic msg := by
    rw [hw World.init] at hmsg
    exact hmsg
  subst hr
  refine ⟨hpanic, ?_, ?_, ?_⟩
  · intro hclient hflags w
    have h := getRootOwner_failingChain_flags env pod.Namespace chain bad fuel
      pod.OwnerReferences (w.call .newClient) hflags hfuel
    unfold ControllerNameFromPod
    simp only [hclient, Bool.false_eq_true, if_false]
    generalize getRootOwner env pod.Namespace fuel pod.OwnerReferences (w.call .newClient) = res
      at h
    obtain ⟨r2, w2⟩ := res
    obtain ⟨h1, h2⟩ := h
    simp only at h1 h2
    subst h1
    simp [h2, World.call]
  · intro cfg ns name w hget hz
    have hrec := Reconcile_panic cfg env fuel ns name w pod msg
      ((w.reconciling ns name).extend t l) hget hz (hw _)
    refine ⟨msg, t, by rw [hrec], ?_, ht, ?_⟩
    · rw [hrec]; simp [World.reconciling, World.call, World.log]
    · rw [hrec]; simp [World.reconciling, World.call, World.log]
  · intro cfg w hadm ha
    exact ⟨msg, by rw [Handle_panic cfg env fuel pod w msg _ hadm ha (hw _)]⟩

theorem lookup_failure_aborts_resolution_witness :
    failingChain failingLookupCluster deploymentPod.Namespace (fun _ => True)
      deploymentPod.OwnerReferences [replicaSetRef] deploymentRef ∧
    (ControllerNameFromPod failingLookupCluster 1 deploymentPod World.init).1 =
      .panic "could not get owner" ∧
    (∃ msg, (ControllerNameFromPod failingLookupCluster 1 deploymentPod World.init).1 =
      .panic msg) ∧
    (∃ msg t, (Reconcile testConfig failingLookupCluster 1 "default" "deploy-76b849fb6c-dkmgf"
        World.init).1 = .panic msg ∧
      (Reconcile testConfig failingLookupCluster 1 "default" "deploy-76b849fb6c-dkmgf"
        World.init).2.calls =
        World.init.calls ++ .getPod "default" "deploy-76b849fb6c-dkmgf" :: t ∧
      (∀ c ∈ t, Call.isCert c = false) ∧
      (Reconcile testConfig failingLookupCluster 1 "default" "deploy-76b849fb6c-dkmgf"
        World.init).2.certs = World.init.certs) ∧
    (∃ msg, (Handle testConfig failingLookupCluster 1 (.ok deploymentPod) World.init).1 =
      .panic msg) :=
  have hchain : failingChain failingLookupCluster deploymentPod.Namespace (fun _ => True)
      deploymentPod.OwnerReferences [replicaSetRef] deploymentRef :=
    ⟨[], [], [deploymentRef], rfl, by simp, by decide, rfl,
      ⟨[], [], .other "etcdserver: request timed out", rfl, by simp, by decide, rfl, rfl⟩⟩
  have h := lookup_failure_aborts_resolution failingLookupCluster 1 deploymentPod
    [replicaSetRef] deploymentRef hchain (by decide)
  ⟨hchain, by decide, h.1 World.init,
    h.2.2.1 testConfig "default" "deploy-76b849fb6c-dkmgf" World.init rfl rfl,
    h.2.2.2 testConfig World.init ⟨rfl, by decide⟩
      (by simp [identityKeys, Annotations.hasKey, deploymentPod, Pod.named,
        identityAnnotations])⟩

/-! ## A missing ancestor above the first level -/

/-- A climb candidate that is found while the first qualifying reference of the fetched
object is not found: when every reference scanned has its controller flag set, resolution
returns the candidate as the root, after the two lookups. -/
theorem ControllerNameFromPod_missing_ancestor (env : Cluster) (fuel : Nat) (pod : Pod)
    (w : World) (pre post pre2 post2 : List OwnerReference) (o1 o2 : OwnerReference)
    (err : ApiError) (hclient : env.clientErr = false)
    (hown : pod.OwnerReferences = pre ++ o1 :: post)
    (hpre : ∀ p ∈ pre, p.Controller ≠ none ∧ p.qualifies = false) (ho1 : o1.qualifies = true)
    (hget1 : env.getObject pod.Namespace o1.APIVersion o1.Kind o1.Name =
      .ok (pre2 ++ o2 :: post2))
    (hpre2 : ∀ p ∈ pre2, p.Controller ≠ none ∧ p.qualifies = false)
    (ho2 : o2.qualifies = true)
    (hget2 : env.getObject pod.Namespace o2.APIVersion o2.Kind o2.Name = .error err)
    (hnf : IsNotFound (some err) = true) :
    (ControllerNameFromPod env (fuel + 1) pod w).1 =
      .ok (o1.Name ++ "-" ++ toLower o1.Kind, some o1) ∧
    (ControllerNameFromPod env (fuel + 1) pod w).2.calls =
      w.calls ++ [.newClient, lookupOf pod.Namespace o1, lookupOf pod.Namespace o2] := by
  unfold ControllerNameFromPod
  simp only [hclient, Bool.false_eq_true, if_false, hown, getRootOwner]
  rw [getRootOwnerLoop_candidate env pod.Namespace _ pre post o1 _ hpre ho1]
  simp only [hget1]
  cases fuel <;>
    simp only [getRootOwner] <;>
    rw [getRootOwnerLoop_candidate env pod.Namespace _ pre2 post2 o2 _ hpre2 ho2] <;>
    simp [hget2, hnf, World.processed, World.call, World.log]

/-- C26: the pod of the Deployment test in a cluster where its ReplicaSet is found and the
Deployment above it is not: resolution returns the ReplicaSet reference as the root, named
`deploy-76b849fb6c-replicaset`; but when the ReplicaSet lists a plain owner reference (no
controller flag) before its controller reference, the Deployment reference is still its
first qualifying reference and still not found, and resolution returns nothing: it panics
on the absent flag. -/
theorem ControllerNameFromPod_missing_ancestor_unset_flag :
    (∀ fuel, (ControllerNameFromPod (orphanedReplicaSetCluster [deploymentRef]) (fuel + 1)
      deploymentPod World.init).1 =
        .ok ("deploy-76b849fb6c-replicaset", some replicaSetRef)) ∧
    deploymentPod.OwnerReferences.find? OwnerReference.qualifies = some replicaSetRef ∧
    [plainOwnerRef, deploymentRef].find? OwnerReference.qualifies = some deploymentRef ∧
    (orphanedReplicaSetCluster [plainOwnerRef, deploymentRef]).getObject "default"
      replicaSetRef.APIVersion replicaSetRef.Kind replicaSetRef.Name =
        .ok [plainOwnerRef, deploymentRef] ∧
    (orphanedReplicaSetCluster [plainOwnerRef, deploymentRef]).getObject "default"
      deploymentRef.APIVersion deploymentRef.Kind deploymentRef.Name = .error .notFound ∧
    (∀ fuel, (ControllerNameFromPod (orphanedReplicaSetCluster [plainOwnerRef, deploymentRef])
      (fuel + 1) deploymentPod World.init).1 =
        .panic "invalid memory address or nil pointer dereference") := by
  refine ⟨?_, by decide, by decide, rfl, rfl, ?_⟩
  · intro fuel
    exact (ControllerNameFromPod_missing_ancestor (orphanedReplicaSetCluster [deploymentRef])
      fuel deploymentPod World.init [] [] [] [] replicaSetRef deploymentRef .notFound rfl rfl
      (by simp) (by decide) rfl (by simp) (by decide) rfl rfl).1
  · intro fuel
    cases fuel <;> rfl

end Ira
